import Mathlib

/-!
# LesScope: acquisition, trigger and configuration core

A shallow embedding of the LesScope firmware sources

* `LScopeCfg/LScopeCfg.h`        (constants, `range`, `channel_val_t`, `cfg_t`)
* `LScopeSample/LScopeSample.c`  (tick handler, edge handler, trigger watchdog)
* `LScopeMenu/LScopeMenu.cpp`    (value editor, checksum, EEPROM save / load)

Conventions of the embedding.

* `uint8_t` / `uint16_t` / `unsigned long` values are `Nat`, `int8_t` / `int16_t`
  values are `Int`; every place where the C code converts or can overflow has
  an explicit wrap (`% 256`, `toInt8`, `% 65536`, `% 2^32`).
* Global variables become fields of an explicit state record which every
  handler takes and returns.
* Hardware inputs (the ADC data register, `millis()`, the encoder flags, the
  EEPROM cells) are parameters of the handlers.  Writes to I/O registers that
  no other modelled code reads (test pin, ADC multiplexer, display) are left out.
-/

namespace LesScope

/-! ## LScopeCfg.h -/

/-- The C constant `SET_OFF` (`false`), as it compares with a `uint8_t` field. -/
def SET_OFF : Nat := 0
/-- The C constant `SET_ON` (`true`), as it is stored in a `uint8_t` field. -/
def SET_ON : Nat := 1
def SET_AMP_LEVEL_1 : Nat := 1
def SET_AMP_LEVEL_2 : Nat := 2
def SET_AMP_LEVEL_3 : Nat := 3
def SET_AMP_LEVEL_4 : Nat := 4
def SET_TRIG_OFF : Nat := 0
def SET_TRIG_AUTO_P : Nat := 1
def SET_TRIG_AUTO_N : Nat := 2
def SET_TRIG_NORM_P : Nat := 3
def SET_TRIG_NORM_N : Nat := 4
def SET_TRIG_LEVEL_INTERN : Nat := 0
def SET_TRIG_LEVEL_EXTERN : Nat := 1
def SET_OPT_SINGLE : Nat := 1
def SET_OPT_DUAL : Nat := 2
def SET_OPT_DUAL_PLUGGED : Nat := 3
def SET_OPT_FREQU : Nat := 4
def SET_OPT_TUNING : Nat := 5

def TRIGGER_TIMEOUT_VALUE_MSEC : Nat := 2000

def TIMER2_50USEC : Int := 0
def TIMER2_01MSEC : Int := 1
def TIMER2_02MSEC : Int := 3
def TIMER2_05MSEC : Int := 9
def TIMER2_1MSEC : Int := 19
def TIMER2_2MSEC : Int := 39
def TIMER2_5MSEC : Int := 99
def TIMER2_10MSEC : Int := 199
def TIMER2_20MSEC : Int := 399
def TIMER2_50MSEC : Int := 999
def TIMER2_100MSEC : Int := 1999

def SAMPLE_DATA_SIZE : Nat := 128

def ADDR_CHECKSUM : Nat := 0
def ADDR_CFG_DATA_BASE : Nat := 2

/-- The macro `range(checkit,low,high)`:
`((checkit)<(low)?(low):((checkit)>(high)?(high):(checkit)))`. -/
def range (checkit low high : Int) : Int :=
  if checkit < low then low else if checkit > high then high else checkit

/-- Conversion of an integer to `int8_t` (two's complement wrap, as avr-gcc does). -/
def toInt8 (x : Int) : Int := (x + 128) % 256 - 128

/-- Conversion of an integer to `uint8_t`. -/
def toUInt8 (x : Int) : Nat := (x % 256).toNat

/-- The record `channel_val_t`. -/
structure channel_val_t where
  status : Nat
  amplifier : Nat
  time : Nat
  offset : Int
  trigger_mode : Nat
  trigger_level : Nat
  option : Nat
  sample_draw : Bool
  sample_start : Bool
  deriving DecidableEq, Repr

/-- The enumeration `channel_nr_t`. -/
inductive channel_nr_t where
  | eChannel_nr1
  | eChannel_nr2
  deriving DecidableEq, Repr

open channel_nr_t

/-- The record `cfg_t`; the array `chan[CHANNEL_NUMBERS]` is the pair
`chan1` (`chan[eChannel_nr1]`), `chan2` (`chan[eChannel_nr2]`). -/
structure cfg_t where
  chan1 : channel_val_t
  chan2 : channel_val_t
  selected_channel : channel_nr_t
  deriving DecidableEq, Repr

/-- Read access `g_cfg.chan[n]`. -/
def cfg_t.chan (g : cfg_t) : channel_nr_t → channel_val_t
  | eChannel_nr1 => g.chan1
  | eChannel_nr2 => g.chan2

/-- Write access `g_cfg.chan[n] = v`. -/
def cfg_t.setChan (g : cfg_t) (n : channel_nr_t) (v : channel_val_t) : cfg_t :=
  match n with
  | eChannel_nr1 => { g with chan1 := v }
  | eChannel_nr2 => { g with chan2 := v }

/-! ## LScopeSample.h / LScopeSample.c -/

/-- The record `sample_t`: `data[SAMPLE_DATA_SIZE]` and the write index.
A store `data[i] = v` is `List.set`; for `i` outside the array the C store is
undefined, here it leaves the list as it is. -/
structure sample_t where
  data : List Nat
  index : Nat
  deriving DecidableEq, Repr

/-- The table `_counter_values[]` (13 entries). -/
def _counter_values : List Int :=
  [ TIMER2_05MSEC, TIMER2_50USEC, TIMER2_01MSEC, TIMER2_02MSEC, TIMER2_05MSEC,
    TIMER2_1MSEC, TIMER2_2MSEC, TIMER2_5MSEC, TIMER2_10MSEC, TIMER2_20MSEC,
    TIMER2_50MSEC, TIMER2_100MSEC, TIMER2_50MSEC ]

/-- The lookup `_counter_values[t]`.  For `t > 12` the C read is outside the
table (undefined); the embedding then yields `0`. -/
def counterValue (t : Nat) : Int := _counter_values.getD t 0

/-- The globals shared by the sampler, the trigger engine and the menu:
`g_cfg`, `channel1`, `channel2`, `_sample_counter1`, `_sample_counter2`,
`_Trigger_Timeout`. -/
structure State where
  g_cfg : cfg_t
  channel1 : sample_t
  channel2 : sample_t
  _sample_counter1 : Int
  _sample_counter2 : Int
  _Trigger_Timeout : Nat
  deriving DecidableEq, Repr

/-- The function `set_counter_defaults`. -/
def set_counter_defaults (s : State) : State :=
  { s with
    _sample_counter1 := counterValue (s.g_cfg.chan eChannel_nr1).time
    _sample_counter2 := counterValue (s.g_cfg.chan eChannel_nr2).time }

/-- The sample stored by the tick handler: `ADC/16`, converted to `uint8_t`;
`adc` is the value read from the ADC data register. -/
def adcSample (adc : Nat) : Nat := (adc / 16) % 256

/-- Lines 186-212 of `ISR(TIMER2_COMPA_vect)`: the channel-1 part of the tick
handler. `adc` is the ADC data register after the conversion on input A0. -/
def ISR_TIMER2_COMPA_chan1 (adc : Nat) (s : State) : State :=
  if s.g_cfg.chan1.sample_start then
    if s._sample_counter1 > 0 then
      { s with _sample_counter1 := s._sample_counter1 - 1 }
    else
      -- channel1.data[channel1.index] = ADC/16; channel1.index++;
      let s1 : State := { s with channel1 :=
        { data := s.channel1.data.set s.channel1.index (adcSample adc)
          index := (s.channel1.index + 1) % 256 } }
      let s2 : State :=
        if s1.channel1.index ≥ SAMPLE_DATA_SIZE then
          let s1a : State := { s1 with channel1 := { s1.channel1 with index := 0 } }
          if s1a.g_cfg.chan1.trigger_mode ≠ SET_OFF then
            { s1a with g_cfg := { s1a.g_cfg with chan1 :=
                { s1a.g_cfg.chan1 with sample_start := false, sample_draw := true } } }
          else s1a
        else s1
      { s2 with _sample_counter1 := counterValue s2.g_cfg.chan1.time }
  else
    { s with _sample_counter1 := counterValue s.g_cfg.chan1.time }

/-- Lines 214-245 of `ISR(TIMER2_COMPA_vect)`: the channel-2 part of the tick
handler. `adc` is the ADC data register after the conversion on input A1. -/
def ISR_TIMER2_COMPA_chan2 (adc : Nat) (s : State) : State :=
  if s.g_cfg.chan2.sample_draw = false then
    if s.g_cfg.chan2.status = 1 ∨ s.g_cfg.chan1.option = SET_OPT_DUAL_PLUGGED then
      if s._sample_counter2 > 0 then
        { s with _sample_counter2 := s._sample_counter2 - 1 }
      else
        let s1 : State := { s with channel2 :=
          { data := s.channel2.data.set s.channel2.index (adcSample adc)
            index := (s.channel2.index + 1) % 256 } }
        let s2 : State :=
          if s1.channel2.index ≥ SAMPLE_DATA_SIZE then
            { s1 with
              channel2 := { s1.channel2 with index := 0 }
              g_cfg := { s1.g_cfg with chan2 := { s1.g_cfg.chan2 with sample_draw := true } } }
          else s1
        { s2 with _sample_counter2 := counterValue s2.g_cfg.chan2.time }
    else s
  else s

/-- The tick handler `ISR(TIMER2_COMPA_vect)`: channel 1, then channel 2.
`adc1`, `adc2` are the conversion results a tick would read for A0 and A1. -/
def ISR_TIMER2_COMPA (adc1 adc2 : Nat) (s : State) : State :=
  ISR_TIMER2_COMPA_chan2 adc2 (ISR_TIMER2_COMPA_chan1 adc1 s)

/-- The edge handler `ISR(ANALOG_COMP_vect)`; `millis` is the clock value
returned by `millis()`. -/
def ISR_ANALOG_COMP (millis : Nat) (s : State) : State :=
  let s1 : State :=
    if s.g_cfg.chan1.trigger_mode ≠ SET_OFF then
      if s.g_cfg.chan1.sample_draw = false then
        if s.g_cfg.chan1.sample_start = false then
          { s with
            channel1 := { s.channel1 with index := 0 }
            _sample_counter1 := 0
            channel2 := { s.channel2 with index := 0 }
            _sample_counter2 := 0
            g_cfg := { s.g_cfg with
              chan1 := { s.g_cfg.chan1 with sample_start := true }
              chan2 := { s.g_cfg.chan2 with sample_start := true } } }
        else s
      else s
    else s
  { s1 with _Trigger_Timeout := millis }

/-- Unsigned 32-bit subtraction `a - b` of two `unsigned long` values. -/
def subU32 (a b : Nat) : Nat := (((a : Int) - (b : Int)) % 4294967296).toNat

/-- The buffer-clearing loop of `is_triggertimeout` (lines 147-153): for
`x = 0 .. SAMPLE_DATA_SIZE-1` store 31 into `channel1.data[x]` when the channel
is `eChannel_nr1`, else 45 into `channel2.data[x]`. -/
def clearSampleBuffer (eChannel : channel_nr_t) (s : State) : State :=
  (List.range SAMPLE_DATA_SIZE).foldl
    (fun st x =>
      if eChannel = eChannel_nr1 then
        { st with channel1 := { st.channel1 with data := st.channel1.data.set x 31 } }
      else
        { st with channel2 := { st.channel2 with data := st.channel2.data.set x 45 } })
    s

/-- The threshold `max_timeout` computed by `is_triggertimeout` (lines 138-144). -/
def max_timeout (eChannel : channel_nr_t) (menu_timeout : Nat) (s : State) : Nat :=
  if (s.g_cfg.chan eChannel).time > menu_timeout then
    (4 * TRIGGER_TIMEOUT_VALUE_MSEC) % 65536
  else TRIGGER_TIMEOUT_VALUE_MSEC

/-- The function `is_triggertimeout`; `millis` is the clock value returned by
`millis()`.  Returns `rtn_value` and the state after the call. -/
def is_triggertimeout (millis : Nat) (eChannel : channel_nr_t) (menu_timeout : Nat)
    (s : State) : Bool × State :=
  if (s.g_cfg.chan eChannel).trigger_mode = SET_TRIG_AUTO_P ∨
     (s.g_cfg.chan eChannel).trigger_mode = SET_TRIG_AUTO_N then
    -- (uint16_t)(millis() - _Trigger_Timeout) > max_timeout
    if (subU32 millis s._Trigger_Timeout) % 65536 > max_timeout eChannel menu_timeout s then
      (true, clearSampleBuffer eChannel s)
    else (false, s)
  else (false, s)

/-! ## rotaryencoder.h -/

/-- The enumeration `CRotaryEncoder::Button_t`. -/
inductive Button_t where
  | Open
  | HoldOn
  | Released
  | Pushed
  | DoubleClicked
  deriving DecidableEq, Repr

/-- The data members of `CRotaryEncoder` (the inherited `Encoder` position is
read through `read()` and is an input of `update`). -/
structure CRotaryEncoder where
  _sampleTime : Nat
  _oldEncPosition : Int
  _newEncPosition : Int
  _button_pushed : Bool
  _button_pushed_prev : Bool
  _upstate : Bool
  _downstate : Bool
  _keyDownTicks : Int
  _doubleClickTicks : Nat
  _button : Button_t
  deriving DecidableEq, Repr

/-- The method `up()`: returns `_upstate` and clears it. -/
def CRotaryEncoder.up (e : CRotaryEncoder) : Bool × CRotaryEncoder :=
  (e._upstate, { e with _upstate := false })

/-- The method `down()`: returns `_downstate` and clears it. -/
def CRotaryEncoder.down (e : CRotaryEncoder) : Bool × CRotaryEncoder :=
  (e._downstate, { e with _downstate := false })

/-! ## LScopeMenu.h / LScopeMenu.cpp -/

def MENU_TIM_50US_VALUE : Nat := 1
def MENU_TIM_01MS_VALUE : Nat := 2
def MENU_TIM_02MS_VALUE : Nat := 3
def MENU_TIM_05MS_VALUE : Nat := 4
def MENU_TIM_1MS_VALUE : Nat := 5
def MENU_TIM_2MS_VALUE : Nat := 6
def MENU_TIM_5MS_VALUE : Nat := 7
def MENU_TIM_10MS_VALUE : Nat := 8
def MENU_TIM_20MS_VALUE : Nat := 9
def MENU_TIM_50MS_VALUE : Nat := 10
def MENU_TIM_100MS_VALUE : Nat := 11

def MEM_TYPE_EEPROM : Nat := 1
def MEM_TYPE_GLOBAL : Nat := 2

/-- The enumeration `eMenu_t`. -/
inductive eMenu_t where
  | STARTUP
  | INITDEFAULTS
  | MENU_DEFAULT
  | SETTINGS
  | SELECT_VALUES
  | DRAW_SAMPLES
  | SAVE_REQUEST
  | SAVE_SET
  | SAVE_DATA
  deriving DecidableEq, Repr

/-- The record `menuctrl_t`. -/
structure menuctrl_t where
  rowindex : Nat
  cursor_x : Nat
  cursor_y : Nat
  mark_on : Bool
  menu_updated : Bool
  save_yes : Bool
  deriving DecidableEq, Repr

/-- The record `menutimer_t`. -/
structure menutimer_t where
  expired : Bool
  Timeout : Nat
  deriving DecidableEq, Repr

/-- The state the menu code works on: the globals of the sampler (`globals`,
with `g_cfg`) and the data members of `CMenu` used by the modelled methods.
The display (base class `Adafruit_SH1106G`) is write-only and left out. -/
structure CMenu where
  globals : State
  rotaryencoder : CRotaryEncoder
  _draw_channels_running : Bool
  _menu_state : eMenu_t
  _prev_menu : eMenu_t
  _menuctrl : menuctrl_t
  _menutimer : menutimer_t
  deriving DecidableEq, Repr

/-- Lines 480-494 of `CMenu::_print_value_str`: decide whether the row is being
edited and, if so, apply the encoder flags to `select_value` (an `int8_t`).
Returns `bchangevalue`, `select_value` and the menu after `down()` / `up()`. -/
def selectValue (millis : Nat) (index : Nat) (oldvalue : Nat) (m : CMenu) :
    Bool × Int × CMenu :=
  if index = m._menuctrl.rowindex ∧ m._menuctrl.mark_on = true then
    let select_value : Int := toInt8 oldvalue
    let d := m.rotaryencoder.down
    let m1 : CMenu := { m with rotaryencoder := d.2 }
    let r1 : Int × CMenu :=
      if d.1 then
        (toInt8 (select_value - 1), { m1 with _menutimer := { m1._menutimer with Timeout := millis } })
      else (select_value, m1)
    let u := r1.2.rotaryencoder.up
    let m2 : CMenu := { r1.2 with rotaryencoder := u.2 }
    if u.1 then
      (true, toInt8 (r1.1 + 1), { m2 with _menutimer := { m2._menutimer with Timeout := millis } })
    else (true, r1.1, m2)
  else (false, 0, m)

/-- Lines 513-526 of `CMenu::_print_value_str`, the body of the `ATOMIC_BLOCK`
of `case 3`: store the clamped time base, pull channel 2 down to channel 1,
renew the counters. -/
def editTime (channel_nr : channel_nr_t) (select_value : Int) (s : State) : State :=
  let g1 : cfg_t := s.g_cfg.setChan channel_nr
    { s.g_cfg.chan channel_nr with
      time := toUInt8 (range select_value MENU_TIM_50US_VALUE MENU_TIM_100MS_VALUE) }
  let g2 : cfg_t :=
    if (g1.chan eChannel_nr2).time > (g1.chan eChannel_nr1).time then
      g1.setChan eChannel_nr2
        { g1.chan eChannel_nr2 with time := (g1.chan eChannel_nr1).time }
    else g1
  set_counter_defaults { s with g_cfg := g2 }

/-- The `switch(index)` of `CMenu::_print_value_str` (lines 496-562) when
`bchangevalue` is true: the store into `g_cfg` for the edited row. -/
def editRow (index : Nat) (channel_nr : channel_nr_t) (select_value : Int) (s : State) :
    State :=
  match index with
  | 1 =>
    { s with g_cfg := { s.g_cfg with selected_channel :=
        if (range select_value 0 1) = 0 then eChannel_nr1 else eChannel_nr2 } }
  | 2 =>
    if channel_nr = eChannel_nr1 then
      { s with g_cfg := { s.g_cfg with chan1 := { s.g_cfg.chan1 with
          amplifier := toUInt8 (range select_value SET_AMP_LEVEL_1 SET_AMP_LEVEL_4) } } }
    else
      { s with g_cfg := { s.g_cfg with chan2 := { s.g_cfg.chan2 with
          amplifier := toUInt8 (range select_value SET_AMP_LEVEL_1 SET_AMP_LEVEL_2) } } }
  | 3 => editTime channel_nr select_value s
  | 4 =>
    { s with g_cfg := (s.g_cfg.setChan channel_nr
        { s.g_cfg.chan channel_nr with offset := toInt8 (range select_value (-31) 31) }) }
  | 5 =>
    { s with g_cfg := (s.g_cfg.setChan channel_nr
        { s.g_cfg.chan channel_nr with
          trigger_mode := toUInt8 (range select_value SET_TRIG_OFF SET_TRIG_NORM_N) }) }
  | 6 =>
    if channel_nr = eChannel_nr1 then
      { s with g_cfg := { s.g_cfg with chan1 := { s.g_cfg.chan1 with
          trigger_level := toUInt8 (range select_value 0 1) } } }
    else s
  | 7 =>
    if channel_nr = eChannel_nr1 then
      { s with g_cfg := (s.g_cfg.setChan channel_nr
          { s.g_cfg.chan channel_nr with
            option := toUInt8 (range select_value SET_OPT_SINGLE SET_OPT_TUNING) }) }
    else s
  | _ => s

/-- The method `CMenu::_print_value_str(index, channel_nr, oldvalue)`; `millis`
is the clock value returned by `millis()`. -/
def _print_value_str (millis : Nat) (index : Nat) (channel_nr : channel_nr_t)
    (oldvalue : Nat) (m : CMenu) : CMenu :=
  let r := selectValue millis index oldvalue m
  let bchangevalue := r.1
  let select_value := r.2.1
  let m1 := r.2.2
  if bchangevalue then
    let m2 : CMenu := { m1 with globals := editRow index channel_nr select_value m1.globals }
    { m2 with _menuctrl := { m2._menuctrl with menu_updated := true } }
  else m1

/-- The method `CMenu::_print_row_str(index, channel_nr)`. -/
def _print_row_str (millis : Nat) (index : Nat) (channel_nr : channel_nr_t) (m : CMenu) :
    CMenu :=
  match index with
  | 1 => _print_value_str millis 1 channel_nr 0 m
  | 2 => _print_value_str millis 2 channel_nr (m.globals.g_cfg.chan channel_nr).amplifier m
  | 3 => _print_value_str millis 3 channel_nr (m.globals.g_cfg.chan channel_nr).time m
  | 4 => _print_value_str millis 4 channel_nr (toUInt8 (m.globals.g_cfg.chan channel_nr).offset) m
  | 5 =>
    if channel_nr = eChannel_nr1 then
      _print_value_str millis 5 channel_nr (m.globals.g_cfg.chan channel_nr).trigger_mode m
    else m
  | 6 =>
    if channel_nr = eChannel_nr1 then
      _print_value_str millis 6 channel_nr m.globals.g_cfg.chan1.trigger_level m
    else m
  | 7 =>
    if channel_nr = eChannel_nr1 then
      let m1 := _print_value_str millis 7 channel_nr m.globals.g_cfg.chan1.option m
      let g := m1.globals.g_cfg
      let status2 : Nat := if g.chan1.option = SET_OPT_DUAL then SET_ON else SET_OFF
      { m1 with globals := { m1.globals with g_cfg :=
          { g with chan2 := { g.chan2 with status := status2 } } } }
    else m
  | _ => m

/-! ### Configuration snapshot (checksum, EEPROM save and load)

The Arduino `EEPROM` object is not part of the repository.  It is taken as a
parameter: a type of storage states with a byte read (`EEPROM[addr]`,
`EEPROM.get`) and a byte write (`EEPROM.write`, `EEPROM.put`).  Nothing is
assumed about it unless a theorem says so (`RamEEPROM` is the storage that
returns what was written). -/

/-- The interface of the non-volatile storage. -/
structure EEPROMClass (σ : Type) where
  read : σ → Nat → Nat
  write : σ → Nat → Nat → σ

/-- The storage that returns what was written: a map from addresses to bytes. -/
def RamEEPROM : EEPROMClass (Nat → Nat) where
  read := fun mem addr => mem addr
  write := fun mem addr v => Function.update mem addr (v % 256)

/-- The byte `EEPROM[addr]` (a `uint8_t`). -/
def eepromByte {σ : Type} (E : EEPROMClass σ) (st : σ) (addr : Nat) : Nat :=
  E.read st addr % 256

/-- The object representation of a `bool`. -/
def boolByte (b : Bool) : Nat := if b then 1 else 0

/-- The object representation of a `channel_val_t` (9 bytes, in field order). -/
def channel_val_bytes (c : channel_val_t) : List Nat :=
  [ c.status % 256, c.amplifier % 256, c.time % 256, toUInt8 c.offset,
    c.trigger_mode % 256, c.trigger_level % 256, c.option % 256,
    boolByte c.sample_draw, boolByte c.sample_start ]

/-- The object representation of a `channel_nr_t` (avr-gcc: a 16-bit `int`,
low byte first). -/
def channel_nr_bytes : channel_nr_t → List Nat
  | eChannel_nr1 => [0, 0]
  | eChannel_nr2 => [1, 0]

/-- The bytes of `g_cfg` as `(uint8_t *)&g_cfg` walks them: `chan[0]`, `chan[1]`,
`selected_channel` (avr-gcc lays records out without padding). -/
def cfg_bytes (g : cfg_t) : List Nat :=
  channel_val_bytes g.chan1 ++ channel_val_bytes g.chan2 ++ channel_nr_bytes g.selected_channel

/-- The size `sizeof(cfg_t)` on the target. -/
def sizeof_cfg_t : Nat := 20

/-- The method `CMenu::_make_checksum(mem_type)`. -/
def _make_checksum {σ : Type} (E : EEPROMClass σ) (st : σ) (g : cfg_t) (mem_type : Nat) :
    Nat :=
  (List.range sizeof_cfg_t).foldl
    (fun checksum addr =>
      let c1 :=
        if mem_type = MEM_TYPE_EEPROM then
          checksum ^^^ eepromByte E st (ADDR_CFG_DATA_BASE + addr)
        else checksum
      if mem_type = MEM_TYPE_GLOBAL then c1 ^^^ (cfg_bytes g).getD addr 0 else c1)
    0

/-- The method `CMenu::_IsEEPROM_data_valid`. -/
def _IsEEPROM_data_valid {σ : Type} (E : EEPROMClass σ) (st : σ) (g : cfg_t) : Bool :=
  if eepromByte E st ADDR_CHECKSUM = _make_checksum E st g MEM_TYPE_EEPROM then true
  else false

/-- The call `EEPROM.put(idx, t)`: the bytes of the object, stored in order
from address `idx` on, each through the storage's byte write. -/
def EEPROM_put {σ : Type} (E : EEPROMClass σ) (st : σ) (idx : Nat) (bytes : List Nat) : σ :=
  (List.range bytes.length).foldl (fun acc i => E.write acc (idx + i) (bytes.getD i 0)) st

/-- The method `CMenu::_EEPROM_write_cfg`: returns `rtn_value` and the storage
after the write. -/
def _EEPROM_write_cfg {σ : Type} (E : EEPROMClass σ) (st : σ) (g : cfg_t) : Bool × σ :=
  let checksum := _make_checksum E st g MEM_TYPE_GLOBAL
  let st1 := EEPROM_put E st ADDR_CFG_DATA_BASE (cfg_bytes g)
  let st2 := E.write st1 ADDR_CHECKSUM checksum
  (if checksum = _make_checksum E st2 g MEM_TYPE_EEPROM then true else false, st2)

/-- The compiled-in defaults assigned by the first part of `CMenu::init_cfg`
(lines 431-450). -/
def default_cfg : cfg_t where
  selected_channel := eChannel_nr1
  chan1 :=
    { status := SET_ON, amplifier := SET_AMP_LEVEL_1, time := MENU_TIM_05MS_VALUE,
      trigger_mode := SET_OFF, offset := 0, option := SET_OPT_SINGLE,
      trigger_level := SET_TRIG_LEVEL_INTERN, sample_draw := true, sample_start := true }
  chan2 :=
    { status := SET_OFF, amplifier := SET_AMP_LEVEL_1, time := MENU_TIM_05MS_VALUE,
      offset := 0, trigger_mode := SET_OFF, option := SET_OFF,
      trigger_level := SET_TRIG_LEVEL_INTERN, sample_draw := true, sample_start := true }

/-- The method `CMenu::init_cfg`: the value of `g_cfg` after the call (every
field of `g_cfg` is assigned, so the prior value plays no role; the validity
check computes its checksum over the EEPROM only). -/
def init_cfg {σ : Type} (E : EEPROMClass σ) (st : σ) : cfg_t :=
  let g := default_cfg
  if _IsEEPROM_data_valid E st g then
    -- EEPROM.get(ADDR_CFG_DATA_BASE, eeprom_data)
    let byte := fun (i : Nat) => eepromByte E st (ADDR_CFG_DATA_BASE + i)
    { g with
      chan1 := { g.chan1 with
        amplifier := byte 1
        time := byte 2
        trigger_mode := byte 4
        offset := toInt8 (byte 3)
        option := byte 6
        trigger_level := byte 5 }
      chan2 := { g.chan2 with
        amplifier := byte 10
        time := byte 11
        offset := toInt8 (byte 12) } }
  else g

/-! ## Reference steps and concrete states used by the theorems -/

/-- Reference step for channel A in one tick, written from the specification:
not armed: only the countdown is reseeded; armed with a positive countdown:
only the countdown is decremented; armed with the countdown run out: the
sample is stored at `data[index]`, the index becomes `(index+1) mod 128`, the
countdown is reseeded, and exactly when the index wrapped to 0 in a triggered
mode the channel is disarmed and marked ready. -/
def tickChannelA_ref (adc : Nat) (s : State) : State :=
  let reseed := counterValue s.g_cfg.chan1.time
  if s.g_cfg.chan1.sample_start = false then
    { s with _sample_counter1 := reseed }
  else if s._sample_counter1 > 0 then
    { s with _sample_counter1 := s._sample_counter1 - 1 }
  else
    let newIndex := (s.channel1.index + 1) % 128
    let full : Bool := decide (newIndex = 0 ∧ s.g_cfg.chan1.trigger_mode ≠ SET_OFF)
    { s with
      channel1 :=
        { data := s.channel1.data.set s.channel1.index (adcSample adc)
          index := newIndex }
      _sample_counter1 := reseed
      g_cfg := { s.g_cfg with chan1 := { s.g_cfg.chan1 with
        sample_start := if full then false else s.g_cfg.chan1.sample_start
        sample_draw := if full then true else s.g_cfg.chan1.sample_draw } } }

/-- The globals after static initialisation (zeroed buffers, counters and
timestamp) with the compiled-in default configuration in `g_cfg`. -/
def startState : State where
  g_cfg := default_cfg
  channel1 := { data := List.replicate 128 0, index := 0 }
  channel2 := { data := List.replicate 128 0, index := 0 }
  _sample_counter1 := 0
  _sample_counter2 := 0
  _Trigger_Timeout := 0

/-- The encoder object after its constructor, with no pending turn. -/
def startEncoder : CRotaryEncoder where
  _sampleTime := 0
  _oldEncPosition := -999
  _newEncPosition := -999
  _button_pushed := false
  _button_pushed_prev := false
  _upstate := false
  _downstate := false
  _keyDownTicks := 0
  _doubleClickTicks := 0
  _button := Button_t.Open

/-- The menu object after the `CMenu` constructor (no valid EEPROM block). -/
def startMenu : CMenu where
  globals := startState
  rotaryencoder := startEncoder
  _draw_channels_running := false
  _menu_state := eMenu_t.STARTUP
  _prev_menu := eMenu_t.MENU_DEFAULT
  _menuctrl :=
    { rowindex := 1, cursor_x := 52, cursor_y := 8, mark_on := false,
      menu_updated := true, save_yes := false }
  _menutimer := { expired := false, Timeout := 0 }

/-- A state waiting for a trigger: `startState` in mode Auto+, channel A
neither armed nor ready. -/
def idleAutoState : State :=
  { startState with g_cfg := { default_cfg with chan1 := { default_cfg.chan1 with
      trigger_mode := SET_TRIG_AUTO_P, sample_draw := false, sample_start := false } } }

/-- The menu used to show the edge case of the time-base editor: channel 2
selected, row 3 marked, `chan[A].time == 0`, `chan[B].time == 4`. -/
def editBelowRangeMenu : CMenu :=
  { startMenu with
    _menuctrl := { startMenu._menuctrl with rowindex := 3, mark_on := true }
    globals := { startState with g_cfg :=
      { default_cfg with
        selected_channel := eChannel_nr2
        chan1 := { default_cfg.chan1 with time := 0 } } } }

/-- The menu with row 3 marked and the encoder turned up, default configuration. -/
def editTimeUpMenu : CMenu :=
  { startMenu with
    _menuctrl := { startMenu._menuctrl with rowindex := 3, mark_on := true }
    rotaryencoder := { startEncoder with _upstate := true } }

/-- The fields of a `cfg_t` value are within their C types: every `uint8_t`
field is below 256 and every `int8_t` field is in -128..127. -/
def cfg_t.typed (g : cfg_t) : Prop :=
  g.chan1.status < 256 ∧ g.chan1.amplifier < 256 ∧ g.chan1.time < 256 ∧
  (-128 ≤ g.chan1.offset ∧ g.chan1.offset ≤ 127) ∧ g.chan1.trigger_mode < 256 ∧
  g.chan1.trigger_level < 256 ∧ g.chan1.option < 256 ∧
  g.chan2.status < 256 ∧ g.chan2.amplifier < 256 ∧ g.chan2.time < 256 ∧
  (-128 ≤ g.chan2.offset ∧ g.chan2.offset ≤ 127) ∧ g.chan2.trigger_mode < 256 ∧
  g.chan2.trigger_level < 256 ∧ g.chan2.option < 256

instance (g : cfg_t) : Decidable g.typed := by
  unfold cfg_t.typed
  infer_instance

/-- An erased EEPROM: every cell reads 0xFF. -/
def erasedEEPROM : Nat → Nat := fun _ => 255

/-- A storage whose checksum cell is worn out: a write to `ADDR_CHECKSUM` is
lost, every other cell stores what is written. -/
def wornChecksumCell : EEPROMClass (Nat → Nat) where
  read := fun mem addr => mem addr
  write := fun mem addr v => if addr = ADDR_CHECKSUM then mem else Function.update mem addr (v % 256)

/-- A configuration as the menu can leave it: channel A at 2 ms, Auto-, offset
-5, channel 2 selected in the menu, channel A waiting for a trigger. -/
def savedExampleCfg : cfg_t :=
  { default_cfg with
    selected_channel := eChannel_nr2
    chan1 := { default_cfg.chan1 with
      time := MENU_TIM_2MS_VALUE, trigger_mode := SET_TRIG_AUTO_N, offset := -5,
      sample_draw := false, sample_start := false } }

/-! ### Frequency and note identifier (LScopeMenu.cpp) -/

/-- The table `g_ref_frequ10[]` (14 entries, note frequency times 10). -/
def g_ref_frequ10 : List Nat :=
  [2589, 2616, 2772, 2937, 3111, 3296, 3492, 3700, 3920, 4153, 4400, 4662, 4939, 5001]

/-- The read `pgm_read_word(&g_ref_frequ10[i])`.  For `i > 13` the C read is
outside the table (undefined); the embedding then yields `0`. -/
def refFrequ (i : Nat) : Nat := g_ref_frequ10.getD i 0

/-- Conversion of an integer to `int16_t` (two's complement wrap). -/
def toInt16 (x : Int) : Int := (x + 32768) % 65536 - 32768

/-- The method `CMenu::_get_limits(nominal, lower, upper, percent)`; returns
`(lower, upper)`.  The source computes `(double)nominal * (100L-percent)/100L`
and converts to `uint16_t`.  For a 16-bit `nominal` the product is an integer
below 2^24, hence exact in binary floating point; the one rounded operation is
the division by 100, whose exact result is an integer or at least 1/100 away
from the next integer, more than the rounding error; so the truncating
conversion yields the integer quotient used here (`percent <= 100`). -/
def _get_limits (nominal : Nat) (percent : Nat) : Nat × Nat :=
  ((nominal * (100 - percent) / 100) % 65536, (nominal * (100 + percent) / 100) % 65536)

/-- The data members `_search_frequency` and `_note_octave` of `CMenu`. -/
structure NoteMembers where
  _search_frequency : Nat
  _note_octave : Int
  deriving DecidableEq, Repr

/-- The variables of the folding loop of `CMenu::_find_note_index` (lines
1072-1091): the members `_search_frequency`, `_note_octave`, the locals
`rtn_value`, `found`, `loops`, and three ghost counters that the source does
not have: the number of executed halvings, doublings and loop iterations. -/
structure FoldState where
  _search_frequency : Nat
  _note_octave : Int
  rtn_value : Int
  found : Bool
  loops : Int
  halvings : Nat
  doublings : Nat
  iterations : Nat
  deriving DecidableEq, Repr

/-- One execution of the body of the `while` loop of `_find_note_index`. -/
def foldBody (st : FoldState) : FoldState :=
  let st0 : FoldState := { st with iterations := st.iterations + 1 }
  if st0._search_frequency > refFrequ 0 ∧ st0._search_frequency < refFrequ 13 then
    -- found=true; break;
    { st0 with found := true }
  else
    let st1 : FoldState :=
      if st0._search_frequency > refFrequ 13 then
        { st0 with
          _search_frequency := st0._search_frequency / 2
          _note_octave := toInt8 (st0._note_octave + 1)
          rtn_value := 99
          halvings := st0.halvings + 1 }
      else st0
    let st2 : FoldState :=
      if st1._search_frequency < refFrequ 0 then
        { st1 with
          _search_frequency := (st1._search_frequency * 2) % 65536
          _note_octave := toInt8 (st1._note_octave - 1)
          rtn_value := -1
          doublings := st1.doublings + 1 }
      else st1
    { st2 with loops := toInt8 (st2.loops - 1) }

/-- The loop `while (!found && (loops>0))` of `_find_note_index`, run for at
most `fuel` iterations. -/
def foldLoop : Nat → FoldState → FoldState
  | 0, st => st
  | fuel + 1, st =>
    if st.found = false ∧ st.loops > 0 then foldLoop fuel (foldBody st) else st

/-- The state of the folding loop of `_find_note_index` at its exit, for the
measurement `meas` (`loops` starts at 5, so 5 units of fuel run it to its
exit, see `noteFold_exit`). -/
def noteFold (meas : Nat) : FoldState :=
  foldLoop 5
    { _search_frequency := meas, _note_octave := 4, rtn_value := 0, found := false,
      loops := 5, halvings := 0, doublings := 0, iterations := 0 }

/-- The scan `for (index ...)` of `_find_note_index` (lines 1094-1101) over the
listed indexes: the first index whose window of 3 percent strictly contains the
frequency, else the value `rtn_value` had before. -/
def scanNotes : List Nat → Nat → Int → Int
  | [], _, rtn_value => rtn_value
  | index :: rest, search_frequency, rtn_value =>
    if search_frequency > (_get_limits (refFrequ index) 3).1 ∧
        search_frequency < (_get_limits (refFrequ index) 3).2 then
      (index : Int)
    else scanNotes rest search_frequency rtn_value

/-- The method `CMenu::_find_note_index`; `meas` is `(uint16_t)_frequ_meas_value10`.
Returns `rtn_value` and the members after the call. -/
def _find_note_index (meas : Nat) (m : NoteMembers) : Int × NoteMembers :=
  if meas = 0 then (0, { m with _search_frequency := meas })
  else
    let st := noteFold meas
    (scanNotes (List.range' 1 12) st._search_frequency st.rtn_value,
      { _search_frequency := st._search_frequency
        _note_octave := toInt8 (range st._note_octave 0 8) })

/-! ### Floating point of the target

On the target (avr-gcc) `double` is the 32-bit IEEE format: 24 significant
bits, results rounded to nearest, ties to even.  A value is held as sign,
significand and exponent, `(-1)^neg * mant * 2^expo`; a non-zero value has
`2^23 <= mant < 2^24`.  Only finite values in the normal range are modelled:
the operands met here are integers of at most 16 bits and the constant 1200. -/

/-- The invariant of the folding loop of `_find_note_index`: the octave is 4
plus the halvings minus the doublings, neither count exceeds the number of
iterations, and while no frequency in range was found `loops` is 5 minus the
number of iterations. -/
def foldInvariant (st : FoldState) : Prop :=
  st._note_octave = 4 + (st.halvings : Int) - (st.doublings : Int) ∧
  st.halvings ≤ st.iterations ∧ st.doublings ≤ st.iterations ∧
  (st.found = false → st.loops = 5 - (st.iterations : Int))

/-- The members of `CMenu` for the note identifier after construction
(`_search_frequency={0}`, `_note_octave={4}`). -/
def startNoteMembers : NoteMembers := { _search_frequency := 0, _note_octave := 4 }

/-! ### Sampler: initialisation, runs of ticks, channel-B reference step -/

/-- The function `sample_init` (the register set-up is left out); `millis` is
the clock value returned by `millis()`. -/
def sample_init (millis : Nat) (s : State) : State :=
  let s1 := set_counter_defaults s
  { s1 with
    channel1 := { s1.channel1 with index := 0 }
    channel2 := { s1.channel2 with index := 0 }
    _Trigger_Timeout := millis }

/-- The state after `n` consecutive runs of the tick handler with no other
code in between; tick number `k + 1` reads the conversion results `adc k`. -/
def runTicks (adc : Nat → Nat × Nat) : Nat → State → State
  | 0, s => s
  | n + 1, s => ISR_TIMER2_COMPA (adc n).1 (adc n).2 (runTicks adc n s)

/-- Reference step for channel B in one tick, written from the specification:
nothing happens when channel B is marked ready, or is not on while channel A's
option is not `SET_OPT_DUAL_PLUGGED`; otherwise the countdown is decremented
while positive, else the sample is stored at `data[index]`, the index advances
modulo 128, the countdown is reseeded, and channel B is marked ready exactly
when the index was 127. -/
def tickChannelB_ref (adc : Nat) (s : State) : State :=
  if s.g_cfg.chan2.sample_draw = true ∨
      (s.g_cfg.chan2.status ≠ SET_ON ∧ s.g_cfg.chan1.option ≠ SET_OPT_DUAL_PLUGGED) then s
  else if s._sample_counter2 > 0 then
    { s with _sample_counter2 := s._sample_counter2 - 1 }
  else
    { s with
      channel2 :=
        { data := s.channel2.data.set s.channel2.index (adcSample adc)
          index := (s.channel2.index + 1) % 128 }
      _sample_counter2 := counterValue s.g_cfg.chan2.time
      g_cfg := { s.g_cfg with chan2 := { s.g_cfg.chan2 with
        sample_draw := decide (s.channel2.index = 127) } } }

/-! ### Draw pass (LScopeMenu.cpp) -/

/-- The method `CMenu::_draw_channels`, its effect on the configuration and on
`_draw_channels_running`.  The drawing itself, the frequency read-out and the
timers of `_update_draw_request` are left out; `update_draw_request` is the
value returned by `_update_draw_request()` and `is_plugged_in` the value
returned by `_is_plugged_in()`. -/
def _draw_channels (update_draw_request is_plugged_in : Bool) (m : CMenu) : CMenu :=
  if m._draw_channels_running then m
  else
    let g := m.globals.g_cfg
    let g1 : cfg_t :=
      if update_draw_request then
        if g.chan1.option = SET_OPT_FREQU ∨ g.chan1.option = SET_OPT_TUNING then g
        else if g.chan1.option = SET_OPT_DUAL_PLUGGED then
          { g with chan2 := { g.chan2 with status := if is_plugged_in then 1 else 0 } }
        else g
      else g
    -- ATOMIC_BLOCK, lines 891-906
    let g2 : cfg_t :=
      if g1.chan1.trigger_mode = SET_OFF then
        { g1 with chan1 := { g1.chan1 with sample_draw := true, sample_start := true } }
      else { g1 with chan1 := { g1.chan1 with sample_draw := false } }
    let g3 : cfg_t :=
      if g2.chan2.status = SET_OFF then
        { g2 with chan2 := { g2.chan2 with sample_draw := false, sample_start := false } }
      else { g2 with chan2 := { g2.chan2 with sample_draw := false } }
    { m with globals := { m.globals with g_cfg := g3 }, _draw_channels_running := false }

/-! ### Note identifier: window of a note and bound of the folding loop -/

/-- The window of note `i` as the specification words it: the frequency lies
strictly between `floor(n_i*97/100)` and `floor(n_i*103/100)`, with
`n_i = g_ref_frequ10[i]`. -/
def inNoteWindow (i f : Nat) : Prop :=
  refFrequ i * 97 / 100 < f ∧ f < refFrequ i * 103 / 100

instance (i f : Nat) : Decidable (inNoteWindow i f) := by
  unfold inNoteWindow
  infer_instance

/-- A bound kept by the folding loop of `_find_note_index` on the measurement
`meas`: the working frequency is at most 5177 unless every iteration so far
was a single halving; while `rtn_value` is 99 the working frequency is not
below the low guard, and not above the high guard unless every iteration so
far was a single halving; a found frequency is below the high guard; and
`rtn_value` is 0, 99 or -1. -/
def foldBound (meas : Nat) (st : FoldState) : Prop :=
  (st._search_frequency ≤ 5177 ∨ st._search_frequency * 2 ^ st.iterations ≤ meas) ∧
  (st.rtn_value = 99 → 2589 ≤ st._search_frequency ∧
    (st._search_frequency ≤ 5001 ∨ st._search_frequency * 2 ^ st.iterations ≤ meas)) ∧
  (st.found = true → st._search_frequency < 5001) ∧
  (st.rtn_value = 0 ∨ st.rtn_value = 99 ∨ st.rtn_value = -1)

/-! ### Lock-step of the two channels after a trigger -/

/-- The relation kept by the tick handler after an accepted trigger with
channel B on and both channels on one time base: equal write indexes, and
either both channels capture with equal countdowns, or both have finished
(channel A disarmed, channel B marked ready). -/
def lockStep (s : State) : Prop :=
  s.channel1.index = s.channel2.index ∧
  s.g_cfg.chan1.time = s.g_cfg.chan2.time ∧
  s.g_cfg.chan2.status = SET_ON ∧
  s.g_cfg.chan1.trigger_mode ≠ SET_OFF ∧
  ((s.g_cfg.chan1.sample_start = true ∧ s.g_cfg.chan2.sample_draw = false ∧
      s._sample_counter1 = s._sample_counter2) ∨
    (s.g_cfg.chan1.sample_start = false ∧ s.g_cfg.chan2.sample_draw = true))

/-- A state waiting for a trigger (mode Auto+) with channel B on and already
marked ready: `idleAutoState` with `chan[B].status` on (`chan[B].sample_draw`
is true in it). -/
def idleAutoChannelBReady : State :=
  { idleAutoState with g_cfg := { idleAutoState.g_cfg with
      chan2 := { idleAutoState.g_cfg.chan2 with status := SET_ON } } }

/-- Conversion results that are the same in every tick. -/
def constAdc : Nat → Nat × Nat := fun _ => (512, 300)

/-! ### Valid ranges of the configuration fields -/

/-- The fields the menu edits are in their valid ranges: amplifier 1..4 on
channel A and 1..2 on channel B, time 1..11 and offset -31..31 on both
channels, and channel A's trigger_mode 0..4, trigger_level 0..1 and option
1..5 (the menu edits these three on channel A only). `selected_channel` is one
of the two channels by its type. -/
def cfgInRange (g : cfg_t) : Prop :=
  (1 ≤ g.chan1.amplifier ∧ g.chan1.amplifier ≤ 4) ∧
  (1 ≤ g.chan2.amplifier ∧ g.chan2.amplifier ≤ 2) ∧
  (1 ≤ g.chan1.time ∧ g.chan1.time ≤ 11) ∧
  (1 ≤ g.chan2.time ∧ g.chan2.time ≤ 11) ∧
  (-31 ≤ g.chan1.offset ∧ g.chan1.offset ≤ 31) ∧
  (-31 ≤ g.chan2.offset ∧ g.chan2.offset ≤ 31) ∧
  g.chan1.trigger_mode ≤ 4 ∧
  g.chan1.trigger_level ≤ 1 ∧
  (1 ≤ g.chan1.option ∧ g.chan1.option ≤ 5)

instance (g : cfg_t) : Decidable (cfgInRange g) := by
  unfold cfgInRange
  infer_instance

/-- The field of `g_cfg` that row `index` of the menu edits for channel
`channel_nr` (`case 1` .. `case 7` of `_print_value_str`), as a number; rows 6
and 7 edit channel A's field. -/
def editedField (index : Nat) (channel_nr : channel_nr_t) (g : cfg_t) : Int :=
  match index with
  | 1 => if g.selected_channel = eChannel_nr1 then 0 else 1
  | 2 => (g.chan channel_nr).amplifier
  | 3 => (g.chan channel_nr).time
  | 4 => (g.chan channel_nr).offset
  | 5 => (g.chan channel_nr).trigger_mode
  | 6 => g.chan1.trigger_level
  | 7 => g.chan1.option
  | _ => 0

/-- The menu used to show the pull-down of channel B's time base: channel 2
selected, row 3 marked, no encoder turn, `chan[A].time == 2`,
`chan[B].time == 9`. -/
def editSlowerChannelBMenu : CMenu :=
  { startMenu with
    _menuctrl := { startMenu._menuctrl with rowindex := 3, mark_on := true }
    globals := { startState with g_cfg :=
      { default_cfg with
        selected_channel := eChannel_nr2
        chan1 := { default_cfg.chan1 with time := 2 }
        chan2 := { default_cfg.chan2 with time := 9 } } } }

/-! ## rotaryencoder.cpp: `update` and `getButtonState` -/

def ENC_DEBOUNCE_DELAY : Nat := 5
def ENC_DOUBLECLICKTIME : Nat := 600
def ENC_HOLDTIME : Nat := 1250

/-- The pin of the push switch handed to the constructor of the encoder object
by `CMenu` (`rotaryencoder(ENCODER_A, ENCODER_B, ENCODER_CLICK)`); the member
`_port_ENC_PUSH` holds this value from construction on. -/
def ENCODER_CLICK : Nat := 12

/-- Lines 104-139 of `CRotaryEncoder::update`, the push-switch handling;
`pushed` is `!(bool)digitalRead(_port_ENC_PUSH)`.  `_keyDownTicks` is an `int`
(16 bit), `_doubleClickTicks` a `uint8_t`. -/
def updateButton (pushed : Bool) (e : CRotaryEncoder) : CRotaryEncoder :=
  let e1 : CRotaryEncoder := { e with _button_pushed := pushed }
  let e2 : CRotaryEncoder :=
    if e1._button_pushed = e1._button_pushed_prev then
      let e3 : CRotaryEncoder :=
        if e1._button_pushed = true then
          let e4 : CRotaryEncoder := { e1 with _keyDownTicks := toInt16 (e1._keyDownTicks + 1) }
          if e4._keyDownTicks > ((ENC_HOLDTIME / ENC_DEBOUNCE_DELAY : Nat) : Int) then
            { e4 with _button := Button_t.HoldOn }
          else e4
        else e1
      if e3._button_pushed = false then
        let e5 : CRotaryEncoder :=
          if e3._keyDownTicks ≠ 0 then
            if e3._button = Button_t.HoldOn then
              { e3 with _button := Button_t.Released, _doubleClickTicks := 0 }
            else if e3._doubleClickTicks > 1 then
              if e3._doubleClickTicks < ENC_DOUBLECLICKTIME / ENC_DEBOUNCE_DELAY then
                { e3 with _button := Button_t.DoubleClicked, _doubleClickTicks := 0 }
              else e3
            else { e3 with _doubleClickTicks := ENC_DOUBLECLICKTIME / ENC_DEBOUNCE_DELAY }
          else e3
        { e5 with _keyDownTicks := 0 }
      else e3
    else e1
  let e6 : CRotaryEncoder :=
    if e2._doubleClickTicks > 0 then
      -- _doubleClickTicks--;
      let e7 : CRotaryEncoder := { e2 with _doubleClickTicks := (e2._doubleClickTicks + 255) % 256 }
      -- if (--_doubleClickTicks == 0)
      let e8 : CRotaryEncoder := { e7 with _doubleClickTicks := (e7._doubleClickTicks + 255) % 256 }
      if e8._doubleClickTicks = 0 then { e8 with _button := Button_t.Pushed } else e8
    else e2
  { e6 with _button_pushed_prev := e6._button_pushed }

/-- Lines 84-101 of `CRotaryEncoder::update`: the sample time is renewed, the
position is read and compared with the old one.  Returns `rtn_value` and the
object. -/
def updatePosition (millis : Nat) (position : Int) (e : CRotaryEncoder) :
    Bool × CRotaryEncoder :=
  let e1 : CRotaryEncoder := { e with _sampleTime := millis, _newEncPosition := position }
  let r1 : Bool × CRotaryEncoder :=
    if e1._newEncPosition - 3 > e1._oldEncPosition then
      (true, { e1 with _oldEncPosition := e1._newEncPosition, _upstate := true,
                       _downstate := false })
    else (false, e1)
  if r1.2._newEncPosition + 3 < r1.2._oldEncPosition then
    (true, { r1.2 with _oldEncPosition := r1.2._newEncPosition, _upstate := false,
                       _downstate := true })
  else r1

/-- The method `CRotaryEncoder::update()`.  Inputs: `millis` the value of
`millis()`, `position` the value of `read()`, `pushed` the negated level of the
push-switch pin.  Returns `rtn_value` and the object after the call. -/
def CRotaryEncoder.update (millis : Nat) (position : Int) (pushed : Bool)
    (e : CRotaryEncoder) : Bool × CRotaryEncoder :=
  let r : Bool × CRotaryEncoder :=
    if millis ≥ (e._sampleTime + ENC_DEBOUNCE_DELAY) % 2 ^ 32 then
      let r2 := updatePosition millis position e
      if ENCODER_CLICK ≠ 99 then (r2.1, updateButton pushed r2.2) else r2
    else (false, e)
  if r.1 = false then (r.1, { r.2 with _upstate := false, _downstate := false }) else r

/-- The method `CRotaryEncoder::getButtonState()`: returns `_button` and resets
it to `Open` unless it is `HoldOn`. -/
def CRotaryEncoder.getButtonState (e : CRotaryEncoder) : Button_t × CRotaryEncoder :=
  (e._button, if e._button ≠ Button_t.HoldOn then { e with _button := Button_t.Open } else e)

/-- Repeated `update()`, one call per debounce period (the clock has advanced
by `ENC_DEBOUNCE_DELAY` at each call), the knob not turned; the list gives the
state of the push switch at each call. -/
def updateEachPeriod : List Bool → CRotaryEncoder → CRotaryEncoder
  | [], e => e
  | pushed :: rest, e =>
    updateEachPeriod rest
      (e.update (e._sampleTime + ENC_DEBOUNCE_DELAY) e._oldEncPosition pushed).2

/-- The shortest click: the switch reads pushed at two calls of `update()` and
open at the next two; the release is registered at the last of the four. -/
def shortClick : List Bool := [true, true, false, false]

/-- One short click on the fresh encoder object, then `n` periods with the
switch open. -/
def clickOnce (n : Nat) : CRotaryEncoder :=
  updateEachPeriod (shortClick ++ List.replicate n false) startEncoder

/-- Two short clicks on the fresh encoder object, the release of the second
registered `k` periods after the release of the first was registered
(`4 ≤ k`). -/
def clickTwice (k : Nat) : CRotaryEncoder :=
  updateEachPeriod (shortClick ++ List.replicate (k - 4) false ++ shortClick) startEncoder

/-! ## LScopeSetHW.c and the menu state machine (LScopeMenu.cpp)

The display, the comparator and port registers and the `delay` calls are left
out: they are written and never read back by the modelled code.  The tick and
edge handlers are not interleaved with the foreground code here. -/

/-- The function `set_trigger_mode(eChannel_nr)`, its effect on `g_cfg` (the
comparator register `ACSR` is left out). -/
def set_trigger_mode (eChannel_nr : channel_nr_t) (g : cfg_t) : cfg_t :=
  if (g.chan eChannel_nr).trigger_mode = SET_OFF then
    match eChannel_nr with
    | eChannel_nr1 => { g with chan1 := { g.chan1 with sample_draw := true } }
    | eChannel_nr2 => { g with chan2 := { g.chan2 with sample_draw := decide (g.chan2.status ≠ 0) } }
  else g

/-- The values the hardware gives to one pass of the foreground code:
`millis()`, the encoder position `read()`, the negated level of the push-switch
pin, and the values returned by `_update_draw_request()` and
`_is_plugged_in()`. -/
structure HwSample where
  millis : Nat
  position : Int
  pushed : Bool
  update_draw_request : Bool
  is_plugged_in : Bool
  deriving DecidableEq, Repr

/-- The method `CMenu::_defaultMenu()`: `_print_row_str(irow, g_cfg.selected_channel)`
for `irow` = 1..8. -/
def _defaultMenu (millis : Nat) (m : CMenu) : CMenu :=
  (List.range 8).foldl
    (fun acc i => _print_row_str millis (i + 1) acc.globals.g_cfg.selected_channel acc) m

/-- The first part of `case SETTINGS` of the switch of
`CMenu::updateSelection` (lines 250-263): the encoder flags move the row
index (`select_rowindex` is a `uint8_t`), which is clamped to the rows of the
selected channel. -/
def settingsRow (h : HwSample) (m : CMenu) : CMenu :=
  let d := m.rotaryencoder.down
  let m1 : CMenu := { m with rotaryencoder := d.2 }
  let r1 : Nat × CMenu :=
    if d.1 then
      ((m._menuctrl.rowindex + 1) % 256,
        { m1 with _menutimer := { m1._menutimer with Timeout := h.millis } })
    else (m._menuctrl.rowindex, m1)
  let u := r1.2.rotaryencoder.up
  let m2 : CMenu := { r1.2 with rotaryencoder := u.2 }
  let r2 : Nat × CMenu :=
    if u.1 then
      ((r1.1 + 255) % 256, { m2 with _menutimer := { m2._menutimer with Timeout := h.millis } })
    else (r1.1, m2)
  let rowindex : Nat :=
    if r2.2.globals.g_cfg.selected_channel = eChannel_nr1 then toUInt8 (range r2.1 1 7)
    else toUInt8 (range r2.1 1 4)
  { r2.2 with _menuctrl := { r2.2._menuctrl with rowindex := rowindex } }

/-- The body of `case SETTINGS` of the switch of `CMenu::updateSelection`
(lines 250-297). -/
def settingsCase (h : HwSample) (m : CMenu) : CMenu :=
  let m4 := _defaultMenu h.millis (settingsRow h m)
  if m4._menuctrl.menu_updated then
    let s1 := set_counter_defaults m4.globals
    let s2 : State := { s1 with g_cfg := set_trigger_mode eChannel_nr1 s1.g_cfg }
    { m4 with globals := s2, _menuctrl := { m4._menuctrl with menu_updated := false } }
  else m4

/-- The body of `case SAVE_REQUEST` / `case SAVE_SET` of the switch of
`CMenu::updateSelection` (lines 305-319). -/
def saveSetCase (h : HwSample) (m : CMenu) : CMenu :=
  let d := m.rotaryencoder.down
  let m1 : CMenu := { m with rotaryencoder := d.2 }
  let r1 : Bool × CMenu :=
    if d.1 then (false, { m1 with _menutimer := { m1._menutimer with Timeout := h.millis } })
    else (m._menuctrl.save_yes, m1)
  let u := r1.2.rotaryencoder.up
  let m2 : CMenu := { r1.2 with rotaryencoder := u.2 }
  let r2 : Bool × CMenu :=
    if u.1 then (true, { m2 with _menutimer := { m2._menutimer with Timeout := h.millis } })
    else (r1.1, m2)
  { r2.2 with _menuctrl := { r2.2._menuctrl with save_yes := r2.1 } }

/-- The body of `case SAVE_DATA` of the switch of `CMenu::updateSelection`
(lines 320-332); returns the storage and the menu object. -/
def saveDataCase {σ : Type} (E : EEPROMClass σ) (st : σ) (m : CMenu) : σ × CMenu :=
  if m._menuctrl.save_yes then
    ((_EEPROM_write_cfg E st m.globals.g_cfg).2,
      { m with _menuctrl := { m._menuctrl with save_yes := false } })
  else
    (st, { m with _menutimer := { m._menutimer with expired := true },
                  _menuctrl := { m._menuctrl with save_yes := false } })

/-- The body of `case MENU_DEFAULT` of the switch of `CMenu::updateSelection`
(lines 246-248), also reached from `STARTUP` and `INITDEFAULTS`. -/
def menuDefaultCase (h : HwSample) (m : CMenu) : CMenu :=
  let m1 := _defaultMenu h.millis m
  { m1 with _menutimer := { m1._menutimer with Timeout := h.millis } }

/-- The `switch (_menu_state)` of `CMenu::updateSelection` (lines 239-332).
Returns the storage (written by `_EEPROM_write_cfg` in state `SAVE_DATA`) and
the menu object. -/
def selectionSwitch {σ : Type} (E : EEPROMClass σ) (h : HwSample) (st : σ) (m : CMenu) :
    σ × CMenu :=
  match m._menu_state with
  | eMenu_t.STARTUP => (st, menuDefaultCase h m)
  | eMenu_t.INITDEFAULTS => (st, menuDefaultCase h m)
  | eMenu_t.MENU_DEFAULT => (st, menuDefaultCase h m)
  | eMenu_t.SETTINGS => (st, settingsCase h m)
  | eMenu_t.SELECT_VALUES => (st, _defaultMenu h.millis m)
  | eMenu_t.DRAW_SAMPLES => (st, _draw_channels h.update_draw_request h.is_plugged_in m)
  | eMenu_t.SAVE_REQUEST => (st, saveSetCase h m)
  | eMenu_t.SAVE_SET => (st, saveSetCase h m)
  | eMenu_t.SAVE_DATA => saveDataCase E st m

/-- The `switch (_menu_state)` inside `if (rotaryencoder.update())` of
`CMenu::updateSelection` (lines 338-351). -/
def turnSwitch (millis : Nat) (m : CMenu) : CMenu :=
  match m._menu_state with
  | eMenu_t.DRAW_SAMPLES =>
    { m with _menu_state := eMenu_t.MENU_DEFAULT,
             _menutimer := { expired := false, Timeout := millis } }
  | eMenu_t.MENU_DEFAULT =>
    { m with _menu_state := eMenu_t.SETTINGS,
             _menutimer := { expired := false, Timeout := millis } }
  | _ => m

/-- The `switch (_menu_state)` of `CMenu::updateMenu` (lines 153-222); `st` is
the storage read by `init_cfg`. -/
def menuSwitch {σ : Type} (E : EEPROMClass σ) (st : σ) (millis : Nat) (m : CMenu) : CMenu :=
  match m._menu_state with
  | eMenu_t.STARTUP | eMenu_t.INITDEFAULTS =>
    { m with _prev_menu := eMenu_t.INITDEFAULTS, _menu_state := eMenu_t.MENU_DEFAULT,
             _menutimer := { m._menutimer with Timeout := millis },
             globals := { m.globals with g_cfg := init_cfg E st } }
  | eMenu_t.MENU_DEFAULT =>
    let m1 : CMenu := { m with _prev_menu := eMenu_t.MENU_DEFAULT }
    if m1._menutimer.expired = false then
      _defaultMenu millis { m1 with _menu_state := eMenu_t.SETTINGS }
    else { m1 with _menu_state := eMenu_t.DRAW_SAMPLES }
  | eMenu_t.SETTINGS =>
    { m with _prev_menu := eMenu_t.SETTINGS,
             _menu_state :=
               (if m._menutimer.expired then eMenu_t.DRAW_SAMPLES else eMenu_t.SELECT_VALUES),
             _menutimer := { m._menutimer with Timeout := millis },
             _menuctrl := { m._menuctrl with mark_on := true } }
  | eMenu_t.SELECT_VALUES =>
    { m with _prev_menu := eMenu_t.SELECT_VALUES,
             _menu_state :=
               (if m._menutimer.expired then eMenu_t.DRAW_SAMPLES else eMenu_t.SETTINGS),
             _menutimer := { m._menutimer with Timeout := millis },
             _menuctrl := { m._menuctrl with mark_on := false } }
  | eMenu_t.DRAW_SAMPLES =>
    { m with _prev_menu := eMenu_t.DRAW_SAMPLES, _menu_state := eMenu_t.MENU_DEFAULT,
             _menutimer := { m._menutimer with expired := false } }
  | eMenu_t.SAVE_REQUEST =>
    { m with _prev_menu := eMenu_t.SAVE_REQUEST, _menu_state := eMenu_t.SAVE_SET,
             _menutimer := { m._menutimer with expired := false } }
  | eMenu_t.SAVE_SET =>
    { m with _prev_menu := eMenu_t.SAVE_SET,
             _menu_state :=
               (if m._menutimer.expired then eMenu_t.DRAW_SAMPLES else eMenu_t.SAVE_DATA),
             _menutimer := { m._menutimer with Timeout := millis } }
  | eMenu_t.SAVE_DATA =>
    { m with _prev_menu := eMenu_t.SAVE_DATA,
             _menu_state :=
               (if m._menutimer.expired then eMenu_t.DRAW_SAMPLES else eMenu_t.MENU_DEFAULT) }

/-- The method `CMenu::updateSelection()`.  The method calls itself (directly
after an encoder turn, and through `SaveConfigdata()` and `updateMenu()` while
the button state is `HoldOn`); `fuel` bounds the depth of this nesting, and the
result is `none` when the depth `fuel` does not suffice.  `hw k` holds the
hardware values of the `k`-th pass; the result holds the number of the next
pass, the storage and the menu object. -/
def updateSelection {σ : Type} (E : EEPROMClass σ) (hw : Nat → HwSample) :
    Nat → Nat → σ → CMenu → Option (Nat × σ × CMenu)
  | 0, _, _, _ => none
  | fuel + 1, k, st, m =>
    let h := hw k
    let r := selectionSwitch E h st m
    let m2 : CMenu :=
      if r.2._menutimer.expired then { r.2 with _menu_state := eMenu_t.DRAW_SAMPLES } else r.2
    let u := m2.rotaryencoder.update h.millis h.position h.pushed
    let m3 : CMenu := { m2 with rotaryencoder := u.2 }
    let afterTurn : Option (Nat × σ × CMenu) :=
      if u.1 then updateSelection E hw fuel (k + 1) r.1 (turnSwitch h.millis m3)
      else some (k + 1, r.1, m3)
    afterTurn.bind fun p =>
      let b := p.2.2.rotaryencoder.getButtonState
      let m6 : CMenu := { p.2.2 with rotaryencoder := b.2 }
      if b.1 = Button_t.HoldOn then
        let m7 : CMenu := { m6 with _menutimer := { expired := false, Timeout := (hw p.1).millis } }
        -- SaveConfigdata(): _menu_state = SAVE_REQUEST; updateMenu();
        updateSelection E hw fuel (p.1 + 1) p.2.1
          (menuSwitch E p.2.1 (hw p.1).millis { m7 with _menu_state := eMenu_t.SAVE_REQUEST })
      else some (p.1, p.2.1, m6)

/-- The method `CMenu::updateMenu()`: the switch, then `updateSelection()`. -/
def updateMenu {σ : Type} (E : EEPROMClass σ) (hw : Nat → HwSample) (fuel k : Nat) (st : σ)
    (m : CMenu) : Option (Nat × σ × CMenu) :=
  updateSelection E hw fuel (k + 1) st (menuSwitch E st (hw k).millis m)

/-- The method `CMenu::SaveConfigdata()`. -/
def SaveConfigdata {σ : Type} (E : EEPROMClass σ) (hw : Nat → HwSample) (fuel k : Nat) (st : σ)
    (m : CMenu) : Option (Nat × σ × CMenu) :=
  updateMenu E hw fuel k st { m with _menu_state := eMenu_t.SAVE_REQUEST }

/-- The button part of the encoder object read by `getButtonState()` and kept
by `update()` over two calls: `_button` and `_doubleClickTicks`. -/
def buttonPart (e : CRotaryEncoder) : Button_t × Nat := (e._button, e._doubleClickTicks)

/-- The push switch held down at every pass: the clock advances by 5 ms per
pass, the knob is not turned. -/
def heldButton : Nat → HwSample := fun k =>
  { millis := 5 * k, position := -999, pushed := true, update_draw_request := false,
    is_plugged_in := false }

/-- The push switch open at every pass. -/
def openButton : Nat → HwSample := fun k =>
  { millis := 5 * k, position := -999, pushed := false, update_draw_request := false,
    is_plugged_in := false }

/-- The menu drawing samples with the button state `HoldOn`: the switch has
read pushed for more than 250 update periods. -/
def holdOnMenu : CMenu :=
  { startMenu with
    _menu_state := eMenu_t.DRAW_SAMPLES
    rotaryencoder := { startEncoder with
      _button := Button_t.HoldOn, _button_pushed := true, _button_pushed_prev := true,
      _keyDownTicks := 251 } }

/-! ### Phases of a buffer fill -/

/-- The state of channel A while the buffer fills, `r` ticks after entry `j`
was stored (`N` is the reseed value, `s0` the state the fill started from): the
write index is `(j+1) mod 128`, the countdown is `N - r`, time base and trigger
mode are those of `s0`, the buffer has kept its length, and channel A is armed
as long as the last entry is not stored yet or the trigger mode is Off. -/
def fillPhase (s0 : State) (N j r : Nat) (s : State) : Prop :=
  s.channel1.index = (j + 1) % 128 ∧
  s._sample_counter1 = (N : Int) - (r : Int) ∧
  s.g_cfg.chan1.time = s0.g_cfg.chan1.time ∧
  s.g_cfg.chan1.trigger_mode = s0.g_cfg.chan1.trigger_mode ∧
  s.channel1.data.length = s0.channel1.data.length ∧
  ((j < 127 ∨ s0.g_cfg.chan1.trigger_mode = SET_OFF) → s.g_cfg.chan1.sample_start = true)

/-- The free-running start state on the fastest time base (`chan[A].time == 1`,
reseed value 0). -/
def fastestFreeRunState : State :=
  { startState with g_cfg := { default_cfg with chan1 := { default_cfg.chan1 with
      time := MENU_TIM_50US_VALUE } } }

/-! ## Theorems -/

/-- The clamped time base stored by the editor is a level in 1..11. -/
theorem clampedTime_bounds (sv : Int) :
    1 ≤ toUInt8 (range sv MENU_TIM_50US_VALUE MENU_TIM_100MS_VALUE) ∧
      toUInt8 (range sv MENU_TIM_50US_VALUE MENU_TIM_100MS_VALUE) ≤ 11 := by
  unfold toUInt8 range MENU_TIM_50US_VALUE MENU_TIM_100MS_VALUE
  split_ifs <;> omega

/-- With row 3 marked, `_print_value_str` applies `editTime` to the globals for
some selected value. -/
theorem print_value_str_time (millis : Nat) (channel_nr : channel_nr_t) (oldvalue : Nat)
    (m : CMenu) (hrow : m._menuctrl.rowindex = 3) (hmark : m._menuctrl.mark_on = true) :
    ∃ sv : Int, (_print_value_str millis 3 channel_nr oldvalue m).globals =
      editTime channel_nr sv m.globals := by
  unfold _print_value_str selectValue
  simp only [hrow, hmark, and_self, if_true]
  cases hd : (m.rotaryencoder.down).1 <;> cases hu : (m.rotaryencoder.up).1 <;>
    simp [CRotaryEncoder.up, CRotaryEncoder.down] at hd hu <;>
    simp [CRotaryEncoder.up, CRotaryEncoder.down, hd, hu, editRow] <;>
    exact ⟨_, rfl⟩

/-- The table `_counter_values` is non-decreasing over the levels 1..11. -/
theorem counterValue_mono (a b : Nat) (ha : 1 ≤ a) (hab : a ≤ b) (hb : b ≤ 11) :
    counterValue a ≤ counterValue b := by
  interval_cases b <;> interval_cases a <;> decide

/-! ### XOR accumulation -/

/-- A value XOR-ed into the start value of the accumulation can be moved out. -/
theorem xorFold_init (F : Nat → Nat) (l : List Nat) (c d : Nat) :
    l.foldl (fun acc x => acc ^^^ F x) (c ^^^ d) = l.foldl (fun acc x => acc ^^^ F x) c ^^^ d := by
  induction l generalizing c with
  | nil => rfl
  | cons x xs ih =>
    simp only [List.foldl_cons]
    have hswap : c ^^^ d ^^^ F x = (c ^^^ F x) ^^^ d := by
      rw [Nat.xor_assoc, Nat.xor_comm d, ← Nat.xor_assoc]
    rw [hswap]
    exact ih _

/-- The accumulation depends only on the values at the listed addresses. -/
theorem xorFold_congr (F G : Nat → Nat) (l : List Nat) (c : Nat)
    (h : ∀ x ∈ l, F x = G x) :
    l.foldl (fun acc x => acc ^^^ F x) c = l.foldl (fun acc x => acc ^^^ G x) c := by
  induction l generalizing c with
  | nil => rfl
  | cons x xs ih =>
    simp only [List.foldl_cons]
    rw [h x (List.mem_cons_self _ _)]
    exact ih _ (fun y hy => h y (List.mem_cons_of_mem _ hy))

/-- Changing the value at one listed address changes the accumulation by the
XOR of the old and the new value. -/
theorem xorFold_change (F G : Nat → Nat) (a : Nat) (hFG : ∀ x, x ≠ a → G x = F x)
    (l : List Nat) (c : Nat) (hnd : l.Nodup) (ha : a ∈ l) :
    l.foldl (fun acc x => acc ^^^ G x) c =
      l.foldl (fun acc x => acc ^^^ F x) c ^^^ F a ^^^ G a := by
  induction l generalizing c with
  | nil => cases ha
  | cons x xs ih =>
    simp only [List.foldl_cons]
    rw [List.nodup_cons] at hnd
    by_cases hx : a = x
    · subst hx
      have hsame : xs.foldl (fun acc x => acc ^^^ G x) (c ^^^ G a) =
          xs.foldl (fun acc x => acc ^^^ F x) (c ^^^ G a) :=
        xorFold_congr G F xs _ (fun y hy => hFG y (fun hya => hnd.1 (hya ▸ hy)))
      rw [hsame, xorFold_init F xs c (G a), xorFold_init F xs c (F a), Nat.xor_cancel_right]
    · have hmem : a ∈ xs := by
        rcases List.mem_cons.mp ha with h | h
        · exact absurd h hx
        · exact h
      rw [hFG x (fun h => hx h.symm)]
      exact ih _ hnd.2 hmem

/-- The accumulation of bytes is a byte. -/
theorem xorFold_lt (F : Nat → Nat) (l : List Nat) (c : Nat) (hc : c < 256)
    (h : ∀ x ∈ l, F x < 256) :
    l.foldl (fun acc x => acc ^^^ F x) c < 256 := by
  induction l generalizing c with
  | nil => exact hc
  | cons x xs ih =>
    simp only [List.foldl_cons]
    have hx : F x < 2 ^ 8 := h x (List.mem_cons_self _ _)
    have hc8 : c < 2 ^ 8 := hc
    exact ih _ (Nat.xor_lt_two_pow hc8 hx) (fun y hy => h y (List.mem_cons_of_mem _ hy))

/-! ### Checksum and storage -/

/-- With `MEM_TYPE_EEPROM` the checksum is the XOR of the stored block. -/
theorem make_checksum_eeprom {σ : Type} (E : EEPROMClass σ) (st : σ) (g : cfg_t) :
    _make_checksum E st g MEM_TYPE_EEPROM =
      (List.range sizeof_cfg_t).foldl
        (fun acc x => acc ^^^ eepromByte E st (ADDR_CFG_DATA_BASE + x)) 0 := by
  simp [_make_checksum, MEM_TYPE_EEPROM, MEM_TYPE_GLOBAL]

/-- With `MEM_TYPE_GLOBAL` the checksum is the XOR of the bytes of `g_cfg`. -/
theorem make_checksum_global {σ : Type} (E : EEPROMClass σ) (st : σ) (g : cfg_t) :
    _make_checksum E st g MEM_TYPE_GLOBAL =
      (List.range sizeof_cfg_t).foldl (fun acc x => acc ^^^ (cfg_bytes g).getD x 0) 0 := by
  simp [_make_checksum, MEM_TYPE_EEPROM, MEM_TYPE_GLOBAL]

/-- Every byte of the object representation of `g_cfg` is below 256. -/
theorem cfg_bytes_lt (g : cfg_t) (x : Nat) : (cfg_bytes g).getD x 0 < 256 := by
  have hall : ∀ b ∈ cfg_bytes g, b < 256 := by
    intro b hb
    have hbool : ∀ c : Bool, boolByte c < 256 := by
      intro c
      cases c <;> simp [boolByte]
    have hu : ∀ z : Int, toUInt8 z < 256 := by
      intro z
      unfold toUInt8
      omega
    have h1 := hbool g.chan1.sample_draw
    have h2 := hbool g.chan1.sample_start
    have h3 := hbool g.chan2.sample_draw
    have h4 := hbool g.chan2.sample_start
    have h5 := hu g.chan1.offset
    have h6 := hu g.chan2.offset
    cases hsel : g.selected_channel <;>
      simp only [cfg_bytes, channel_val_bytes, channel_nr_bytes, hsel, List.mem_append,
        List.mem_cons, List.mem_singleton, List.not_mem_nil, or_false] at hb <;>
      omega
  rw [List.getD_eq_getElem?_getD]
  cases hx : (cfg_bytes g)[x]? with
  | none => simp
  | some b => exact hall b (List.getElem?_mem hx)

/-- The object representation of `g_cfg` has `sizeof(cfg_t)` bytes. -/
theorem cfg_bytes_length (g : cfg_t) : (cfg_bytes g).length = sizeof_cfg_t := by
  cases hsel : g.selected_channel <;>
    simp [cfg_bytes, channel_val_bytes, channel_nr_bytes, hsel, sizeof_cfg_t]

/-- Reading a cell of the storage that returns what was written. -/
theorem ram_read (mem : Nat → Nat) (addr : Nat) : RamEEPROM.read mem addr = mem addr := rfl

/-- Writing a cell of the storage that returns what was written. -/
theorem ram_write (mem : Nat → Nat) (addr v : Nat) :
    RamEEPROM.write mem addr v = Function.update mem addr (v % 256) := rfl

/-- On the storage that returns what was written, `EEPROM.put` leaves the
block's bytes in the addressed cells and every other cell as it was. -/
theorem ram_put_read (bytes : List Nat) (mem : Nat → Nat) (idx a : Nat) :
    EEPROM_put RamEEPROM mem idx bytes a =
      if idx ≤ a ∧ a < idx + bytes.length then bytes.getD (a - idx) 0 % 256 else mem a := by
  unfold EEPROM_put
  generalize bytes.length = n
  induction n with
  | zero =>
    have h0 : ¬ (idx ≤ a ∧ a < idx) := by omega
    simp [h0]
  | succ n ih =>
    rw [List.range_succ, List.foldl_append, List.foldl_cons, List.foldl_nil]
    simp only [RamEEPROM] at ih ⊢
    rw [Function.update_apply, ih]
    by_cases ha : a = idx + n
    · subst ha
      have h1 : idx ≤ idx + n ∧ idx + n < idx + (n + 1) := by omega
      simp [h1]
    · by_cases hin : idx ≤ a ∧ a < idx + n
      · have h1 : idx ≤ a ∧ a < idx + (n + 1) := by omega
        simp [ha, hin, h1]
      · have h1 : ¬ (idx ≤ a ∧ a < idx + (n + 1)) := by omega
        simp [ha, hin, h1]

/-- After a save on the storage that returns what was written, the cell of
byte `x` of the block holds byte `x` of `g_cfg`. -/
theorem saved_data_byte (g : cfg_t) (mem : Nat → Nat) (x : Nat) (hx : x < sizeof_cfg_t) :
    eepromByte RamEEPROM (_EEPROM_write_cfg RamEEPROM mem g).2 (ADDR_CFG_DATA_BASE + x) =
      (cfg_bytes g).getD x 0 := by
  have hlen := cfg_bytes_length g
  have hin : ADDR_CFG_DATA_BASE ≤ ADDR_CFG_DATA_BASE + x ∧
      ADDR_CFG_DATA_BASE + x < ADDR_CFG_DATA_BASE + (cfg_bytes g).length := by
    rw [hlen]
    omega
  have hne : ADDR_CFG_DATA_BASE + x ≠ ADDR_CHECKSUM := by
    simp [ADDR_CFG_DATA_BASE, ADDR_CHECKSUM]
  simp only [_EEPROM_write_cfg, eepromByte, ram_read, ram_write]
  rw [Function.update_noteq hne, ram_put_read, if_pos hin, Nat.add_sub_cancel_left,
    Nat.mod_mod, Nat.mod_eq_of_lt (cfg_bytes_lt g x)]

/-- The checksum computed over `g_cfg` is a byte. -/
theorem make_checksum_global_lt {σ : Type} (E : EEPROMClass σ) (st : σ) (g : cfg_t) :
    _make_checksum E st g MEM_TYPE_GLOBAL < 256 := by
  rw [make_checksum_global]
  exact xorFold_lt _ _ 0 (by decide) (fun x _ => cfg_bytes_lt g x)

/-- After a save on the storage that returns what was written, the checksum
cell holds the checksum of `g_cfg`. -/
theorem saved_checksum_byte (g : cfg_t) (mem : Nat → Nat) :
    eepromByte RamEEPROM (_EEPROM_write_cfg RamEEPROM mem g).2 ADDR_CHECKSUM =
      _make_checksum RamEEPROM mem g MEM_TYPE_GLOBAL := by
  simp only [_EEPROM_write_cfg, eepromByte, ram_read, ram_write]
  rw [Function.update_same, Nat.mod_mod,
    Nat.mod_eq_of_lt (make_checksum_global_lt RamEEPROM mem g)]

/-- After a save on the storage that returns what was written, the checksum
recomputed over the stored block equals the checksum of `g_cfg`. -/
theorem saved_block_checksum (g g0 : cfg_t) (mem : Nat → Nat) :
    _make_checksum RamEEPROM (_EEPROM_write_cfg RamEEPROM mem g).2 g0 MEM_TYPE_EEPROM =
      _make_checksum RamEEPROM mem g MEM_TYPE_GLOBAL := by
  rw [make_checksum_eeprom, make_checksum_global]
  apply xorFold_congr
  intro x hx
  exact saved_data_byte g mem x (List.mem_range.mp hx)

/-- The conversion `int8_t` to byte and back is the identity. -/
theorem toInt8_toUInt8 (z : Int) (h : -128 ≤ z ∧ z ≤ 127) : toInt8 (toUInt8 z) = z := by
  unfold toInt8 toUInt8
  omega

/-- After a save on the storage that returns what was written, the checksum
cell and the cells of the block hold bytes. -/
theorem saved_cell_lt (g : cfg_t) (mem : Nat → Nat) (addr : Nat)
    (haddr : addr = ADDR_CHECKSUM ∨
      (ADDR_CFG_DATA_BASE ≤ addr ∧ addr < ADDR_CFG_DATA_BASE + sizeof_cfg_t)) :
    (_EEPROM_write_cfg RamEEPROM mem g).2 addr < 256 := by
  simp only [_EEPROM_write_cfg, ram_write]
  rcases haddr with h | h
  · subst h
    rw [Function.update_same]
    exact Nat.mod_lt _ (by decide)
  · have hne : addr ≠ ADDR_CHECKSUM := by
      simp only [ADDR_CFG_DATA_BASE, ADDR_CHECKSUM] at h ⊢
      omega
    have hin : ADDR_CFG_DATA_BASE ≤ addr ∧ addr < ADDR_CFG_DATA_BASE + (cfg_bytes g).length := by
      rw [cfg_bytes_length]
      exact h
    rw [Function.update_noteq hne, ram_put_read, if_pos hin]
    exact Nat.mod_lt _ (by decide)

/-- A stored block whose checksum cell differs from the XOR of its data cells
is rejected, and `init_cfg` then yields the compiled-in defaults. -/
theorem init_cfg_of_invalid {σ : Type} (E : EEPROMClass σ) (st : σ)
    (h : eepromByte E st ADDR_CHECKSUM ≠ _make_checksum E st default_cfg MEM_TYPE_EEPROM) :
    init_cfg E st = default_cfg := by
  simp [init_cfg, _IsEEPROM_data_valid, h]

/-- The checksum over the stored block does not depend on `g_cfg`. -/
theorem make_checksum_eeprom_indep {σ : Type} (E : EEPROMClass σ) (st : σ) (g g0 : cfg_t) :
    _make_checksum E st g MEM_TYPE_EEPROM = _make_checksum E st g0 MEM_TYPE_EEPROM := by
  rw [make_checksum_eeprom, make_checksum_eeprom]

/-- C1: for every state with `channel1.index < 128` the channel-A part of the
tick handler equals the reference step `tickChannelA_ref` (reseed only when not
armed, decrement only while the countdown is positive, else store, advance the
index modulo 128, reseed, and disarm / mark ready exactly on a wrap in a
triggered mode). -/
theorem C1_tick_channelA_refines (adc : Nat) (s : State) (h : s.channel1.index < 128) :
    ISR_TIMER2_COMPA_chan1 adc s = tickChannelA_ref adc s := by
  obtain ⟨g, ⟨d1, i1⟩, c2, k1, k2, t⟩ := s
  obtain ⟨⟨st, am, ti, off, tm, tl, op, dr, start⟩, g2, sel⟩ := g
  simp only at h
  have h256 : (i1 + 1) % 256 = i1 + 1 := Nat.mod_eq_of_lt (by omega)
  unfold ISR_TIMER2_COMPA_chan1 tickChannelA_ref
  cases start
  · simp
  · by_cases hk : k1 > 0
    · simp [hk]
    · by_cases hw : i1 = 127
      · subst hw
        by_cases htm : tm = SET_OFF
        · simp [hk, htm, SAMPLE_DATA_SIZE]
        · simp [hk, htm, SAMPLE_DATA_SIZE]
      · have h1 : ¬ (128 ≤ i1 + 1) := by omega
        have h2 : (i1 + 1) % 128 = i1 + 1 := Nat.mod_eq_of_lt (by omega)
        simp [hk, SAMPLE_DATA_SIZE, h256, h1, h2]

/-- Witness for C1 at the start state (index 0, armed, countdown 0). -/
theorem C1_tick_channelA_refines_witness :
    startState.channel1.index < 128 ∧
      ISR_TIMER2_COMPA_chan1 512 startState = tickChannelA_ref 512 startState :=
  ⟨by decide, C1_tick_channelA_refines 512 startState (by decide)⟩

/-- C2: when the edge handler runs in a triggered mode with channel A neither
ready nor armed, afterwards both write indexes and both countdown counters are
0, both channels are armed and channel A is still not ready. -/
theorem C2_trigger_arm (millis : Nat) (s : State)
    (hmode : s.g_cfg.chan1.trigger_mode ≠ SET_OFF)
    (hdraw : s.g_cfg.chan1.sample_draw = false)
    (hstart : s.g_cfg.chan1.sample_start = false) :
    (ISR_ANALOG_COMP millis s).channel1.index = 0 ∧
    (ISR_ANALOG_COMP millis s).channel2.index = 0 ∧
    (ISR_ANALOG_COMP millis s)._sample_counter1 = 0 ∧
    (ISR_ANALOG_COMP millis s)._sample_counter2 = 0 ∧
    (ISR_ANALOG_COMP millis s).g_cfg.chan1.sample_start = true ∧
    (ISR_ANALOG_COMP millis s).g_cfg.chan2.sample_start = true ∧
    (ISR_ANALOG_COMP millis s).g_cfg.chan1.sample_draw = false := by
  simp [ISR_ANALOG_COMP, hmode, hdraw, hstart]

/-- Witness for C2 at `idleAutoState` with a non-zero write index. -/
theorem C2_trigger_arm_witness :
    (ISR_ANALOG_COMP 5 { idleAutoState with channel1 := { idleAutoState.channel1 with index := 77 } }).channel1.index = 0 :=
  (C2_trigger_arm 5 { idleAutoState with channel1 := { idleAutoState.channel1 with index := 77 } }
    (by decide) (by decide) (by decide)).1

/-- C3: in free-run, or while channel A is armed, or while channel A is ready,
the edge handler changes nothing but the last-event timestamp, which becomes
the current time; and from any state, running the edge handler twice with the
same clock value gives the same state as running it once. -/
theorem C3_trigger_arm_idempotent (millis : Nat) (s : State) :
    ((s.g_cfg.chan1.trigger_mode = SET_OFF ∨ s.g_cfg.chan1.sample_start = true ∨
        s.g_cfg.chan1.sample_draw = true) →
      ISR_ANALOG_COMP millis s = { s with _Trigger_Timeout := millis }) ∧
    ISR_ANALOG_COMP millis (ISR_ANALOG_COMP millis s) = ISR_ANALOG_COMP millis s := by
  constructor
  · intro h
    unfold ISR_ANALOG_COMP
    rcases h with h | h | h
    · simp [h]
    · simp [h]
    · simp [h]
  · unfold ISR_ANALOG_COMP
    by_cases h1 : s.g_cfg.chan1.trigger_mode = SET_OFF
    · simp [h1]
    · by_cases h2 : s.g_cfg.chan1.sample_draw = false
      · by_cases h3 : s.g_cfg.chan1.sample_start = false
        · simp [h1, h2, h3]
        · simp [h1, h2, h3]
      · simp [h1, h2]

/-- Witness for C3: the start state (free-run) keeps everything but the
timestamp. -/
theorem C3_trigger_arm_idempotent_witness :
    ISR_ANALOG_COMP 9 startState = { startState with _Trigger_Timeout := 9 } :=
  (C3_trigger_arm_idempotent 9 startState).1 (Or.inl (by decide))

/-- C4 (counterexample): with `chan[A].time == 0` before the edit, editing the
time base of channel B (row 3 marked, no encoder turn, old value 4) leaves
`chan[B].time == 0`, which is outside 1..11. -/
theorem C4_counterexample :
    ((_print_value_str 0 3 eChannel_nr2 4 editBelowRangeMenu).globals.g_cfg.chan
        eChannel_nr2).time = 0 ∧
    ¬ (1 ≤ ((_print_value_str 0 3 eChannel_nr2 4 editBelowRangeMenu).globals.g_cfg.chan
        eChannel_nr2).time ∧
      ((_print_value_str 0 3 eChannel_nr2 4 editBelowRangeMenu).globals.g_cfg.chan
        eChannel_nr2).time ≤ 11) := by
  decide

/-- C4 (amended): for every prior configuration, every selected channel, every
old value and every encoder input, after a time-base edit (row 3 marked)
`chan[B].time <= chan[A].time` holds and the edited channel's time is at most
11; it is at least 1 when channel A is the edited channel or `chan[A].time`
was at least 1 before the edit. -/
theorem C4_timebase_invariant (millis : Nat) (channel_nr : channel_nr_t) (oldvalue : Nat)
    (m : CMenu) (hrow : m._menuctrl.rowindex = 3) (hmark : m._menuctrl.mark_on = true) :
    ((_print_value_str millis 3 channel_nr oldvalue m).globals.g_cfg.chan eChannel_nr2).time ≤
      ((_print_value_str millis 3 channel_nr oldvalue m).globals.g_cfg.chan eChannel_nr1).time ∧
    ((_print_value_str millis 3 channel_nr oldvalue m).globals.g_cfg.chan channel_nr).time ≤ 11 ∧
    ((channel_nr = eChannel_nr1 ∨ 1 ≤ (m.globals.g_cfg.chan eChannel_nr1).time) →
      1 ≤ ((_print_value_str millis 3 channel_nr oldvalue m).globals.g_cfg.chan channel_nr).time) := by
  obtain ⟨sv, hsv⟩ := print_value_str_time millis channel_nr oldvalue m hrow hmark
  rw [hsv]
  have hr := clampedTime_bounds sv
  simp only [editTime]
  generalize toUInt8 (range sv MENU_TIM_50US_VALUE MENU_TIM_100MS_VALUE) = t at hr ⊢
  cases channel_nr
  · simp only [set_counter_defaults, cfg_t.setChan, cfg_t.chan]
    split_ifs with hc
    · exact ⟨le_refl _, hr.2, fun _ => hr.1⟩
    · simp only [] at hc ⊢
      exact ⟨by omega, hr.2, fun _ => hr.1⟩
  · simp only [set_counter_defaults, cfg_t.setChan, cfg_t.chan]
    split_ifs with hc
    · simp only [] at hc ⊢
      refine ⟨le_refl _, by omega, ?_⟩
      rintro (h | h)
      · cases h
      · exact h
    · simp only [] at hc ⊢
      refine ⟨by omega, hr.2, fun _ => hr.1⟩

/-- Witness for the amended C4: channel A edited one level up from the default
configuration. -/
theorem C4_timebase_invariant_witness :
    ((_print_value_str 0 3 eChannel_nr1 4 editTimeUpMenu).globals.g_cfg.chan eChannel_nr2).time ≤
      ((_print_value_str 0 3 eChannel_nr1 4 editTimeUpMenu).globals.g_cfg.chan eChannel_nr1).time :=
  (C4_timebase_invariant 0 eChannel_nr1 4 editTimeUpMenu (by decide) (by decide)).1

/-- C5 (counterexample): from the default configuration (both time bases at
level 4), turning channel A one level up gives `chan[A].time == 5`,
`chan[B].time == 4`: channel B then samples every 10 ticks, channel A every 20
ticks, so channel B is faster than channel A. -/
theorem C5_counterexample :
    counterValue ((_print_value_str 0 3 eChannel_nr1 4 editTimeUpMenu).globals.g_cfg.chan
        eChannel_nr2).time + 1 = 10 ∧
    counterValue ((_print_value_str 0 3 eChannel_nr1 4 editTimeUpMenu).globals.g_cfg.chan
        eChannel_nr1).time + 1 = 20 ∧
    ¬ (counterValue ((_print_value_str 0 3 eChannel_nr1 4 editTimeUpMenu).globals.g_cfg.chan
          eChannel_nr2).time + 1 ≥
        counterValue ((_print_value_str 0 3 eChannel_nr1 4 editTimeUpMenu).globals.g_cfg.chan
          eChannel_nr1).time + 1) := by
  decide

/-- C5 (amended): after a time-base edit (row 3 marked) from a configuration
whose two time bases are levels in 1..11, channel B is never slower than
channel A: the ticks between two channel-B samples
(`_counter_values[chan[B].time] + 1`) are at most the ticks between two
channel-A samples (`_counter_values[chan[A].time] + 1`). -/
theorem C5_channelB_never_slower (millis : Nat) (channel_nr : channel_nr_t) (oldvalue : Nat)
    (m : CMenu) (hrow : m._menuctrl.rowindex = 3) (hmark : m._menuctrl.mark_on = true)
    (hA : 1 ≤ (m.globals.g_cfg.chan eChannel_nr1).time ∧
      (m.globals.g_cfg.chan eChannel_nr1).time ≤ 11)
    (hB : 1 ≤ (m.globals.g_cfg.chan eChannel_nr2).time ∧
      (m.globals.g_cfg.chan eChannel_nr2).time ≤ 11) :
    counterValue ((_print_value_str millis 3 channel_nr oldvalue m).globals.g_cfg.chan
        eChannel_nr2).time + 1 ≤
      counterValue ((_print_value_str millis 3 channel_nr oldvalue m).globals.g_cfg.chan
        eChannel_nr1).time + 1 := by
  obtain ⟨sv, hsv⟩ := print_value_str_time millis channel_nr oldvalue m hrow hmark
  rw [hsv]
  have hr := clampedTime_bounds sv
  simp only [editTime]
  generalize toUInt8 (range sv MENU_TIM_50US_VALUE MENU_TIM_100MS_VALUE) = t at hr ⊢
  simp only [cfg_t.chan] at hA hB
  apply Int.add_le_add_right
  cases channel_nr
  · simp only [set_counter_defaults, cfg_t.setChan, cfg_t.chan]
    split_ifs with hc
    · exact le_refl _
    · simp only [] at hc ⊢
      exact counterValue_mono _ _ hB.1 (by omega) hr.2
  · simp only [set_counter_defaults, cfg_t.setChan, cfg_t.chan]
    split_ifs with hc
    · exact le_refl _
    · simp only [] at hc ⊢
      exact counterValue_mono _ _ hr.1 (by omega) hA.2

/-- Witness for the amended C5: channel A edited one level up from the default
configuration. -/
theorem C5_channelB_never_slower_witness :
    counterValue ((_print_value_str 0 3 eChannel_nr1 4 editTimeUpMenu).globals.g_cfg.chan
        eChannel_nr2).time + 1 ≤
      counterValue ((_print_value_str 0 3 eChannel_nr1 4 editTimeUpMenu).globals.g_cfg.chan
        eChannel_nr1).time + 1 :=
  C5_channelB_never_slower 0 eChannel_nr1 4 editTimeUpMenu (by decide) (by decide)
    (by decide) (by decide)

/-- C6: for every configuration (fields within their C types) and the storage
that returns what was written, `_EEPROM_write_cfg` returns true and a following
`init_cfg` yields the compiled-in defaults with amplifier, time, trigger_mode,
offset, option and trigger_level of channel A and amplifier, time and offset of
channel B replaced by the saved values. -/
theorem C6_checksum_round_trip (g : cfg_t) (mem : Nat → Nat) (hg : g.typed) :
    (_EEPROM_write_cfg RamEEPROM mem g).1 = true ∧
    init_cfg RamEEPROM (_EEPROM_write_cfg RamEEPROM mem g).2 =
      { default_cfg with
        chan1 := { default_cfg.chan1 with
          amplifier := g.chan1.amplifier
          time := g.chan1.time
          trigger_mode := g.chan1.trigger_mode
          offset := g.chan1.offset
          option := g.chan1.option
          trigger_level := g.chan1.trigger_level }
        chan2 := { default_cfg.chan2 with
          amplifier := g.chan2.amplifier
          time := g.chan2.time
          offset := g.chan2.offset } } := by
  obtain ⟨-, ha1, ht1, ho1, hm1, hl1, hp1, -, ha2, ht2, ho2, -, -, -⟩ := hg
  constructor
  · have h := saved_block_checksum g g mem
    simp only [_EEPROM_write_cfg] at h ⊢
    rw [h]
    simp
  · have hvalid : _IsEEPROM_data_valid RamEEPROM (_EEPROM_write_cfg RamEEPROM mem g).2
        default_cfg = true := by
      unfold _IsEEPROM_data_valid
      rw [saved_checksum_byte, saved_block_checksum]
      simp
    have b1 := saved_data_byte g mem 1 (by decide)
    have b2 := saved_data_byte g mem 2 (by decide)
    have b3 := saved_data_byte g mem 3 (by decide)
    have b4 := saved_data_byte g mem 4 (by decide)
    have b5 := saved_data_byte g mem 5 (by decide)
    have b6 := saved_data_byte g mem 6 (by decide)
    have b10 := saved_data_byte g mem 10 (by decide)
    have b11 := saved_data_byte g mem 11 (by decide)
    have b12 := saved_data_byte g mem 12 (by decide)
    simp only [cfg_bytes, channel_val_bytes, List.cons_append, List.nil_append,
      List.getD_cons_succ, List.getD_cons_zero] at b1 b2 b3 b4 b5 b6 b10 b11 b12
    rw [Nat.mod_eq_of_lt ha1] at b1
    rw [Nat.mod_eq_of_lt ht1] at b2
    rw [Nat.mod_eq_of_lt hm1] at b4
    rw [Nat.mod_eq_of_lt hl1] at b5
    rw [Nat.mod_eq_of_lt hp1] at b6
    rw [Nat.mod_eq_of_lt ha2] at b10
    rw [Nat.mod_eq_of_lt ht2] at b11
    simp only [init_cfg, hvalid, if_true, b1, b2, b3, b4, b5, b6, b10, b11, b12,
      toInt8_toUInt8 _ ho1, toInt8_toUInt8 _ ho2]

/-- Witness for C6: the default configuration, channel A set to 2 ms, Auto-,
offset -5, saved to an erased EEPROM. -/
theorem C6_checksum_round_trip_witness :
    (_EEPROM_write_cfg RamEEPROM erasedEEPROM savedExampleCfg).1 = true ∧
    init_cfg RamEEPROM (_EEPROM_write_cfg RamEEPROM erasedEEPROM savedExampleCfg).2 =
      { default_cfg with
        chan1 := { default_cfg.chan1 with
          amplifier := savedExampleCfg.chan1.amplifier
          time := savedExampleCfg.chan1.time
          trigger_mode := savedExampleCfg.chan1.trigger_mode
          offset := savedExampleCfg.chan1.offset
          option := savedExampleCfg.chan1.option
          trigger_level := savedExampleCfg.chan1.trigger_level }
        chan2 := { default_cfg.chan2 with
          amplifier := savedExampleCfg.chan2.amplifier
          time := savedExampleCfg.chan2.time
          offset := savedExampleCfg.chan2.offset } } :=
  C6_checksum_round_trip savedExampleCfg erasedEEPROM (by decide)

/-- C7: after a save on the storage that returns what was written, changing
the checksum byte or any one of the `sizeof(cfg_t)` data bytes of the persisted
block to a different byte value makes `_IsEEPROM_data_valid` false, and
`init_cfg` then leaves every field at its compiled-in default. -/
theorem C7_corruption_detected (g g0 : cfg_t) (mem : Nat → Nat) (addr v : Nat)
    (haddr : addr = ADDR_CHECKSUM ∨
      (ADDR_CFG_DATA_BASE ≤ addr ∧ addr < ADDR_CFG_DATA_BASE + sizeof_cfg_t))
    (hv : v < 256)
    (hne : v ≠ (_EEPROM_write_cfg RamEEPROM mem g).2 addr) :
    _IsEEPROM_data_valid RamEEPROM
        (Function.update (_EEPROM_write_cfg RamEEPROM mem g).2 addr v) g0 = false ∧
    init_cfg RamEEPROM (Function.update (_EEPROM_write_cfg RamEEPROM mem g).2 addr v) =
      default_cfg := by
  have hold := saved_cell_lt g mem addr haddr
  have hck := saved_checksum_byte g mem
  have hblock := saved_block_checksum g default_cfg mem
  -- the stored checksum byte differs from the XOR of the stored data bytes
  have hbad : ∀ g1 : cfg_t,
      eepromByte RamEEPROM (Function.update (_EEPROM_write_cfg RamEEPROM mem g).2 addr v)
          ADDR_CHECKSUM ≠
        _make_checksum RamEEPROM
          (Function.update (_EEPROM_write_cfg RamEEPROM mem g).2 addr v) g1 MEM_TYPE_EEPROM := by
    intro g1
    rw [make_checksum_eeprom_indep _ _ g1 default_cfg]
    rw [make_checksum_eeprom] at hblock ⊢
    rcases haddr with h | h
    · -- the checksum byte was changed, the data bytes are as saved
      subst h
      have hdata : (List.range sizeof_cfg_t).foldl
          (fun acc x => acc ^^^ eepromByte RamEEPROM
            (Function.update (_EEPROM_write_cfg RamEEPROM mem g).2 ADDR_CHECKSUM v)
            (ADDR_CFG_DATA_BASE + x)) 0 =
          (List.range sizeof_cfg_t).foldl
          (fun acc x => acc ^^^ eepromByte RamEEPROM (_EEPROM_write_cfg RamEEPROM mem g).2
            (ADDR_CFG_DATA_BASE + x)) 0 := by
        apply xorFold_congr
        intro x _
        have hx : ADDR_CFG_DATA_BASE + x ≠ ADDR_CHECKSUM := by
          simp [ADDR_CFG_DATA_BASE, ADDR_CHECKSUM]
        simp only [eepromByte, ram_read]
        rw [Function.update_noteq hx]
      rw [hdata, hblock, ← hck]
      simp only [eepromByte, ram_read]
      rw [Function.update_same, Nat.mod_eq_of_lt hv, Nat.mod_eq_of_lt hold]
      exact hne
    · -- one data byte was changed, the checksum byte is as saved
      have hne0 : ADDR_CHECKSUM ≠ addr := by
        simp only [ADDR_CFG_DATA_BASE, ADDR_CHECKSUM] at h ⊢
        omega
      obtain ⟨i, rfl⟩ : ∃ i, addr = ADDR_CFG_DATA_BASE + i := ⟨addr - ADDR_CFG_DATA_BASE, by omega⟩
      have hi : i < sizeof_cfg_t := by omega
      have hchange := xorFold_change
        (fun x => eepromByte RamEEPROM (_EEPROM_write_cfg RamEEPROM mem g).2
          (ADDR_CFG_DATA_BASE + x))
        (fun x => eepromByte RamEEPROM
          (Function.update (_EEPROM_write_cfg RamEEPROM mem g).2 (ADDR_CFG_DATA_BASE + i) v)
          (ADDR_CFG_DATA_BASE + x))
        i
        (by
          intro x hx
          have hx2 : ADDR_CFG_DATA_BASE + x ≠ ADDR_CFG_DATA_BASE + i := by omega
          simp only [eepromByte, ram_read]
          rw [Function.update_noteq hx2])
        (List.range sizeof_cfg_t) 0 (List.nodup_range _) (List.mem_range.mpr hi)
      rw [hchange, hblock]
      have hc0 : eepromByte RamEEPROM
          (Function.update (_EEPROM_write_cfg RamEEPROM mem g).2 (ADDR_CFG_DATA_BASE + i) v)
          ADDR_CHECKSUM = _make_checksum RamEEPROM mem g MEM_TYPE_GLOBAL := by
        rw [← hck]
        simp only [eepromByte, ram_read]
        rw [Function.update_noteq hne0]
      rw [hc0]
      simp only [eepromByte, ram_read]
      rw [Function.update_same, Nat.mod_eq_of_lt hv, Nat.mod_eq_of_lt hold]
      intro heq
      have h0 : (_EEPROM_write_cfg RamEEPROM mem g).2 (ADDR_CFG_DATA_BASE + i) ^^^ v = 0 := by
        have h1 : _make_checksum RamEEPROM mem g MEM_TYPE_GLOBAL ^^^ 0 =
            _make_checksum RamEEPROM mem g MEM_TYPE_GLOBAL ^^^
              ((_EEPROM_write_cfg RamEEPROM mem g).2 (ADDR_CFG_DATA_BASE + i) ^^^ v) := by
          rw [Nat.xor_zero, ← Nat.xor_assoc]
          exact heq
        exact (Nat.xor_right_inj.mp h1).symm
      exact hne (Nat.xor_eq_zero.mp h0).symm
  constructor
  · unfold _IsEEPROM_data_valid
    rw [if_neg (hbad g0)]
  · exact init_cfg_of_invalid _ _ (hbad default_cfg)

/-- Witness for C7: the saved time base of channel A (block byte 2, cell 4)
changed from 6 to 7. -/
theorem C7_corruption_detected_witness :
    _IsEEPROM_data_valid RamEEPROM
        (Function.update (_EEPROM_write_cfg RamEEPROM erasedEEPROM savedExampleCfg).2 4 7)
        default_cfg = false ∧
    init_cfg RamEEPROM
        (Function.update (_EEPROM_write_cfg RamEEPROM erasedEEPROM savedExampleCfg).2 4 7) =
      default_cfg :=
  C7_corruption_detected savedExampleCfg default_cfg erasedEEPROM 4 7
    (Or.inr (by decide)) (by decide) (by decide)

/-- C8 (evaluation at the failing input): saving the default configuration to
an erased EEPROM whose checksum cell does not take the write, `_EEPROM_write_cfg`
returns true, yet the stored checksum byte (0xFF) is not the XOR of the stored
configuration bytes (0), so `_IsEEPROM_data_valid` is false on the block as read
back: the save compares the in-memory checksum only with the XOR of the stored
data bytes and never reads the checksum cell. -/
theorem C8_save_true_on_invalid_block :
    (_EEPROM_write_cfg wornChecksumCell erasedEEPROM default_cfg).1 = true ∧
    eepromByte wornChecksumCell
      (_EEPROM_write_cfg wornChecksumCell erasedEEPROM default_cfg).2 ADDR_CHECKSUM = 255 ∧
    _make_checksum wornChecksumCell
      (_EEPROM_write_cfg wornChecksumCell erasedEEPROM default_cfg).2 default_cfg
      MEM_TYPE_EEPROM = 0 ∧
    _IsEEPROM_data_valid wornChecksumCell
      (_EEPROM_write_cfg wornChecksumCell erasedEEPROM default_cfg).2 default_cfg = false := by
  decide

/-- C9: in an Auto trigger mode, with the elapsed time `e` (the 32-bit unsigned
difference of clock and last edge) below 65536, `is_triggertimeout` returns
true exactly when `e > 8000` if the channel's time base is above the reference
level, and exactly when `e > 2000` otherwise. -/
theorem C9_watchdog_threshold (millis : Nat) (eChannel : channel_nr_t) (menu_timeout : Nat)
    (s : State)
    (hauto : (s.g_cfg.chan eChannel).trigger_mode = SET_TRIG_AUTO_P ∨
      (s.g_cfg.chan eChannel).trigger_mode = SET_TRIG_AUTO_N)
    (he : subU32 millis s._Trigger_Timeout < 65536) :
    ((is_triggertimeout millis eChannel menu_timeout s).1 = true ↔
      if (s.g_cfg.chan eChannel).time > menu_timeout then
        subU32 millis s._Trigger_Timeout > 8000
      else subU32 millis s._Trigger_Timeout > 2000) := by
  unfold is_triggertimeout max_timeout
  rw [if_pos hauto, Nat.mod_eq_of_lt he]
  by_cases ht : (s.g_cfg.chan eChannel).time > menu_timeout
  · simp only [if_pos ht, TRIGGER_TIMEOUT_VALUE_MSEC]
    by_cases hx : subU32 millis s._Trigger_Timeout > 8000
    · simp [hx]
    · simp [hx]
  · simp only [if_neg ht, TRIGGER_TIMEOUT_VALUE_MSEC]
    by_cases hx : subU32 millis s._Trigger_Timeout > 2000
    · simp [hx]
    · simp [hx]

/-- Witness for C9: slow time base (level 9 > 8), 5000 ms after the last edge:
no timeout at 1x the base value. -/
theorem C9_watchdog_threshold_witness :
    (is_triggertimeout 5000 eChannel_nr1 8
      { idleAutoState with g_cfg := { idleAutoState.g_cfg with chan1 :=
          { idleAutoState.g_cfg.chan1 with time := 9 } } }).1 = false := by
  have h := C9_watchdog_threshold 5000 eChannel_nr1 8
    { idleAutoState with g_cfg := { idleAutoState.g_cfg with chan1 :=
        { idleAutoState.g_cfg.chan1 with time := 9 } } }
    (Or.inl (by decide)) (by decide)
  cases hb : (is_triggertimeout 5000 eChannel_nr1 8
      { idleAutoState with g_cfg := { idleAutoState.g_cfg with chan1 :=
          { idleAutoState.g_cfg.chan1 with time := 9 } } }).1
  · rfl
  · exact absurd (h.mp hb) (by decide)

/-- C10 (evaluation at the failing input): in mode Auto+, last edge at 0 ms and
clock at 66000 ms, the 32-bit unsigned difference 66000 exceeds the threshold
2000, yet `is_triggertimeout` returns false and leaves the state as it is: the
comparison is made on the difference truncated to 16 bits (66000 mod 65536 =
464). -/
theorem C10_watchdog_truncates_elapsed_time :
    subU32 66000 idleAutoState._Trigger_Timeout > max_timeout eChannel_nr1 8 idleAutoState ∧
    is_triggertimeout 66000 eChannel_nr1 8 idleAutoState = (false, idleAutoState) := by
  decide

/-! ### Trigger watchdog: buffers -/

/-- Storing `v` at the indexes `0 .. n-1` of a list, in this order, replaces its
first `n` entries by `v`. -/
theorem foldl_set_range (v : Nat) (n : Nat) (l : List Nat) (h : n ≤ l.length) :
    (List.range n).foldl (fun d x => d.set x v) l = List.replicate n v ++ l.drop n := by
  induction n with
  | zero => simp
  | succ n ih =>
    have hn : n < l.length := h
    rw [List.range_succ, List.foldl_append, ih (Nat.le_of_lt hn), List.foldl_cons,
      List.foldl_nil]
    rw [List.set_append_right _ _ (by simp), List.length_replicate, Nat.sub_self,
      List.drop_eq_getElem_cons hn, List.set_cons_zero, List.replicate_succ',
      List.append_assoc, List.singleton_append]

/-- The clearing loop for channel 1 touches `channel1.data` only. -/
theorem clearSampleBuffer_nr1 (s : State) :
    clearSampleBuffer eChannel_nr1 s =
      { s with channel1 := { s.channel1 with
          data := (List.range SAMPLE_DATA_SIZE).foldl (fun d x => d.set x 31) s.channel1.data } } := by
  unfold clearSampleBuffer
  generalize SAMPLE_DATA_SIZE = n
  induction n with
  | zero => rfl
  | succ n ih =>
    rw [List.range_succ, List.foldl_append, List.foldl_append, ih]
    simp

/-- The clearing loop for channel 2 touches `channel2.data` only. -/
theorem clearSampleBuffer_nr2 (s : State) :
    clearSampleBuffer eChannel_nr2 s =
      { s with channel2 := { s.channel2 with
          data := (List.range SAMPLE_DATA_SIZE).foldl (fun d x => d.set x 45) s.channel2.data } } := by
  unfold clearSampleBuffer
  generalize SAMPLE_DATA_SIZE = n
  induction n with
  | zero => rfl
  | succ n ih =>
    rw [List.range_succ, List.foldl_append, List.foldl_append, ih]
    simp

/-- C11: for `trigger_mode` Off, Normal+ or Normal- of the channel argument,
every reference level, clock value and last-edge timestamp, `is_triggertimeout`
returns false and leaves the state, so both sample buffers, unchanged. -/
theorem C11_normal_and_freerun_never_time_out (millis : Nat) (eChannel : channel_nr_t)
    (menu_timeout : Nat) (s : State)
    (hmode : (s.g_cfg.chan eChannel).trigger_mode = SET_TRIG_OFF ∨
      (s.g_cfg.chan eChannel).trigger_mode = SET_TRIG_NORM_P ∨
      (s.g_cfg.chan eChannel).trigger_mode = SET_TRIG_NORM_N) :
    (is_triggertimeout millis eChannel menu_timeout s).1 = false ∧
    (is_triggertimeout millis eChannel menu_timeout s).2 = s ∧
    (is_triggertimeout millis eChannel menu_timeout s).2.channel1.data = s.channel1.data ∧
    (is_triggertimeout millis eChannel menu_timeout s).2.channel2.data = s.channel2.data := by
  have hno : ¬ ((s.g_cfg.chan eChannel).trigger_mode = SET_TRIG_AUTO_P ∨
      (s.g_cfg.chan eChannel).trigger_mode = SET_TRIG_AUTO_N) := by
    simp only [SET_TRIG_OFF, SET_TRIG_NORM_P, SET_TRIG_NORM_N] at hmode
    simp only [SET_TRIG_AUTO_P, SET_TRIG_AUTO_N]
    omega
  unfold is_triggertimeout
  rw [if_neg hno]
  exact ⟨rfl, rfl, rfl, rfl⟩

/-- Witness for C11: the start state (free-run), 100000 ms after the last edge. -/
theorem C11_normal_and_freerun_never_time_out_witness :
    (is_triggertimeout 100000 eChannel_nr1 8 startState).1 = false :=
  (C11_normal_and_freerun_never_time_out 100000 eChannel_nr1 8 startState
    (Or.inl (by decide))).1

/-- C12: whenever `is_triggertimeout(ch, ref)` returns true (buffers of 128
entries), the state after the call is the state before with every entry of
channel `ch`'s buffer replaced by the neutral value (31 for channel A, 45 for
channel B); the other buffer, both write indexes, both countdown counters, the
last-event timestamp and the configuration are unchanged. -/
theorem C12_flat_line_on_timeout (millis : Nat) (eChannel : channel_nr_t) (menu_timeout : Nat)
    (s : State) (hlen1 : s.channel1.data.length = 128) (hlen2 : s.channel2.data.length = 128)
    (htimeout : (is_triggertimeout millis eChannel menu_timeout s).1 = true) :
    (is_triggertimeout millis eChannel menu_timeout s).2 =
      if eChannel = eChannel_nr1 then
        { s with channel1 := { s.channel1 with data := List.replicate 128 31 } }
      else
        { s with channel2 := { s.channel2 with data := List.replicate 128 45 } } := by
  have hfired : is_triggertimeout millis eChannel menu_timeout s =
      (true, clearSampleBuffer eChannel s) := by
    unfold is_triggertimeout at htimeout ⊢
    split_ifs at htimeout ⊢ with h1 h2
    rfl
  rw [hfired]
  cases eChannel
  · simp only [clearSampleBuffer_nr1, SAMPLE_DATA_SIZE, if_true]
    rw [foldl_set_range 31 128 _ (by omega), ← hlen1, List.drop_length, List.append_nil]
  · simp only [clearSampleBuffer_nr2, SAMPLE_DATA_SIZE]
    rw [foldl_set_range 45 128 _ (by omega), ← hlen2, List.drop_length, List.append_nil]
    rfl

/-- Witness for C12: mode Auto+, 3000 ms after the last edge, channel A. -/
theorem C12_flat_line_on_timeout_witness :
    (is_triggertimeout 3000 eChannel_nr1 8 idleAutoState).2 =
      if eChannel_nr1 = eChannel_nr1 then
        { idleAutoState with channel1 :=
            { idleAutoState.channel1 with data := List.replicate 128 31 } }
      else
        { idleAutoState with channel2 :=
            { idleAutoState.channel2 with data := List.replicate 128 45 } } :=
  C12_flat_line_on_timeout 3000 eChannel_nr1 8 idleAutoState (List.length_replicate _ _)
    (List.length_replicate _ _) (by decide)

/-- C20: `set_counter_defaults` and the tick handler (channel A when not armed
or when its countdown has run out, channel B when its countdown has run out)
reseed the countdown with `_counter_values[time]`; over the valid time bases
1..11 the reseed value strictly increases from fastest to slowest, and the
values are 0, 1, 3, 9, 19, 39, 99, 199, 399, 999, 1999. -/
theorem C20_decimation_table (adc : Nat) (s : State) (t t' : Nat)
    (ht : 1 ≤ t) (htt : t < t') (ht' : t' ≤ 11) :
    (set_counter_defaults s)._sample_counter1 = counterValue s.g_cfg.chan1.time ∧
    (set_counter_defaults s)._sample_counter2 = counterValue s.g_cfg.chan2.time ∧
    (¬ (s.g_cfg.chan1.sample_start = true ∧ s._sample_counter1 > 0) →
      (ISR_TIMER2_COMPA_chan1 adc s)._sample_counter1 = counterValue s.g_cfg.chan1.time) ∧
    ((s.g_cfg.chan2.sample_draw = false ∧
        (s.g_cfg.chan2.status = 1 ∨ s.g_cfg.chan1.option = SET_OPT_DUAL_PLUGGED) ∧
        ¬ s._sample_counter2 > 0) →
      (ISR_TIMER2_COMPA_chan2 adc s)._sample_counter2 = counterValue s.g_cfg.chan2.time) ∧
    counterValue t < counterValue t' ∧
    (List.range' 1 11).map counterValue = [0, 1, 3, 9, 19, 39, 99, 199, 399, 999, 1999] := by
  refine ⟨rfl, rfl, ?_, ?_, ?_, by decide⟩
  · intro h
    unfold ISR_TIMER2_COMPA_chan1
    by_cases hs : s.g_cfg.chan1.sample_start = true
    · have hk : ¬ s._sample_counter1 > 0 := fun hk => h ⟨hs, hk⟩
      simp only [hs, if_true, if_neg hk]
      split_ifs <;> rfl
    · simp [hs]
  · rintro ⟨hd, hst, hk⟩
    unfold ISR_TIMER2_COMPA_chan2
    simp only [hd, if_true, if_pos hst, if_neg hk]
    split_ifs <;> rfl
  · interval_cases t' <;> interval_cases t <;> decide

/-- Witness for C20: the start state, levels 4 (500 us) and 5 (1 ms). -/
theorem C20_decimation_table_witness : counterValue 4 < counterValue 5 :=
  (C20_decimation_table 0 startState 4 5 (by decide) (by decide) (by decide)).2.2.2.2.1

/-! ### Note identifier: folding loop and scan -/

/-- The low guard of the table. -/
theorem refFrequ_zero : refFrequ 0 = 2589 := rfl

/-- The high guard of the table. -/
theorem refFrequ_thirteen : refFrequ 13 = 5001 := rfl

/-- The scan over the indexes 1..12 with the windows written out. -/
theorem scanNotes_eq (f : Nat) (r : Int) :
    scanNotes (List.range' 1 12) f r =
      if f > 2537 ∧ f < 2694 then 1
      else if f > 2688 ∧ f < 2855 then 2
      else if f > 2848 ∧ f < 3025 then 3
      else if f > 3017 ∧ f < 3204 then 4
      else if f > 3197 ∧ f < 3394 then 5
      else if f > 3387 ∧ f < 3596 then 6
      else if f > 3589 ∧ f < 3811 then 7
      else if f > 3802 ∧ f < 4037 then 8
      else if f > 4028 ∧ f < 4277 then 9
      else if f > 4268 ∧ f < 4532 then 10
      else if f > 4522 ∧ f < 4801 then 11
      else if f > 4790 ∧ f < 5087 then 12
      else r := by
  rfl

/-- The scan either returns the value it was given, whatever that is, or a
result that does not depend on it. -/
theorem scanNotes_indep (l : List Nat) (f : Nat) :
    (∀ r, scanNotes l f r = r) ∨ (∀ r r', scanNotes l f r = scanNotes l f r') := by
  induction l with
  | nil => exact Or.inl (fun r => rfl)
  | cons i rest ih =>
    by_cases hw : f > (_get_limits (refFrequ i) 3).1 ∧ f < (_get_limits (refFrequ i) 3).2
    · exact Or.inr (fun r r' => by simp only [scanNotes, if_pos hw])
    · rcases ih with h | h
      · exact Or.inl (fun r => by simp only [scanNotes, if_neg hw]; exact h r)
      · exact Or.inr (fun r r' => by simp only [scanNotes, if_neg hw]; exact h r r')

/-- The scan returns the value it was given or one of the listed indexes. -/
theorem scanNotes_mem (l : List Nat) (f : Nat) (r : Int) :
    scanNotes l f r = r ∨ ∃ i ∈ l, scanNotes l f r = (i : Int) := by
  induction l with
  | nil => exact Or.inl rfl
  | cons i rest ih =>
    by_cases hw : f > (_get_limits (refFrequ i) 3).1 ∧ f < (_get_limits (refFrequ i) 3).2
    · exact Or.inr ⟨i, List.mem_cons_self _ _, by simp only [scanNotes, if_pos hw]⟩
    · simp only [scanNotes, if_neg hw]
      rcases ih with h | ⟨j, hj, h⟩
      · exact Or.inl h
      · exact Or.inr ⟨j, List.mem_cons_of_mem _ hj, h⟩

/-- If the frequency lies in the window of a listed index, the scan returns a
listed index. -/
theorem scanNotes_hit (l : List Nat) (f : Nat) (r : Int)
    (h : ∃ i ∈ l, f > (_get_limits (refFrequ i) 3).1 ∧ f < (_get_limits (refFrequ i) 3).2) :
    ∃ j ∈ l, scanNotes l f r = (j : Int) := by
  induction l with
  | nil =>
    obtain ⟨i, hi, _⟩ := h
    cases hi
  | cons i rest ih =>
    by_cases hw : f > (_get_limits (refFrequ i) 3).1 ∧ f < (_get_limits (refFrequ i) 3).2
    · exact ⟨i, List.mem_cons_self _ _, by simp only [scanNotes, if_pos hw]⟩
    · simp only [scanNotes, if_neg hw]
      obtain ⟨k, hk, hwk⟩ := h
      rcases List.mem_cons.mp hk with hki | hkr
      · subst hki
        exact absurd hwk hw
      · obtain ⟨j, hj, hres⟩ := ih ⟨k, hkr, hwk⟩
        exact ⟨j, List.mem_cons_of_mem _ hj, hres⟩

/-- Between 2538 and 5086 the windows of the notes 1..12 leave no gap. -/
theorem window_cover (f : Nat) (hlo : 2538 ≤ f) (hhi : f ≤ 5086) :
    ∃ i ∈ List.range' 1 12,
      f > (_get_limits (refFrequ i) 3).1 ∧ f < (_get_limits (refFrequ i) 3).2 := by
  have l1 : _get_limits (refFrequ 1) 3 = (2537, 2694) := rfl
  have l2 : _get_limits (refFrequ 2) 3 = (2688, 2855) := rfl
  have l3 : _get_limits (refFrequ 3) 3 = (2848, 3025) := rfl
  have l4 : _get_limits (refFrequ 4) 3 = (3017, 3204) := rfl
  have l5 : _get_limits (refFrequ 5) 3 = (3197, 3394) := rfl
  have l6 : _get_limits (refFrequ 6) 3 = (3387, 3596) := rfl
  have l7 : _get_limits (refFrequ 7) 3 = (3589, 3811) := rfl
  have l8 : _get_limits (refFrequ 8) 3 = (3802, 4037) := rfl
  have l9 : _get_limits (refFrequ 9) 3 = (4028, 4277) := rfl
  have l10 : _get_limits (refFrequ 10) 3 = (4268, 4532) := rfl
  have l11 : _get_limits (refFrequ 11) 3 = (4522, 4801) := rfl
  have l12 : _get_limits (refFrequ 12) 3 = (4790, 5087) := rfl
  have hsplit : f < 2694 ∨ (2694 ≤ f ∧ f < 2855) ∨ (2855 ≤ f ∧ f < 3025) ∨
      (3025 ≤ f ∧ f < 3204) ∨ (3204 ≤ f ∧ f < 3394) ∨ (3394 ≤ f ∧ f < 3596) ∨
      (3596 ≤ f ∧ f < 3811) ∨ (3811 ≤ f ∧ f < 4037) ∨ (4037 ≤ f ∧ f < 4277) ∨
      (4277 ≤ f ∧ f < 4532) ∨ (4532 ≤ f ∧ f < 4801) ∨ 4801 ≤ f := by omega
  rcases hsplit with h | h | h | h | h | h | h | h | h | h | h | h
  · exact ⟨1, by decide, by rw [l1]; constructor <;> simp only [] <;> omega⟩
  · exact ⟨2, by decide, by rw [l2]; constructor <;> simp only [] <;> omega⟩
  · exact ⟨3, by decide, by rw [l3]; constructor <;> simp only [] <;> omega⟩
  · exact ⟨4, by decide, by rw [l4]; constructor <;> simp only [] <;> omega⟩
  · exact ⟨5, by decide, by rw [l5]; constructor <;> simp only [] <;> omega⟩
  · exact ⟨6, by decide, by rw [l6]; constructor <;> simp only [] <;> omega⟩
  · exact ⟨7, by decide, by rw [l7]; constructor <;> simp only [] <;> omega⟩
  · exact ⟨8, by decide, by rw [l8]; constructor <;> simp only [] <;> omega⟩
  · exact ⟨9, by decide, by rw [l9]; constructor <;> simp only [] <;> omega⟩
  · exact ⟨10, by decide, by rw [l10]; constructor <;> simp only [] <;> omega⟩
  · exact ⟨11, by decide, by rw [l11]; constructor <;> simp only [] <;> omega⟩
  · exact ⟨12, by decide, by rw [l12]; constructor <;> simp only [] <;> omega⟩

/-- Between 2538 and 5086 the scan returns a note index 1..12. -/
theorem scanNotes_covered (f : Nat) (r : Int) (hlo : 2538 ≤ f) (hhi : f ≤ 5086) :
    1 ≤ scanNotes (List.range' 1 12) f r ∧ scanNotes (List.range' 1 12) f r ≤ 12 := by
  obtain ⟨j, hj, hres⟩ := scanNotes_hit (List.range' 1 12) f r (window_cover f hlo hhi)
  rw [hres]
  rw [List.mem_range'_1] at hj
  omega

/-- Between 2538 and 5086 the result of the scan does not depend on the value
it was given. -/
theorem scanNotes_covered_indep (f : Nat) (r r' : Int) (hlo : 2538 ≤ f) (hhi : f ≤ 5086) :
    scanNotes (List.range' 1 12) f r = scanNotes (List.range' 1 12) f r' := by
  rcases scanNotes_indep (List.range' 1 12) f with h | h
  · have hv := scanNotes_covered f 99 hlo hhi
    rw [h 99] at hv
    omega
  · exact h r r'

/-- The scan over 1..12 returns the value it was given or a note index 1..12. -/
theorem scanNotes_cases (f : Nat) (r : Int) :
    scanNotes (List.range' 1 12) f r = r ∨
      (1 ≤ scanNotes (List.range' 1 12) f r ∧ scanNotes (List.range' 1 12) f r ≤ 12) := by
  rcases scanNotes_mem (List.range' 1 12) f r with h | ⟨j, hj, h⟩
  · exact Or.inl h
  · rw [List.mem_range'_1] at hj
    rw [h]
    exact Or.inr ⟨by omega, by omega⟩

/-- The loop does not run on a state in which a frequency in range was found. -/
theorem foldLoop_found (fuel : Nat) (st : FoldState) (h : st.found = true) :
    foldLoop fuel st = st := by
  cases fuel <;> simp [foldLoop, h]

/-- One iteration on a frequency strictly between the guards: found. -/
theorem foldBody_in_band (st : FoldState)
    (h : 2589 < st._search_frequency ∧ st._search_frequency < 5001) :
    foldBody st = { st with iterations := st.iterations + 1, found := true } := by
  simp [foldBody, refFrequ_zero, refFrequ_thirteen, h]

/-- One iteration on a frequency above the high guard whose half is not below
the low guard: one halving, no doubling. -/
theorem foldBody_halve (st : FoldState) (h1 : 5001 < st._search_frequency)
    (h2 : 2589 ≤ st._search_frequency / 2) :
    foldBody st =
      { st with
        _search_frequency := st._search_frequency / 2
        _note_octave := toInt8 (st._note_octave + 1)
        rtn_value := 99
        halvings := st.halvings + 1
        iterations := st.iterations + 1
        loops := toInt8 (st.loops - 1) } := by
  have hnb : ¬ (2589 < st._search_frequency ∧ st._search_frequency < 5001) := by omega
  have hnd : ¬ (st._search_frequency / 2 < 2589) := by omega
  simp [foldBody, refFrequ_zero, refFrequ_thirteen, hnb, h1, hnd]

/-- One iteration keeps the invariant and counts as one. -/
theorem foldBody_inv (st : FoldState) (hinv : foldInvariant st) (hf : st.found = false)
    (hl : st.loops > 0) :
    foldInvariant (foldBody st) ∧ (foldBody st).iterations = st.iterations + 1 := by
  obtain ⟨f, o, r, fd, l, h, d, it⟩ := st
  simp only [foldInvariant] at hinv hf hl ⊢
  subst hf
  obtain ⟨ho, hh, hd, hloops⟩ := hinv
  have hl5 := hloops rfl
  simp only [foldBody, refFrequ_zero, refFrequ_thirteen]
  split_ifs <;> simp [toInt8] <;> omega

/-- The loop keeps the invariant and runs at most `fuel` iterations. -/
theorem foldLoop_inv (fuel : Nat) (st : FoldState) (hinv : foldInvariant st) :
    foldInvariant (foldLoop fuel st) ∧ (foldLoop fuel st).iterations ≤ st.iterations + fuel := by
  induction fuel generalizing st with
  | zero => exact ⟨hinv, le_refl _⟩
  | succ n ih =>
    by_cases hc : st.found = false ∧ st.loops > 0
    · simp only [foldLoop, if_pos hc]
      obtain ⟨hi, hit⟩ := foldBody_inv st hinv hc.1 hc.2
      obtain ⟨h1, h2⟩ := ih (foldBody st) hi
      exact ⟨h1, by omega⟩
    · simp only [foldLoop, if_neg hc]
      exact ⟨hinv, by omega⟩

/-- With enough fuel the loop runs to its exit: a frequency in range was found
or `loops` has reached 0. -/
theorem foldLoop_exit (fuel : Nat) (st : FoldState) (hinv : foldInvariant st)
    (hfuel : 5 ≤ st.iterations + fuel) :
    ¬ ((foldLoop fuel st).found = false ∧ (foldLoop fuel st).loops > 0) := by
  induction fuel generalizing st with
  | zero =>
    simp only [foldLoop]
    rintro ⟨hf, hl⟩
    have := hinv.2.2.2 hf
    omega
  | succ n ih =>
    by_cases hc : st.found = false ∧ st.loops > 0
    · simp only [foldLoop, if_pos hc]
      obtain ⟨hi, hit⟩ := foldBody_inv st hinv hc.1 hc.2
      exact ih (foldBody st) hi (by omega)
    · simp only [foldLoop, if_neg hc]
      exact hc

/-- The invariant holds when the loop is entered. -/
theorem foldInvariant_init (meas : Nat) :
    foldInvariant
      { _search_frequency := meas, _note_octave := 4, rtn_value := 0, found := false,
        loops := 5, halvings := 0, doublings := 0, iterations := 0 } := by
  simp [foldInvariant]

/-- The folding loop of `_find_note_index` reaches its exit within the 5 units
of fuel of `noteFold`, after at most 5 iterations, with the invariant. -/
theorem noteFold_exit (meas : Nat) :
    ¬ ((noteFold meas).found = false ∧ (noteFold meas).loops > 0) ∧
      (noteFold meas).iterations ≤ 5 ∧ foldInvariant (noteFold meas) := by
  have h1 := foldLoop_inv 5 _ (foldInvariant_init meas)
  have h2 := foldLoop_exit 5 _ (foldInvariant_init meas) (by simp)
  exact ⟨h2, by simpa using h1.2, h1.1⟩

/-- One iteration leaves `rtn_value` non-zero if it was, and makes it non-zero
on every frequency outside the guards. -/
theorem foldBody_rtn_ne (st : FoldState)
    (h : st.rtn_value ≠ 0 ∨ ¬ (2589 ≤ st._search_frequency ∧ st._search_frequency ≤ 5001)) :
    (foldBody st).rtn_value ≠ 0 := by
  obtain ⟨f, o, r, fd, l, hv, d, it⟩ := st
  simp only [foldBody, refFrequ_zero, refFrequ_thirteen] at h ⊢
  split_ifs <;> simp only [] at * <;> omega

/-- The loop leaves `rtn_value` non-zero if it was. -/
theorem foldLoop_rtn_ne (fuel : Nat) (st : FoldState) (h : st.rtn_value ≠ 0) :
    (foldLoop fuel st).rtn_value ≠ 0 := by
  induction fuel generalizing st with
  | zero => exact h
  | succ n ih =>
    by_cases hc : st.found = false ∧ st.loops > 0
    · simp only [foldLoop, if_pos hc]
      exact ih _ (foldBody_rtn_ne st (Or.inl h))
    · simp only [foldLoop, if_neg hc]
      exact h

/-- From a state holding `f * 2^k` with `f` strictly between the guards, the
loop halves `k` times, never doubles, and exits with `f` found. -/
theorem foldLoop_halvings (f : Nat) (hf : 2589 < f ∧ f < 5001) (k : Nat) :
    ∀ (fuel : Nat) (st : FoldState), st.found = false → k < fuel → (k : Int) < st.loops →
      st.loops ≤ 5 → -5 ≤ st._note_octave → st._note_octave + k ≤ 10 →
      st._search_frequency = f * 2 ^ k →
      (foldLoop fuel st)._search_frequency = f ∧
      (foldLoop fuel st)._note_octave = st._note_octave + k ∧
      (foldLoop fuel st).halvings = st.halvings + k ∧
      (foldLoop fuel st).doublings = st.doublings ∧
      (foldLoop fuel st).found = true ∧
      (foldLoop fuel st).rtn_value = if k = 0 then st.rtn_value else 99 := by
  induction k with
  | zero =>
    intro fuel st hfd hfuel hl _ _ _ hfreq
    obtain ⟨n, rfl⟩ : ∃ n, fuel = n + 1 := ⟨fuel - 1, by omega⟩
    have hband : 2589 < st._search_frequency ∧ st._search_frequency < 5001 := by
      rw [hfreq]
      simpa using hf
    have hc : st.found = false ∧ st.loops > 0 := ⟨hfd, by simpa using hl⟩
    simp only [foldLoop, if_pos hc, foldBody_in_band st hband]
    rw [foldLoop_found _ _ rfl]
    simp [hfreq]
  | succ k ih =>
    intro fuel st hfd hfuel hl hl5 holo hohi hfreq
    obtain ⟨n, rfl⟩ : ∃ n, fuel = n + 1 := ⟨fuel - 1, by omega⟩
    have hpos : 0 < 2 ^ k := Nat.two_pow_pos k
    have hdouble : st._search_frequency = 2 * (f * 2 ^ k) := by
      rw [hfreq, pow_succ]
      ring
    have hge : f ≤ f * 2 ^ k := Nat.le_mul_of_pos_right f hpos
    have h1 : 5001 < st._search_frequency := by omega
    have h2 : 2589 ≤ st._search_frequency / 2 := by omega
    have hc : st.found = false ∧ st.loops > 0 := ⟨hfd, by omega⟩
    simp only [foldLoop, if_pos hc, foldBody_halve st h1 h2]
    have hoct : toInt8 (st._note_octave + 1) = st._note_octave + 1 := by
      unfold toInt8
      omega
    have hloops : toInt8 (st.loops - 1) = st.loops - 1 := by
      unfold toInt8
      omega
    obtain ⟨r1, r2, r3, r4, r5, r6⟩ := ih n
      { st with
        _search_frequency := st._search_frequency / 2
        _note_octave := toInt8 (st._note_octave + 1)
        rtn_value := 99
        halvings := st.halvings + 1
        iterations := st.iterations + 1
        loops := toInt8 (st.loops - 1) }
      hfd (by omega) (by simp only [hloops]; omega) (by simp only [hloops]; omega)
      (by simp only [hoct]; omega) (by simp only [hoct]; omega)
      (by simp only []; omega)
    refine ⟨r1, ?_, ?_, r4, r5, ?_⟩
    · rw [r2]
      simp only [hoct]
      push_cast
      ring
    · rw [r3]
      simp only []
      omega
    · rw [r6]
      simp

/-- For a non-zero measurement `_find_note_index` is the folding loop followed
by the clamp of the octave and the scan. -/
theorem find_note_index_nonzero (meas : Nat) (m : NoteMembers) (h : meas ≠ 0) :
    _find_note_index meas m =
      (scanNotes (List.range' 1 12) (noteFold meas)._search_frequency (noteFold meas).rtn_value,
        { _search_frequency := (noteFold meas)._search_frequency
          _note_octave := toInt8 (range (noteFold meas)._note_octave 0 8) }) := by
  simp [_find_note_index, h]

/-- On a measurement from the low guard to the high guard, both included, the
loop folds nothing. -/
theorem noteFold_in_band (f : Nat) (hf : 2589 ≤ f ∧ f ≤ 5001) :
    (noteFold f)._search_frequency = f ∧ (noteFold f)._note_octave = 4 ∧
      (noteFold f).halvings = 0 ∧ (noteFold f).doublings = 0 ∧ (noteFold f).rtn_value = 0 := by
  have hcases : f = 2589 ∨ f = 5001 ∨ (2589 < f ∧ f < 5001) := by omega
  rcases hcases with h | h | h
  · subst h
    exact ⟨rfl, rfl, rfl, rfl, rfl⟩
  · subst h
    exact ⟨rfl, rfl, rfl, rfl, rfl⟩
  · obtain ⟨r1, r2, r3, r4, -, r6⟩ := foldLoop_halvings f h 0 5
      { _search_frequency := f, _note_octave := 4, rtn_value := 0, found := false,
        loops := 5, halvings := 0, doublings := 0, iterations := 0 }
      rfl (by decide) (by simp) (by simp) (by simp) (by simp) (by simp)
    exact ⟨r1, by simpa using r2, by simpa using r3, r4, by simpa using r6⟩

/-- On a measurement from the low guard to the high guard `_find_note_index`
returns a note index 1..12, the measurement as folded frequency and octave 4. -/
theorem find_note_index_in_band (f : Nat) (m : NoteMembers) (hf : 2589 ≤ f ∧ f ≤ 5001) :
    1 ≤ (_find_note_index f m).1 ∧ (_find_note_index f m).1 ≤ 12 ∧
      (_find_note_index f m).2 = { _search_frequency := f, _note_octave := 4 } := by
  obtain ⟨r1, r2, -, -, r5⟩ := noteFold_in_band f hf
  rw [find_note_index_nonzero f m (by omega), r1, r2, r5]
  obtain ⟨c1, c2⟩ := scanNotes_covered f 0 (by omega) (by omega)
  exact ⟨c1, c2, rfl⟩

/-- C13: for a frequency `f` strictly between the guards and `k` in 1..4 (the
product a 16-bit value), `_find_note_index` on `f * 2^k` performs `k` halvings
and no doubling, returns the note index it returns on `f`, leaves `f` as folded
frequency and sets the octave to `4 + k`. -/
theorem C13_octave_equivalence (f k : Nat) (m m' : NoteMembers)
    (hf : 2589 < f ∧ f < 5001) (hk : 1 ≤ k ∧ k ≤ 4) (_h16 : f * 2 ^ k ≤ 65535) :
    (noteFold (f * 2 ^ k)).halvings = k ∧ (noteFold (f * 2 ^ k)).doublings = 0 ∧
    (_find_note_index (f * 2 ^ k) m).1 = (_find_note_index f m').1 ∧
    (_find_note_index (f * 2 ^ k) m).2._search_frequency = f ∧
    (_find_note_index (f * 2 ^ k) m).2._note_octave = 4 + (k : Int) := by
  obtain ⟨r1, r2, r3, r4, -, r6⟩ := foldLoop_halvings f hf k 5
    { _search_frequency := f * 2 ^ k, _note_octave := 4, rtn_value := 0, found := false,
      loops := 5, halvings := 0, doublings := 0, iterations := 0 }
    rfl (by omega) (by simp only []; omega) (by simp) (by simp)
    (by simp only []; omega) rfl
  have hfold : foldLoop 5
      { _search_frequency := f * 2 ^ k, _note_octave := 4, rtn_value := 0, found := false,
        loops := 5, halvings := 0, doublings := 0, iterations := 0 } = noteFold (f * 2 ^ k) := rfl
  rw [hfold] at r1 r2 r3 r4 r6
  simp only [] at r2 r3 r4 r6
  obtain ⟨b1, -, -, -, b5⟩ := noteFold_in_band f ⟨by omega, by omega⟩
  have hpos : 0 < 2 ^ k := Nat.two_pow_pos k
  have hne : f * 2 ^ k ≠ 0 := Nat.ne_of_gt (Nat.mul_pos (by omega) hpos)
  rw [find_note_index_nonzero _ m hne, find_note_index_nonzero f m' (by omega), r1, r2, r6,
    b1, b5]
  refine ⟨by omega, r4, ?_, rfl, ?_⟩
  · exact scanNotes_covered_indep f _ _ (by omega) (by omega)
  · simp only [range, toInt8]
    split_ifs <;> omega

/-- Witness for C13: 8800 is 4400 one octave up. -/
theorem C13_octave_equivalence_witness :
    (_find_note_index (4400 * 2 ^ 1) startNoteMembers).1 =
      (_find_note_index 4400 startNoteMembers).1 ∧
    (_find_note_index (4400 * 2 ^ 1) startNoteMembers).2._note_octave = 4 + ((1 : Nat) : Int) :=
  ⟨(C13_octave_equivalence 4400 1 startNoteMembers startNoteMembers (by decide) (by decide)
      (by decide)).2.2.1,
    (C13_octave_equivalence 4400 1 startNoteMembers startNoteMembers (by decide) (by decide)
      (by decide)).2.2.2.2⟩

/-- C14: for every `i` in 1..12, `_find_note_index` on the table entry
`g_ref_frequ10[i]` returns `i`, with the input as folded frequency and the
octave at its base value 4. -/
theorem C14_reference_note_identifies_itself (i : Nat) (m : NoteMembers)
    (hi : 1 ≤ i ∧ i ≤ 12) :
    _find_note_index (refFrequ i) m =
      ((i : Int), { _search_frequency := refFrequ i, _note_octave := 4 }) := by
  obtain ⟨h1, h2⟩ := hi
  interval_cases i <;> rfl

/-- Witness for C14: 4400 (note A) is index 10. -/
theorem C14_reference_note_identifies_itself_witness :
    _find_note_index (refFrequ 10) startNoteMembers =
      (((10 : Nat) : Int), { _search_frequency := refFrequ 10, _note_octave := 4 }) :=
  C14_reference_note_identifies_itself 10 startNoteMembers (by decide)

/-- C15: for every measurement from the low guard 2589 to the high guard 5001,
both included, `_find_note_index` performs no halving and no doubling, the
folded frequency is the measurement, the octave is 4 and the returned index is
a note in 1..12. -/
theorem C15_no_folding_in_range (f : Nat) (m : NoteMembers) (hf : 2589 ≤ f ∧ f ≤ 5001) :
    (noteFold f).halvings = 0 ∧ (noteFold f).doublings = 0 ∧
    (_find_note_index f m).2._search_frequency = f ∧
    (_find_note_index f m).2._note_octave = 4 ∧
    1 ≤ (_find_note_index f m).1 ∧ (_find_note_index f m).1 ≤ 12 := by
  obtain ⟨-, -, r3, r4, -⟩ := noteFold_in_band f hf
  obtain ⟨c1, c2, c3⟩ := find_note_index_in_band f m hf
  rw [c3]
  exact ⟨r3, r4, rfl, rfl, c1, c2⟩

/-- Witness for C15: the low guard itself. -/
theorem C15_no_folding_in_range_witness :
    (noteFold 2589).halvings = 0 ∧ (noteFold 2589).doublings = 0 ∧
    (_find_note_index 2589 startNoteMembers).2._search_frequency = 2589 ∧
    (_find_note_index 2589 startNoteMembers).2._note_octave = 4 ∧
    1 ≤ (_find_note_index 2589 startNoteMembers).1 ∧
    (_find_note_index 2589 startNoteMembers).1 ≤ 12 :=
  C15_no_folding_in_range 2589 startNoteMembers (by decide)

/-- C16 (evaluation of the code): the measurements 5100 and 40800 lie above
the high guard 5001, not below the low guard 2589; 5100 is halved to 2550 and
doubled back in each of the 5 iterations (40800 after three halvings), each
doubling sets the provisional -1, no note window contains the folded frequency
5100, and `_find_note_index` returns -1, the value its comment describes as
"frequency-value is to low". -/
theorem C16_minus_one_above_high_guard :
    (_find_note_index 5100 startNoteMembers).1 = -1 ∧
    (_find_note_index 5100 startNoteMembers).2._search_frequency = 5100 ∧
    (noteFold 5100).doublings = 5 ∧ ¬ (5100 < 2589) ∧ 5001 < 5100 ∧
    (_find_note_index 40800 startNoteMembers).1 = -1 ∧
    (_find_note_index 40800 startNoteMembers).2._search_frequency = 5100 ∧
    ¬ (40800 < 2589) := by
  decide

/-- C17: `_find_note_index` returns 0 on the measurement 0 and leaves the
octave as it was; and it returns 0 for no other measurement. -/
theorem C17_zero_measurement (meas : Nat) (m : NoteMembers) :
    (_find_note_index 0 m).1 = 0 ∧
    (_find_note_index 0 m).2._note_octave = m._note_octave ∧
    ((_find_note_index meas m).1 = 0 ↔ meas = 0) := by
  refine ⟨rfl, rfl, ?_, ?_⟩
  · intro h
    by_contra hne
    by_cases hband : 2589 ≤ meas ∧ meas ≤ 5001
    · obtain ⟨c1, -, -⟩ := find_note_index_in_band meas m hband
      omega
    · rw [find_note_index_nonzero meas m hne] at h
      have hfold : (noteFold meas).rtn_value ≠ 0 := by
        have hc : (false = false) ∧ ((5 : Int) > 0) := ⟨rfl, by decide⟩
        simp only [noteFold, foldLoop, if_pos hc]
        exact foldLoop_rtn_ne 4 _ (foldBody_rtn_ne _ (Or.inr hband))
      rcases scanNotes_cases (noteFold meas)._search_frequency (noteFold meas).rtn_value
        with hs | hs
      · simp only [] at h
        rw [hs] at h
        exact hfold h
      · simp only [] at h
        omega
  · intro h
    subst h
    rfl

/-- C18: for every 16-bit measurement and every prior octave in 0..8 the octave
stored by `_find_note_index` lies in 0..8; for a non-zero measurement it is
`range(4 + halvings - doublings, 0, 8)`, the loop has reached its exit and has
executed at most 5 iterations. -/
theorem C18_octave_range (meas : Nat) (m : NoteMembers) (_h16 : meas < 65536)
    (hm : 0 ≤ m._note_octave ∧ m._note_octave ≤ 8) :
    (0 ≤ (_find_note_index meas m).2._note_octave ∧
      (_find_note_index meas m).2._note_octave ≤ 8) ∧
    (meas ≠ 0 →
      (_find_note_index meas m).2._note_octave =
        range (4 + ((noteFold meas).halvings : Int) - ((noteFold meas).doublings : Int)) 0 8 ∧
      (noteFold meas).iterations ≤ 5 ∧
      ¬ ((noteFold meas).found = false ∧ (noteFold meas).loops > 0)) := by
  by_cases h0 : meas = 0
  · subst h0
    exact ⟨hm, fun h => absurd rfl h⟩
  · obtain ⟨hexit, hit, hinv⟩ := noteFold_exit meas
    have hoct := hinv.1
    rw [find_note_index_nonzero meas m h0]
    simp only []
    have hclamp : toInt8 (range (noteFold meas)._note_octave 0 8) =
        range (noteFold meas)._note_octave 0 8 := by
      simp only [range, toInt8]
      split_ifs <;> omega
    rw [hclamp, hoct]
    refine ⟨?_, fun _ => ⟨rfl, hit, hexit⟩⟩
    simp only [range]
    split_ifs <;> omega

/-- Witness for C18: the measurement 60000 (four halvings, octave 8). -/
theorem C18_octave_range_witness :
    (_find_note_index 60000 startNoteMembers).2._note_octave =
      range (4 + ((noteFold 60000).halvings : Int) - ((noteFold 60000).doublings : Int)) 0 8 :=
  ((C18_octave_range 60000 startNoteMembers (by decide) (by decide)).2 (by decide)).1

/-! ### Tick handler: frame lemmas -/

/-- The channel-2 part of the tick handler leaves the channel-1 buffer, the
channel-1 countdown, the channel-1 configuration and the timestamp alone. -/
theorem chan2_part_frame (adc : Nat) (s : State) :
    (ISR_TIMER2_COMPA_chan2 adc s).channel1 = s.channel1 ∧
    (ISR_TIMER2_COMPA_chan2 adc s)._sample_counter1 = s._sample_counter1 ∧
    (ISR_TIMER2_COMPA_chan2 adc s).g_cfg.chan1 = s.g_cfg.chan1 ∧
    (ISR_TIMER2_COMPA_chan2 adc s)._Trigger_Timeout = s._Trigger_Timeout := by
  unfold ISR_TIMER2_COMPA_chan2
  dsimp only
  split_ifs <;> exact ⟨rfl, rfl, rfl, rfl⟩

/-- The channel-1 part of the tick handler leaves the channel-2 buffer, the
channel-2 countdown, the channel-2 configuration, the timestamp and the fields
of the channel-1 configuration other than the two flags alone. -/
theorem chan1_part_frame (adc : Nat) (s : State) :
    (ISR_TIMER2_COMPA_chan1 adc s).channel2 = s.channel2 ∧
    (ISR_TIMER2_COMPA_chan1 adc s)._sample_counter2 = s._sample_counter2 ∧
    (ISR_TIMER2_COMPA_chan1 adc s).g_cfg.chan2 = s.g_cfg.chan2 ∧
    (ISR_TIMER2_COMPA_chan1 adc s).g_cfg.chan1.option = s.g_cfg.chan1.option ∧
    (ISR_TIMER2_COMPA_chan1 adc s).g_cfg.chan1.time = s.g_cfg.chan1.time ∧
    (ISR_TIMER2_COMPA_chan1 adc s).g_cfg.chan1.trigger_mode = s.g_cfg.chan1.trigger_mode ∧
    (ISR_TIMER2_COMPA_chan1 adc s)._Trigger_Timeout = s._Trigger_Timeout := by
  unfold ISR_TIMER2_COMPA_chan1
  dsimp only
  split_ifs <;> exact ⟨rfl, rfl, rfl, rfl, rfl, rfl, rfl⟩

/-- For a write index below 128 the channel-2 part of the tick handler is the
reference step `tickChannelB_ref`. -/
theorem chan2_part_eq_ref (adc : Nat) (s : State) (h : s.channel2.index < 128) :
    ISR_TIMER2_COMPA_chan2 adc s = tickChannelB_ref adc s := by
  obtain ⟨g, c1, ⟨d2, i2⟩, k1, k2, t⟩ := s
  obtain ⟨g1, ⟨st, am, ti, off, tm, tl, op, dr, start⟩, sel⟩ := g
  simp only at h
  have h256 : (i2 + 1) % 256 = i2 + 1 := Nat.mod_eq_of_lt (by omega)
  unfold ISR_TIMER2_COMPA_chan2 tickChannelB_ref
  cases dr
  · by_cases hact : st = 1 ∨ g1.option = SET_OPT_DUAL_PLUGGED
    · have hgate : ¬ (false = true ∨ (st ≠ SET_ON ∧ g1.option ≠ SET_OPT_DUAL_PLUGGED)) := by
        simp only [SET_ON]
        tauto
      simp only [if_true, if_pos hact, if_neg hgate]
      by_cases hk : k2 > 0
      · simp [hk]
      · by_cases hw : i2 = 127
        · subst hw
          simp [hk, SAMPLE_DATA_SIZE]
        · have h1 : ¬ (128 ≤ i2 + 1) := by omega
          have h2 : (i2 + 1) % 128 = i2 + 1 := Nat.mod_eq_of_lt (by omega)
          simp [hk, SAMPLE_DATA_SIZE, h256, h1, h2, hw]
    · have hgate : (false = true ∨ (st ≠ SET_ON ∧ g1.option ≠ SET_OPT_DUAL_PLUGGED)) := by
        simp only [SET_ON]
        tauto
      simp only [if_true, if_neg hact, if_pos hgate]
  · simp

/-- C22: in one tick, for a channel-B write index below 128, channel B's
buffer, write index, countdown counter and configuration (with its flags) are
those of the reference step `tickChannelB_ref`: unchanged when channel B is
marked ready, or is not on while channel A's option is not
`SET_OPT_DUAL_PLUGGED`; otherwise decrement while the countdown is positive,
else store at `data[index]`, advance modulo 128, reseed, and `sample_draw`
becomes true exactly when the index was 127. -/
theorem C22_channelB_gating (adc1 adc2 : Nat) (s : State) (h : s.channel2.index < 128) :
    (ISR_TIMER2_COMPA adc1 adc2 s).channel2 = (tickChannelB_ref adc2 s).channel2 ∧
    (ISR_TIMER2_COMPA adc1 adc2 s)._sample_counter2 = (tickChannelB_ref adc2 s)._sample_counter2 ∧
    (ISR_TIMER2_COMPA adc1 adc2 s).g_cfg.chan2 = (tickChannelB_ref adc2 s).g_cfg.chan2 ∧
    ((s.g_cfg.chan2.sample_draw = true ∨
        (s.g_cfg.chan2.status ≠ SET_ON ∧ s.g_cfg.chan1.option ≠ SET_OPT_DUAL_PLUGGED)) →
      (ISR_TIMER2_COMPA adc1 adc2 s).channel2 = s.channel2 ∧
      (ISR_TIMER2_COMPA adc1 adc2 s)._sample_counter2 = s._sample_counter2 ∧
      (ISR_TIMER2_COMPA adc1 adc2 s).g_cfg.chan2 = s.g_cfg.chan2) := by
  obtain ⟨f1, f2, f3, f4, f5, -, -⟩ := chan1_part_frame adc1 s
  have hidx : (ISR_TIMER2_COMPA_chan1 adc1 s).channel2.index < 128 := by rw [f1]; exact h
  have hstep : ISR_TIMER2_COMPA adc1 adc2 s =
      tickChannelB_ref adc2 (ISR_TIMER2_COMPA_chan1 adc1 s) := by
    unfold ISR_TIMER2_COMPA
    exact chan2_part_eq_ref adc2 _ hidx
  have hsame : (tickChannelB_ref adc2 (ISR_TIMER2_COMPA_chan1 adc1 s)).channel2 =
        (tickChannelB_ref adc2 s).channel2 ∧
      (tickChannelB_ref adc2 (ISR_TIMER2_COMPA_chan1 adc1 s))._sample_counter2 =
        (tickChannelB_ref adc2 s)._sample_counter2 ∧
      (tickChannelB_ref adc2 (ISR_TIMER2_COMPA_chan1 adc1 s)).g_cfg.chan2 =
        (tickChannelB_ref adc2 s).g_cfg.chan2 := by
    unfold tickChannelB_ref
    rw [f1, f2, f3, f4]
    split_ifs <;> simp [f1, f2, f3]
  rw [hstep]
  refine ⟨hsame.1, hsame.2.1, hsame.2.2, ?_⟩
  intro hg
  rw [hsame.1, hsame.2.1, hsame.2.2]
  unfold tickChannelB_ref
  rw [if_pos hg]
  exact ⟨rfl, rfl, rfl⟩

/-- Witness for C22: the start state (channel B off, option Single): channel B
is left alone. -/
theorem C22_channelB_gating_witness :
    (ISR_TIMER2_COMPA 512 300 startState).channel2 = startState.channel2 ∧
    (ISR_TIMER2_COMPA 512 300 startState)._sample_counter2 = startState._sample_counter2 ∧
    (ISR_TIMER2_COMPA 512 300 startState).g_cfg.chan2 = startState.g_cfg.chan2 :=
  (C22_channelB_gating 512 300 startState (by decide)).2.2.2 (Or.inl (by decide))

/-- C24: after `_draw_channels` completes (not the early return on re-entry):
in free-run channel A is ready and armed; in a triggered mode channel A is not
ready and its `sample_start` is as before, so after a completed capture
(`sample_start` false) the re-arm precondition of the edge handler holds;
channel B is not ready in every case, and its `sample_start` is false when
channel B is off (the status the pass ends with). -/
theorem C24_flag_hand_back (update_draw_request is_plugged_in : Bool) (m : CMenu)
    (hrun : m._draw_channels_running = false) :
    (m.globals.g_cfg.chan1.trigger_mode = SET_OFF →
      (_draw_channels update_draw_request is_plugged_in m).globals.g_cfg.chan1.sample_draw = true ∧
      (_draw_channels update_draw_request is_plugged_in m).globals.g_cfg.chan1.sample_start = true) ∧
    (m.globals.g_cfg.chan1.trigger_mode ≠ SET_OFF →
      (_draw_channels update_draw_request is_plugged_in m).globals.g_cfg.chan1.sample_draw = false ∧
      (_draw_channels update_draw_request is_plugged_in m).globals.g_cfg.chan1.sample_start =
        m.globals.g_cfg.chan1.sample_start) ∧
    (m.globals.g_cfg.chan1.trigger_mode ≠ SET_OFF →
      m.globals.g_cfg.chan1.sample_start = false →
      (_draw_channels update_draw_request is_plugged_in m).globals.g_cfg.chan1.trigger_mode ≠ SET_OFF ∧
      (_draw_channels update_draw_request is_plugged_in m).globals.g_cfg.chan1.sample_draw = false ∧
      (_draw_channels update_draw_request is_plugged_in m).globals.g_cfg.chan1.sample_start = false) ∧
    (_draw_channels update_draw_request is_plugged_in m).globals.g_cfg.chan2.sample_draw = false ∧
    ((_draw_channels update_draw_request is_plugged_in m).globals.g_cfg.chan2.status = SET_OFF →
      (_draw_channels update_draw_request is_plugged_in m).globals.g_cfg.chan2.sample_start = false) ∧
    (_draw_channels update_draw_request is_plugged_in m)._draw_channels_running = false := by
  unfold _draw_channels
  simp only [hrun, Bool.false_eq_true, if_false]
  split_ifs <;> simp_all

/-- Witness for C24: a draw pass in mode Auto+ after a completed capture. -/
theorem C24_flag_hand_back_witness :
    (_draw_channels true false { startMenu with globals := idleAutoState }).globals.g_cfg.chan1.sample_draw
      = false ∧
    (_draw_channels true false { startMenu with globals := idleAutoState }).globals.g_cfg.chan1.sample_start
      = idleAutoState.g_cfg.chan1.sample_start :=
  (C24_flag_hand_back true false { startMenu with globals := idleAutoState } (by decide)).2.1
    (by decide)

/-- C27: after `sample_init` both write indexes are below 128; and from a
state with both write indexes below 128 the tick handler, the edge handler and
`is_triggertimeout` lead to a state with both write indexes below 128, the two
stores of the tick handler being made at positions below `SAMPLE_DATA_SIZE`. -/
theorem C27_write_index_in_bounds (millis adc1 adc2 menu_timeout : Nat)
    (eChannel : channel_nr_t) (s : State) :
    ((sample_init millis s).channel1.index < 128 ∧
      (sample_init millis s).channel2.index < 128) ∧
    ((s.channel1.index < 128 ∧ s.channel2.index < 128) →
      ((ISR_TIMER2_COMPA adc1 adc2 s).channel1.index < 128 ∧
        (ISR_TIMER2_COMPA adc1 adc2 s).channel2.index < 128) ∧
      ((ISR_ANALOG_COMP millis s).channel1.index < 128 ∧
        (ISR_ANALOG_COMP millis s).channel2.index < 128) ∧
      ((is_triggertimeout millis eChannel menu_timeout s).2.channel1.index < 128 ∧
        (is_triggertimeout millis eChannel menu_timeout s).2.channel2.index < 128) ∧
      (s.channel1.index < SAMPLE_DATA_SIZE ∧
        (ISR_TIMER2_COMPA_chan1 adc1 s).channel2.index < SAMPLE_DATA_SIZE)) := by
  refine ⟨⟨by simp [sample_init], by simp [sample_init]⟩, ?_⟩
  rintro ⟨h1, h2⟩
  have hA : (ISR_TIMER2_COMPA_chan1 adc1 s).channel1.index < 128 := by
    unfold ISR_TIMER2_COMPA_chan1
    dsimp only [SAMPLE_DATA_SIZE]
    split_ifs <;> first | omega | (simp only []; omega)
  have hB : ∀ s0 : State, s0.channel2.index < 128 →
      (ISR_TIMER2_COMPA_chan2 adc2 s0).channel2.index < 128 := by
    intro s0 h0
    unfold ISR_TIMER2_COMPA_chan2
    dsimp only [SAMPLE_DATA_SIZE]
    split_ifs <;> first | omega | (simp only []; omega)
  obtain ⟨f1, -, -, -, -, -, -⟩ := chan1_part_frame adc1 s
  obtain ⟨e1, -, -, -⟩ := chan2_part_frame adc2 (ISR_TIMER2_COMPA_chan1 adc1 s)
  refine ⟨⟨?_, ?_⟩, ⟨?_, ?_⟩, ⟨?_, ?_⟩, h1, ?_⟩
  · unfold ISR_TIMER2_COMPA
    rw [e1]
    exact hA
  · unfold ISR_TIMER2_COMPA
    exact hB _ (by rw [f1]; exact h2)
  · unfold ISR_ANALOG_COMP
    dsimp only
    split_ifs <;> first | omega | (simp only []; omega)
  · unfold ISR_ANALOG_COMP
    dsimp only
    split_ifs <;> first | omega | (simp only []; omega)
  · unfold is_triggertimeout
    split_ifs
    · cases eChannel
      · rw [clearSampleBuffer_nr1]
        exact h1
      · rw [clearSampleBuffer_nr2]
        exact h1
    · exact h1
    · exact h1
  · unfold is_triggertimeout
    split_ifs
    · cases eChannel
      · rw [clearSampleBuffer_nr1]
        exact h2
      · rw [clearSampleBuffer_nr2]
        exact h2
    · exact h2
    · exact h2
  · rw [f1]
    exact h2

/-- Witness for C27: the start state. -/
theorem C27_write_index_in_bounds_witness :
    (ISR_TIMER2_COMPA 512 300 startState).channel1.index < 128 ∧
    (ISR_TIMER2_COMPA 512 300 startState).channel2.index < 128 :=
  ((C27_write_index_in_bounds 0 512 300 8 eChannel_nr1 startState).2
    ⟨by decide, by decide⟩).1

/-! ### Note identifier: first match and reachable results -/

/-- For the notes 1..12 the limits computed by `_get_limits` are the two
integer quotients of the window. -/
theorem get_limits_table (i : Nat) (h1 : 1 ≤ i) (h2 : i ≤ 12) :
    _get_limits (refFrequ i) 3 = (refFrequ i * 97 / 100, refFrequ i * 103 / 100) := by
  interval_cases i <;> rfl

/-- The scan over `s, s+1, .., s+n-1` returns the value it was given when no
listed index has the frequency in its window, else the first such index. -/
theorem scanNotes_first (f : Nat) (r : Int) (n : Nat) :
    ∀ s : Nat,
      ((∀ j, s ≤ j → j < s + n →
          ¬ (f > (_get_limits (refFrequ j) 3).1 ∧ f < (_get_limits (refFrequ j) 3).2)) ∧
        scanNotes (List.range' s n) f r = r) ∨
      (∃ i, s ≤ i ∧ i < s + n ∧
        (f > (_get_limits (refFrequ i) 3).1 ∧ f < (_get_limits (refFrequ i) 3).2) ∧
        (∀ j, s ≤ j → j < i →
          ¬ (f > (_get_limits (refFrequ j) 3).1 ∧ f < (_get_limits (refFrequ j) 3).2)) ∧
        scanNotes (List.range' s n) f r = (i : Int)) := by
  induction n with
  | zero =>
    intro s
    exact Or.inl ⟨fun j h1 h2 => by omega, rfl⟩
  | succ n ih =>
    intro s
    by_cases hw : f > (_get_limits (refFrequ s) 3).1 ∧ f < (_get_limits (refFrequ s) 3).2
    · refine Or.inr ⟨s, le_refl _, by omega, hw, fun j h1 h2 => by omega, ?_⟩
      simp only [List.range', scanNotes, if_pos hw]
    · rcases ih (s + 1) with ⟨hall, hres⟩ | ⟨i, hi1, hi2, hwi, hmin, hres⟩
      · refine Or.inl ⟨?_, ?_⟩
        · intro j h1 h2
          by_cases hj : j = s
          · subst hj
            exact hw
          · exact hall j (by omega) (by omega)
        · simp only [List.range', scanNotes, if_neg hw]
          exact hres
      · refine Or.inr ⟨i, by omega, by omega, hwi, ?_, ?_⟩
        · intro j h1 h2
          by_cases hj : j = s
          · subst hj
            exact hw
          · exact hmin j (by omega) h2
        · simp only [List.range', scanNotes, if_neg hw]
          exact hres

/-- One halving keeps the bound by the measurement. -/
theorem halve_pow_le (f k meas : Nat) (h : f * 2 ^ k ≤ meas) : f / 2 * 2 ^ (k + 1) ≤ meas := by
  calc f / 2 * 2 ^ (k + 1) = f / 2 * 2 * 2 ^ k := by rw [pow_succ]; ring
    _ ≤ f * 2 ^ k := Nat.mul_le_mul_right _ (Nat.div_mul_le_self f 2)
    _ ≤ meas := h

/-- One iteration of the folding loop keeps `foldBound`. -/
theorem foldBody_bound (meas : Nat) (st : FoldState) (hb : foldBound meas st)
    (hf : st.found = false) : foldBound meas (foldBody st) := by
  obtain ⟨f, o, r, fd, l, hv, d, it⟩ := st
  simp only [foldBound] at hb hf ⊢
  subst hf
  obtain ⟨b1, b2, -, b4⟩ := hb
  have hkey : f * 2 ^ it ≤ meas → f / 2 * 2 ^ (it + 1) ≤ meas := halve_pow_le f it meas
  by_cases hband : 2589 < f ∧ f < 5001
  · rw [foldBody_in_band _ hband]
    simp only []
    refine ⟨Or.inl (by omega), fun _ => ⟨by omega, Or.inl (by omega)⟩, fun _ => hband.2, b4⟩
  · by_cases hhi : 5001 < f
    · by_cases hhalf : 2589 ≤ f / 2
      · rw [foldBody_halve _ hhi hhalf]
        simp only []
        have hbig : f * 2 ^ it ≤ meas := by
          rcases b1 with h | h
          · omega
          · exact h
        exact ⟨Or.inr (hkey hbig), fun _ => ⟨hhalf, Or.inr (hkey hbig)⟩,
          fun h => by simp at h, by simp⟩
      · have hlow : f / 2 < 2589 := by omega
        have hmod : f / 2 * 2 % 65536 = f / 2 * 2 := Nat.mod_eq_of_lt (by omega)
        simp only [foldBody, refFrequ_zero, refFrequ_thirteen, if_neg hband, hhi, if_true,
          hlow, hmod]
        exact ⟨Or.inl (by omega), fun h => by simp at h, fun h => by simp at h,
          by simp⟩
    · by_cases hlo : f < 2589
      · have hmod : f * 2 % 65536 = f * 2 := Nat.mod_eq_of_lt (by omega)
        simp only [foldBody, refFrequ_zero, refFrequ_thirteen, if_neg hband, if_neg hhi,
          hlo, if_true, hmod]
        exact ⟨Or.inl (by omega), fun h => by simp at h, fun h => by simp at h,
          by simp⟩
      · simp only [foldBody, refFrequ_zero, refFrequ_thirteen, if_neg hband, if_neg hhi,
          if_neg hlo]
        exact ⟨Or.inl (by omega), fun h => ⟨by omega, Or.inl (by omega)⟩,
          fun h => by simp at h, b4⟩

/-- The folding loop keeps `foldBound`. -/
theorem foldLoop_bound (meas : Nat) (fuel : Nat) (st : FoldState) (hb : foldBound meas st) :
    foldBound meas (foldLoop fuel st) := by
  induction fuel generalizing st with
  | zero => exact hb
  | succ n ih =>
    by_cases hc : st.found = false ∧ st.loops > 0
    · simp only [foldLoop, if_pos hc]
      exact ih _ (foldBody_bound meas st hb hc.1)
    · simp only [foldLoop, if_neg hc]
      exact hb

/-- The bound holds at the exit of the folding loop of `_find_note_index`. -/
theorem noteFold_bound (meas : Nat) : foldBound meas (noteFold meas) := by
  apply foldLoop_bound
  simp [foldBound]

/-- At the exit of the folding loop on a 16-bit measurement, a provisional 99
comes with a working frequency from the low guard to the high guard. -/
theorem noteFold_high_in_band (meas : Nat) (h16 : meas < 65536)
    (h99 : (noteFold meas).rtn_value = 99) :
    2589 ≤ (noteFold meas)._search_frequency ∧ (noteFold meas)._search_frequency ≤ 5001 := by
  obtain ⟨-, b2, b3, -⟩ := noteFold_bound meas
  obtain ⟨hexit, hit, hinv⟩ := noteFold_exit meas
  obtain ⟨hlo, hhi⟩ := b2 h99
  refine ⟨hlo, ?_⟩
  rcases hhi with h | h
  · exact h
  · by_contra hcon
    cases hfd : (noteFold meas).found with
    | true =>
      have := b3 hfd
      omega
    | false =>
      have hloops := hinv.2.2.2 hfd
      have hl : ¬ (noteFold meas).loops > 0 := fun hl => hexit ⟨hfd, hl⟩
      have hit5 : (noteFold meas).iterations = 5 := by omega
      rw [hit5] at h
      norm_num at h
      omega

/-- For a non-zero measurement a provisional 0 at the exit of the folding loop
means that the measurement lies from the low guard to the high guard. -/
theorem noteFold_rtn_zero (meas : Nat) (h0 : (noteFold meas).rtn_value = 0) :
    2589 ≤ meas ∧ meas ≤ 5001 := by
  by_contra hband
  have hc : (false = false) ∧ ((5 : Int) > 0) := ⟨rfl, by decide⟩
  have hne : (noteFold meas).rtn_value ≠ 0 := by
    simp only [noteFold, foldLoop, if_pos hc]
    exact foldLoop_rtn_ne 4 _ (foldBody_rtn_ne _ (Or.inr hband))
  exact hne h0

/-- C26: for every non-zero measurement, with `f` the folded frequency after
the folding loop, `_find_note_index` returns `i` in 1..12 if and only if `i`
is the smallest index in 1..12 whose window strictly contains `f`; and if no
index in 1..12 qualifies, the result is the provisional value left by the
loop, which is -1 or 99. -/
theorem C26_first_match_scan (meas : Nat) (m : NoteMembers) (h : meas ≠ 0) :
    (∀ i : Nat, 1 ≤ i → i ≤ 12 →
      ((_find_note_index meas m).1 = (i : Int) ↔
        (inNoteWindow i (noteFold meas)._search_frequency ∧
          ∀ j : Nat, 1 ≤ j → j < i → ¬ inNoteWindow j (noteFold meas)._search_frequency))) ∧
    ((∀ i : Nat, 1 ≤ i → i ≤ 12 → ¬ inNoteWindow i (noteFold meas)._search_frequency) →
      (_find_note_index meas m).1 = (noteFold meas).rtn_value ∧
      ((_find_note_index meas m).1 = -1 ∨ (_find_note_index meas m).1 = 99)) := by
  rw [find_note_index_nonzero meas m h]
  simp only []
  -- windows of `_get_limits` and windows of the specification agree on 1..12
  have hwin : ∀ j, 1 ≤ j → j ≤ 12 →
      ((noteFold meas)._search_frequency > (_get_limits (refFrequ j) 3).1 ∧
          (noteFold meas)._search_frequency < (_get_limits (refFrequ j) 3).2 ↔
        inNoteWindow j (noteFold meas)._search_frequency) := by
    intro j h1 h2
    rw [get_limits_table j h1 h2]
    exact Iff.rfl
  -- the provisional value is 0, 99 or -1, and 0 only with a match
  obtain ⟨-, -, -, hvals⟩ := noteFold_bound meas
  have hzero : (noteFold meas).rtn_value = 0 →
      ∃ j, 1 ≤ j ∧ j ≤ 12 ∧ inNoteWindow j (noteFold meas)._search_frequency := by
    intro h0
    have hband := noteFold_rtn_zero meas h0
    obtain ⟨r1, -⟩ := noteFold_in_band meas hband
    obtain ⟨j, hj, hw⟩ := window_cover (noteFold meas)._search_frequency
      (by rw [r1]; omega) (by rw [r1]; omega)
    rw [List.mem_range'_1] at hj
    exact ⟨j, hj.1, by omega, (hwin j hj.1 (by omega)).mp hw⟩
  rcases scanNotes_first (noteFold meas)._search_frequency (noteFold meas).rtn_value 12 1
    with ⟨hall, hres⟩ | ⟨i0, hi1, hi2, hw0, hmin0, hres⟩
  · -- no index qualifies
    have hnone : ∀ j, 1 ≤ j → j ≤ 12 → ¬ inNoteWindow j (noteFold meas)._search_frequency :=
      fun j h1 h2 hw => hall j h1 (by omega) ((hwin j h1 h2).mpr hw)
    have hne0 : (noteFold meas).rtn_value ≠ 0 := by
      intro h0
      obtain ⟨j, h1, h2, hw⟩ := hzero h0
      exact hnone j h1 h2 hw
    rw [hres]
    have hprov : (noteFold meas).rtn_value = -1 ∨ (noteFold meas).rtn_value = 99 := by
      rcases hvals with hv | hv | hv
      · exact absurd hv hne0
      · exact Or.inr hv
      · exact Or.inl hv
    refine ⟨?_, fun _ => ⟨rfl, hprov⟩⟩
    intro i h1 h2
    constructor
    · intro hi
      rcases hprov with hv | hv <;> omega
    · rintro ⟨hw, -⟩
      exact absurd hw (hnone i h1 h2)
  · -- `i0` is the first index that qualifies
    rw [hres]
    have hw0' : inNoteWindow i0 (noteFold meas)._search_frequency :=
      (hwin i0 hi1 (by omega)).mp hw0
    refine ⟨?_, fun hnone => absurd hw0' (hnone i0 hi1 (by omega))⟩
    intro i h1 h2
    constructor
    · intro hi
      have hii : i0 = i := by exact_mod_cast hi
      subst hii
      exact ⟨hw0', fun j hj1 hj2 hw =>
        hmin0 j hj1 hj2 ((hwin j hj1 (by omega)).mpr hw)⟩
    · rintro ⟨hw, hmin⟩
      have hle : ¬ i0 < i := fun hlt => hmin i0 hi1 hlt hw0'
      have hge : ¬ i < i0 := fun hlt => hmin0 i h1 hlt ((hwin i h1 h2).mpr hw)
      have hii : i0 = i := by omega
      rw [hii]

/-- Witness for C26: the measurement 8800 folds to 4400, whose first window is
that of note 10. -/
theorem C26_first_match_scan_witness :
    ((_find_note_index 8800 startNoteMembers).1 = ((10 : Nat) : Int) ↔
      (inNoteWindow 10 (noteFold 8800)._search_frequency ∧
        ∀ j : Nat, 1 ≤ j → j < 10 → ¬ inNoteWindow j (noteFold 8800)._search_frequency)) :=
  (C26_first_match_scan 8800 startNoteMembers (by decide)).1 10 (by decide) (by decide)

/-- C28: for every 16-bit measurement `_find_note_index` returns a value in
-1, 0, 1, .., 12, and never 99. -/
theorem C28_too_high_unreachable (meas : Nat) (m : NoteMembers) (h16 : meas < 65536) :
    (-1 ≤ (_find_note_index meas m).1 ∧ (_find_note_index meas m).1 ≤ 12) ∧
    (_find_note_index meas m).1 ≠ 99 := by
  have hmain : -1 ≤ (_find_note_index meas m).1 ∧ (_find_note_index meas m).1 ≤ 12 := by
    by_cases h0 : meas = 0
    · subst h0
      have hz : (_find_note_index 0 m).1 = 0 := rfl
      rw [hz]
      exact ⟨by decide, by decide⟩
    · rw [find_note_index_nonzero meas m h0]
      simp only []
      obtain ⟨-, -, -, hvals⟩ := noteFold_bound meas
      rcases scanNotes_cases (noteFold meas)._search_frequency (noteFold meas).rtn_value
        with hs | hs
      · rw [hs]
        rcases hvals with hv | hv | hv
        · omega
        · obtain ⟨hlo, hhi⟩ := noteFold_high_in_band meas h16 hv
          have hc := scanNotes_covered (noteFold meas)._search_frequency
            (noteFold meas).rtn_value (by omega) (by omega)
          rw [hs] at hc
          omega
        · omega
      · omega
  exact ⟨hmain, by omega⟩

/-- Witness for C28: the largest 16-bit measurement. -/
theorem C28_too_high_unreachable_witness :
    (_find_note_index 65535 startNoteMembers).1 ≠ 99 :=
  (C28_too_high_unreachable 65535 startNoteMembers (by decide)).2

/-! ### Lock-step after a trigger -/

/-- One tick keeps `lockStep`. -/
theorem tick_lockStep (adc1 adc2 : Nat) (s : State) (h : lockStep s) :
    lockStep (ISR_TIMER2_COMPA adc1 adc2 s) := by
  obtain ⟨g, ⟨d1, i1⟩, ⟨d2, i2⟩, k1, k2, t⟩ := s
  obtain ⟨⟨st1, am1, ti1, off1, tm1, tl1, op1, dr1, start1⟩,
    ⟨st2, am2, ti2, off2, tm2, tl2, op2, dr2, start2⟩, sel⟩ := g
  simp only [lockStep, SET_ON, SET_OFF] at h
  obtain ⟨hi, ht, hst, htm, hphase⟩ := h
  subst hi ht hst
  rcases hphase with ⟨hs, hd, hk⟩ | ⟨hs, hd⟩
  · subst hs hd hk
    by_cases hpos : k1 > 0
    · simp [lockStep, ISR_TIMER2_COMPA, ISR_TIMER2_COMPA_chan1, ISR_TIMER2_COMPA_chan2, hpos,
        SET_ON, SET_OFF, htm]
    · by_cases hw : (i1 + 1) % 256 ≥ 128
      · simp [lockStep, ISR_TIMER2_COMPA, ISR_TIMER2_COMPA_chan1, ISR_TIMER2_COMPA_chan2, hpos,
          SET_ON, SET_OFF, SAMPLE_DATA_SIZE, htm, hw]
      · simp [lockStep, ISR_TIMER2_COMPA, ISR_TIMER2_COMPA_chan1, ISR_TIMER2_COMPA_chan2, hpos,
          SET_ON, SET_OFF, SAMPLE_DATA_SIZE, htm, hw]
  · subst hs hd
    simp [lockStep, ISR_TIMER2_COMPA, ISR_TIMER2_COMPA_chan1, ISR_TIMER2_COMPA_chan2,
      SET_ON, SET_OFF, htm]

/-- Every run of ticks keeps `lockStep`. -/
theorem runTicks_lockStep (adc : Nat → Nat × Nat) (n : Nat) (s : State) (h : lockStep s) :
    lockStep (runTicks adc n s) := by
  induction n with
  | zero => exact h
  | succ n ih => exact tick_lockStep _ _ _ ih

/-- C23 (counterexample): in `idleAutoChannelBReady` the edge handler accepts
the trigger, channel B is on and both channels are on time base 4, but channel
B is still marked ready from before: in the first tick after the trigger
channel A stores entry 0 and advances to index 1 while channel B stays at 0. -/
theorem C23_counterexample :
    idleAutoChannelBReady.g_cfg.chan1.trigger_mode ≠ SET_OFF ∧
    idleAutoChannelBReady.g_cfg.chan1.sample_draw = false ∧
    idleAutoChannelBReady.g_cfg.chan1.sample_start = false ∧
    idleAutoChannelBReady.g_cfg.chan2.status = SET_ON ∧
    idleAutoChannelBReady.g_cfg.chan1.time = idleAutoChannelBReady.g_cfg.chan2.time ∧
    (runTicks constAdc 1 (ISR_ANALOG_COMP 0 idleAutoChannelBReady)).channel1.index = 1 ∧
    (runTicks constAdc 1 (ISR_ANALOG_COMP 0 idleAutoChannelBReady)).channel2.index = 0 := by
  decide

/-- C23 (amended): for every state in which the edge handler accepts a trigger,
with channel B on, not marked ready (`chan[B].sample_draw` false) and both
channels on the same time base, after every number of following ticks the two
write indexes are equal. -/
theorem C23_lock_step (millis : Nat) (adc : Nat → Nat × Nat) (n : Nat) (s : State)
    (hmode : s.g_cfg.chan1.trigger_mode ≠ SET_OFF)
    (hdraw : s.g_cfg.chan1.sample_draw = false)
    (hstart : s.g_cfg.chan1.sample_start = false)
    (hstatus : s.g_cfg.chan2.status = SET_ON)
    (htime : s.g_cfg.chan1.time = s.g_cfg.chan2.time)
    (hB : s.g_cfg.chan2.sample_draw = false) :
    (runTicks adc n (ISR_ANALOG_COMP millis s)).channel1.index =
      (runTicks adc n (ISR_ANALOG_COMP millis s)).channel2.index := by
  have harm : lockStep (ISR_ANALOG_COMP millis s) := by
    simp [lockStep, ISR_ANALOG_COMP, hmode, hdraw, hstart, hstatus, htime, hB]
  exact (runTicks_lockStep adc n _ harm).1

/-- Witness for the amended C23: `idleAutoChannelBReady` with channel B not
marked ready, 200 ticks after the trigger. -/
theorem C23_lock_step_witness :
    (runTicks constAdc 200 (ISR_ANALOG_COMP 0
      { idleAutoChannelBReady with g_cfg := { idleAutoChannelBReady.g_cfg with
          chan2 := { idleAutoChannelBReady.g_cfg.chan2 with sample_draw := false } } })).channel1.index =
    (runTicks constAdc 200 (ISR_ANALOG_COMP 0
      { idleAutoChannelBReady with g_cfg := { idleAutoChannelBReady.g_cfg with
          chan2 := { idleAutoChannelBReady.g_cfg.chan2 with sample_draw := false } } })).channel2.index :=
  C23_lock_step 0 constAdc 200 _ (by decide) (by decide) (by decide) (by decide) (by decide)
    (by decide)

/-! ### Field ranges under the value editor -/

/-- The method `_print_value_str` either leaves the globals alone (row not
marked) or applies `editRow` with a selected value at most 1 away from the
passed old value. -/
theorem print_value_str_cases (millis index : Nat) (channel_nr : channel_nr_t) (oldvalue : Nat)
    (m : CMenu) (hsmall : -127 ≤ toInt8 oldvalue ∧ toInt8 oldvalue ≤ 126) :
    (_print_value_str millis index channel_nr oldvalue m).globals = m.globals ∨
    ∃ sv : Int, toInt8 oldvalue - 1 ≤ sv ∧ sv ≤ toInt8 oldvalue + 1 ∧
      (_print_value_str millis index channel_nr oldvalue m).globals =
        editRow index channel_nr sv m.globals := by
  by_cases hedit : index = m._menuctrl.rowindex ∧ m._menuctrl.mark_on = true
  · right
    have h1 : toInt8 (toInt8 oldvalue - 1) = toInt8 oldvalue - 1 := by
      unfold toInt8 at hsmall ⊢
      omega
    have h2 : toInt8 (toInt8 oldvalue + 1) = toInt8 oldvalue + 1 := by
      unfold toInt8 at hsmall ⊢
      omega
    have h3 : toInt8 (toInt8 oldvalue - 1 + 1) = toInt8 oldvalue := by
      unfold toInt8 at hsmall ⊢
      omega
    unfold _print_value_str selectValue
    simp only [hedit, and_self, if_true]
    cases hd : (m.rotaryencoder.down).1 <;> cases hu : (m.rotaryencoder.up).1 <;>
      simp [CRotaryEncoder.up, CRotaryEncoder.down] at hd hu <;>
      simp only [CRotaryEncoder.up, CRotaryEncoder.down, hd, hu, if_true, if_false,
        Bool.false_eq_true] <;>
      refine ⟨_, ?_, ?_, rfl⟩ <;>
      first
        | omega
        | (rw [h1, h3]; omega)
  · left
    unfold _print_value_str selectValue
    simp only [hedit, if_false]
    rfl

/-- The store of `editRow` keeps the ranges when the selected value is at most
1 away from the present value of the edited field (row 1: any selected value;
row 5 edits channel A only). -/
theorem editRow_keeps (index : Nat) (channel_nr : channel_nr_t) (sv : Int) (s : State)
    (hrange : cfgInRange s.g_cfg) (hle : s.g_cfg.chan2.time ≤ s.g_cfg.chan1.time)
    (hsv : index ≠ 1 → editedField index channel_nr s.g_cfg - 1 ≤ sv ∧
      sv ≤ editedField index channel_nr s.g_cfg + 1)
    (hch : index = 5 → channel_nr = eChannel_nr1) :
    cfgInRange (editRow index channel_nr sv s).g_cfg ∧
    (editRow index channel_nr sv s).g_cfg.chan2.time ≤
      (editRow index channel_nr sv s).g_cfg.chan1.time ∧
    editedField index channel_nr (editRow index channel_nr sv s).g_cfg ≤
      editedField index channel_nr s.g_cfg + 1 ∧
    editedField index channel_nr s.g_cfg ≤
      editedField index channel_nr (editRow index channel_nr sv s).g_cfg + 1 := by
  obtain ⟨g, c1, c2, k1, k2, t⟩ := s
  obtain ⟨⟨st1, am1, ti1, off1, tm1, tl1, op1, dr1, start1⟩,
    ⟨st2, am2, ti2, off2, tm2, tl2, op2, dr2, start2⟩, sel⟩ := g
  simp only [cfgInRange] at hrange
  simp only at hle
  obtain h | h | h | h | h | h | h | h | h :
      index = 0 ∨ index = 1 ∨ index = 2 ∨ index = 3 ∨ index = 4 ∨ index = 5 ∨ index = 6 ∨
        index = 7 ∨ 8 ≤ index := by omega
  · subst h
    simp only [editRow, cfgInRange, editedField]
    omega
  · subst h
    simp only [editRow, cfgInRange, editedField]
    refine ⟨by omega, by omega, ?_, ?_⟩ <;> split_ifs <;> omega
  · subst h
    cases channel_nr <;>
      simp only [editRow, cfgInRange, editedField, cfg_t.chan, cfg_t.setChan, range, toUInt8,
        SET_AMP_LEVEL_1, SET_AMP_LEVEL_2, SET_AMP_LEVEL_4, if_true, if_false,
        reduceCtorEq, ne_eq, OfNat.ofNat_ne_one, not_false_eq_true, forall_const] at hsv ⊢ <;>
      omega
  · subst h
    cases channel_nr <;>
      simp only [editRow, editTime, set_counter_defaults, cfgInRange, editedField, cfg_t.chan,
        cfg_t.setChan, range, toUInt8, MENU_TIM_50US_VALUE, MENU_TIM_100MS_VALUE,
        if_true, if_false, reduceCtorEq, ne_eq, OfNat.ofNat_ne_one, not_false_eq_true,
        forall_const] at hsv ⊢ <;>
      first | omega | (split_ifs <;> (try dsimp only) <;> omega)
  · subst h
    cases channel_nr <;>
      simp only [editRow, cfgInRange, editedField, cfg_t.chan, cfg_t.setChan, range, toInt8,
        if_true, if_false, reduceCtorEq, ne_eq, OfNat.ofNat_ne_one, not_false_eq_true,
        forall_const] at hsv ⊢ <;>
      omega
  · subst h
    have hA := hch rfl
    subst hA
    simp only [editRow, cfgInRange, editedField, cfg_t.chan, cfg_t.setChan, range, toUInt8,
      SET_TRIG_OFF, SET_TRIG_NORM_N, if_true, if_false, reduceCtorEq, ne_eq,
      OfNat.ofNat_ne_one, not_false_eq_true, forall_const] at hsv ⊢
    omega
  · subst h
    cases channel_nr <;>
      simp only [editRow, cfgInRange, editedField, cfg_t.chan, cfg_t.setChan, range, toUInt8,
        if_true, if_false, reduceCtorEq, ne_eq, OfNat.ofNat_ne_one, not_false_eq_true,
        forall_const] at hsv ⊢ <;>
      omega
  · subst h
    cases channel_nr <;>
      simp only [editRow, cfgInRange, editedField, cfg_t.chan, cfg_t.setChan, range, toUInt8,
        SET_OPT_SINGLE, SET_OPT_TUNING, if_true, if_false, reduceCtorEq, ne_eq,
        OfNat.ofNat_ne_one, not_false_eq_true, forall_const] at hsv ⊢ <;>
      omega
  · obtain ⟨k, rfl⟩ : ∃ k, index = k + 8 := ⟨index - 8, by omega⟩
    simp only [editRow, cfgInRange, editedField]
    omega

/-- A value of a field in range is passed unchanged through the `uint8_t`
parameter `oldvalue` and the `int8_t` variable `select_value`. -/
theorem toInt8_small (v : Nat) (h : v ≤ 126) : toInt8 (v : Int) = (v : Int) := by
  unfold toInt8
  omega

/-- The ranges, and the order of the two time bases, are kept by every call of
`_print_row_str`, and the field of the row changes by at most 1. -/
theorem print_row_str_keeps (millis index : Nat) (channel_nr : channel_nr_t) (m : CMenu)
    (hrange : cfgInRange m.globals.g_cfg)
    (hle : m.globals.g_cfg.chan2.time ≤ m.globals.g_cfg.chan1.time) :
    cfgInRange (_print_row_str millis index channel_nr m).globals.g_cfg ∧
    (_print_row_str millis index channel_nr m).globals.g_cfg.chan2.time ≤
      (_print_row_str millis index channel_nr m).globals.g_cfg.chan1.time ∧
    editedField index channel_nr (_print_row_str millis index channel_nr m).globals.g_cfg ≤
      editedField index channel_nr m.globals.g_cfg + 1 ∧
    editedField index channel_nr m.globals.g_cfg ≤
      editedField index channel_nr (_print_row_str millis index channel_nr m).globals.g_cfg + 1 := by
  have hsame : cfgInRange m.globals.g_cfg ∧
      m.globals.g_cfg.chan2.time ≤ m.globals.g_cfg.chan1.time ∧
      editedField index channel_nr m.globals.g_cfg ≤
        editedField index channel_nr m.globals.g_cfg + 1 ∧
      editedField index channel_nr m.globals.g_cfg ≤
        editedField index channel_nr m.globals.g_cfg + 1 :=
    ⟨hrange, hle, by omega, by omega⟩
  have hr := hrange
  simp only [cfgInRange] at hr
  obtain ⟨ha1, ha2, ht1, ht2, ho1, ho2, htm, htl, hop⟩ := hr
  obtain h | h | h | h | h | h | h | h | h :
      index = 0 ∨ index = 1 ∨ index = 2 ∨ index = 3 ∨ index = 4 ∨ index = 5 ∨ index = 6 ∨
        index = 7 ∨ 8 ≤ index := by omega
  · subst h
    exact hsame
  · subst h
    have e : _print_row_str millis 1 channel_nr m = _print_value_str millis 1 channel_nr 0 m :=
      rfl
    rw [e]
    rcases print_value_str_cases millis 1 channel_nr 0 m (by decide) with hg | ⟨sv, -, -, hg⟩
    · rw [hg]
      exact hsame
    · rw [hg]
      exact editRow_keeps 1 channel_nr sv m.globals hrange hle (fun hne => absurd rfl hne)
        (fun h5 => absurd h5 (by decide))
  · subst h
    have e : _print_row_str millis 2 channel_nr m =
        _print_value_str millis 2 channel_nr (m.globals.g_cfg.chan channel_nr).amplifier m := rfl
    rw [e]
    have hv : (m.globals.g_cfg.chan channel_nr).amplifier ≤ 126 := by
      cases channel_nr <;> simp only [cfg_t.chan] <;> omega
    have ht := toInt8_small _ hv
    rcases print_value_str_cases millis 2 channel_nr _ m (by rw [ht]; omega) with
      hg | ⟨sv, h1, h2, hg⟩
    · rw [hg]
      exact hsame
    · rw [hg]
      rw [ht] at h1 h2
      exact editRow_keeps 2 channel_nr sv m.globals hrange hle (fun _ => ⟨h1, h2⟩)
        (fun h5 => absurd h5 (by decide))
  · subst h
    have e : _print_row_str millis 3 channel_nr m =
        _print_value_str millis 3 channel_nr (m.globals.g_cfg.chan channel_nr).time m := rfl
    rw [e]
    have hv : (m.globals.g_cfg.chan channel_nr).time ≤ 126 := by
      cases channel_nr <;> simp only [cfg_t.chan] <;> omega
    have ht := toInt8_small _ hv
    rcases print_value_str_cases millis 3 channel_nr _ m (by rw [ht]; omega) with
      hg | ⟨sv, h1, h2, hg⟩
    · rw [hg]
      exact hsame
    · rw [hg]
      rw [ht] at h1 h2
      exact editRow_keeps 3 channel_nr sv m.globals hrange hle (fun _ => ⟨h1, h2⟩)
        (fun h5 => absurd h5 (by decide))
  · subst h
    have e : _print_row_str millis 4 channel_nr m =
        _print_value_str millis 4 channel_nr (toUInt8 (m.globals.g_cfg.chan channel_nr).offset) m :=
      rfl
    rw [e]
    have hv : -31 ≤ (m.globals.g_cfg.chan channel_nr).offset ∧
        (m.globals.g_cfg.chan channel_nr).offset ≤ 31 := by
      cases channel_nr <;> simp only [cfg_t.chan] <;> omega
    have ht := toInt8_toUInt8 (m.globals.g_cfg.chan channel_nr).offset ⟨by omega, by omega⟩
    rcases print_value_str_cases millis 4 channel_nr _ m (by rw [ht]; omega) with
      hg | ⟨sv, h1, h2, hg⟩
    · rw [hg]
      exact hsame
    · rw [hg]
      rw [ht] at h1 h2
      exact editRow_keeps 4 channel_nr sv m.globals hrange hle (fun _ => ⟨h1, h2⟩)
        (fun h5 => absurd h5 (by decide))
  · subst h
    cases channel_nr
    · have e : _print_row_str millis 5 eChannel_nr1 m =
          _print_value_str millis 5 eChannel_nr1 m.globals.g_cfg.chan1.trigger_mode m := rfl
      rw [e]
      have ht := toInt8_small m.globals.g_cfg.chan1.trigger_mode (by omega)
      rcases print_value_str_cases millis 5 eChannel_nr1 _ m (by rw [ht]; omega) with
        hg | ⟨sv, h1, h2, hg⟩
      · rw [hg]
        exact hsame
      · rw [hg]
        rw [ht] at h1 h2
        exact editRow_keeps 5 eChannel_nr1 sv m.globals hrange hle (fun _ => ⟨h1, h2⟩)
          (fun _ => rfl)
    · exact hsame
  · subst h
    cases channel_nr
    · have e : _print_row_str millis 6 eChannel_nr1 m =
          _print_value_str millis 6 eChannel_nr1 m.globals.g_cfg.chan1.trigger_level m := rfl
      rw [e]
      have ht := toInt8_small m.globals.g_cfg.chan1.trigger_level (by omega)
      rcases print_value_str_cases millis 6 eChannel_nr1 _ m (by rw [ht]; omega) with
        hg | ⟨sv, h1, h2, hg⟩
      · rw [hg]
        exact hsame
      · rw [hg]
        rw [ht] at h1 h2
        exact editRow_keeps 6 eChannel_nr1 sv m.globals hrange hle (fun _ => ⟨h1, h2⟩)
          (fun h5 => absurd h5 (by decide))
    · exact hsame
  · subst h
    cases channel_nr
    · have hstatus : ∀ g : cfg_t, ∀ x : Nat,
          (cfgInRange g ∧ g.chan2.time ≤ g.chan1.time ∧
            editedField 7 eChannel_nr1 g ≤ editedField 7 eChannel_nr1 m.globals.g_cfg + 1 ∧
            editedField 7 eChannel_nr1 m.globals.g_cfg ≤ editedField 7 eChannel_nr1 g + 1) →
          (cfgInRange { g with chan2 := { g.chan2 with status := x } } ∧
            ({ g with chan2 := { g.chan2 with status := x } } : cfg_t).chan2.time ≤
              ({ g with chan2 := { g.chan2 with status := x } } : cfg_t).chan1.time ∧
            editedField 7 eChannel_nr1 { g with chan2 := { g.chan2 with status := x } } ≤
              editedField 7 eChannel_nr1 m.globals.g_cfg + 1 ∧
            editedField 7 eChannel_nr1 m.globals.g_cfg ≤
              editedField 7 eChannel_nr1 { g with chan2 := { g.chan2 with status := x } } + 1) :=
        fun g x hg => hg
      have e : (_print_row_str millis 7 eChannel_nr1 m).globals.g_cfg =
          { (_print_value_str millis 7 eChannel_nr1 m.globals.g_cfg.chan1.option m).globals.g_cfg
            with chan2 :=
              { (_print_value_str millis 7 eChannel_nr1 m.globals.g_cfg.chan1.option
                  m).globals.g_cfg.chan2 with
                status :=
                  if (_print_value_str millis 7 eChannel_nr1 m.globals.g_cfg.chan1.option
                    m).globals.g_cfg.chan1.option = SET_OPT_DUAL then SET_ON else SET_OFF } } :=
        rfl
      rw [e]
      apply hstatus
      have ht := toInt8_small m.globals.g_cfg.chan1.option (by omega)
      rcases print_value_str_cases millis 7 eChannel_nr1 _ m (by rw [ht]; omega) with
        hg | ⟨sv, h1, h2, hg⟩
      · rw [hg]
        exact hsame
      · rw [hg]
        rw [ht] at h1 h2
        exact editRow_keeps 7 eChannel_nr1 sv m.globals hrange hle (fun _ => ⟨h1, h2⟩)
          (fun h5 => absurd h5 (by decide))
    · exact hsame
  · obtain ⟨k, rfl⟩ : ∃ k, index = k + 8 := ⟨index - 8, by omega⟩
    exact hsame

/-- C25 (counterexample): in `editSlowerChannelBMenu` every field is in range
(`chan[A].time == 2`, `chan[B].time == 9`); the time row of channel B is marked
and the encoder is not turned, and the edit changes `chan[B].time` from 9 to
2, a change of 7. -/
theorem C25_counterexample :
    cfgInRange editSlowerChannelBMenu.globals.g_cfg ∧
    editSlowerChannelBMenu.rotaryencoder._upstate = false ∧
    editSlowerChannelBMenu.rotaryencoder._downstate = false ∧
    editedField 3 eChannel_nr2 editSlowerChannelBMenu.globals.g_cfg = 9 ∧
    editedField 3 eChannel_nr2
      (_print_row_str 0 3 eChannel_nr2 editSlowerChannelBMenu).globals.g_cfg = 2 ∧
    editedField 3 eChannel_nr2
      (_print_value_str 0 3 eChannel_nr2 9 editSlowerChannelBMenu).globals.g_cfg = 2 := by
  decide

/-- C25 (amended): for every configuration whose fields are in range and whose
channel B time base is not slower than channel A's, every call of
`_print_row_str` (which hands the present value of the row to
`_print_value_str`), for every row, channel, clock value and encoder state,
leaves every field in its valid range and channel B not slower than channel A,
changes the field of the row by at most 1, and leaves both time bases below
13, the number of entries of `_counter_values`. -/
theorem C25_edit_keeps_ranges (millis index : Nat) (channel_nr : channel_nr_t) (m : CMenu)
    (hrange : cfgInRange m.globals.g_cfg)
    (hle : m.globals.g_cfg.chan2.time ≤ m.globals.g_cfg.chan1.time) :
    cfgInRange (_print_row_str millis index channel_nr m).globals.g_cfg ∧
    (_print_row_str millis index channel_nr m).globals.g_cfg.chan2.time ≤
      (_print_row_str millis index channel_nr m).globals.g_cfg.chan1.time ∧
    editedField index channel_nr (_print_row_str millis index channel_nr m).globals.g_cfg ≤
      editedField index channel_nr m.globals.g_cfg + 1 ∧
    editedField index channel_nr m.globals.g_cfg ≤
      editedField index channel_nr (_print_row_str millis index channel_nr m).globals.g_cfg + 1 ∧
    (_print_row_str millis index channel_nr m).globals.g_cfg.chan1.time < _counter_values.length ∧
    (_print_row_str millis index channel_nr m).globals.g_cfg.chan2.time < _counter_values.length := by
  have h := print_row_str_keeps millis index channel_nr m hrange hle
  have hr := h.1
  simp only [cfgInRange] at hr
  have hlen : _counter_values.length = 13 := rfl
  rw [hlen]
  exact ⟨h.1, h.2.1, h.2.2.1, h.2.2.2, by omega, by omega⟩

/-- Witness for the amended C25: the time row of channel A marked and the
encoder turned up, default configuration. -/
theorem C25_edit_keeps_ranges_witness :
    cfgInRange editTimeUpMenu.globals.g_cfg ∧
    editTimeUpMenu.globals.g_cfg.chan2.time ≤ editTimeUpMenu.globals.g_cfg.chan1.time ∧
    cfgInRange (_print_row_str 0 3 eChannel_nr1 editTimeUpMenu).globals.g_cfg ∧
    (_print_row_str 0 3 eChannel_nr1 editTimeUpMenu).globals.g_cfg.chan2.time ≤
      (_print_row_str 0 3 eChannel_nr1 editTimeUpMenu).globals.g_cfg.chan1.time ∧
    editedField 3 eChannel_nr1 (_print_row_str 0 3 eChannel_nr1 editTimeUpMenu).globals.g_cfg ≤
      editedField 3 eChannel_nr1 editTimeUpMenu.globals.g_cfg + 1 ∧
    editedField 3 eChannel_nr1 editTimeUpMenu.globals.g_cfg ≤
      editedField 3 eChannel_nr1 (_print_row_str 0 3 eChannel_nr1 editTimeUpMenu).globals.g_cfg + 1 ∧
    (_print_row_str 0 3 eChannel_nr1 editTimeUpMenu).globals.g_cfg.chan1.time <
      _counter_values.length ∧
    (_print_row_str 0 3 eChannel_nr1 editTimeUpMenu).globals.g_cfg.chan2.time <
      _counter_values.length :=
  ⟨by decide, by decide,
    C25_edit_keeps_ranges 0 3 eChannel_nr1 editTimeUpMenu (by decide) (by decide)⟩

/-! ### Double-click window of the encoder push switch -/

set_option maxRecDepth 100000 in
/-- C30 (evaluation of the code): with `update()` run once per debounce period
on the fresh encoder object, a second short click whose release is registered
`k` periods after the first one's (`4 ≤ k < 120`) is classified `DoubleClicked`
exactly when `k ≤ 59`; at `k = 80` (400 ms) the state is `Pushed`.  After a
single short click the counter `_doubleClickTicks` is `118 - 2*n` after `n`
further periods, and the state becomes `Pushed` at `n = 59` (295 ms), not
before. -/
theorem C30_double_click_window :
    (∀ k ∈ List.range 120, 4 ≤ k →
      ((clickTwice k)._button = Button_t.DoubleClicked ↔ k ≤ 59)) ∧
    (clickTwice 80)._button = Button_t.Pushed ∧
    (∀ n ∈ List.range 59,
      (clickOnce n)._button = Button_t.Open ∧ (clickOnce n)._doubleClickTicks = 118 - 2 * n) ∧
    (clickOnce 59)._button = Button_t.Pushed := by
  decide

/-! ### Nesting of `updateSelection` while the button is held -/

/-- The value editor leaves the button part of the encoder object alone. -/
theorem print_value_str_buttonPart (millis index : Nat) (channel_nr : channel_nr_t)
    (oldvalue : Nat) (m : CMenu) :
    buttonPart (_print_value_str millis index channel_nr oldvalue m).rotaryencoder =
      buttonPart m.rotaryencoder := by
  unfold _print_value_str selectValue
  by_cases hedit : index = m._menuctrl.rowindex ∧ m._menuctrl.mark_on = true
  · simp only [hedit, and_self, if_true]
    cases hd : (m.rotaryencoder.down).1 <;> cases hu : (m.rotaryencoder.up).1 <;>
      simp [CRotaryEncoder.up, CRotaryEncoder.down] at hd hu <;>
      simp [CRotaryEncoder.up, CRotaryEncoder.down, hd, hu, buttonPart]
  · simp only [hedit, if_false]
    rfl

/-- The row printer leaves the button part of the encoder object alone. -/
theorem print_row_str_buttonPart (millis index : Nat) (channel_nr : channel_nr_t) (m : CMenu) :
    buttonPart (_print_row_str millis index channel_nr m).rotaryencoder =
      buttonPart m.rotaryencoder := by
  obtain h | h | h | h | h | h | h | h | h :
      index = 0 ∨ index = 1 ∨ index = 2 ∨ index = 3 ∨ index = 4 ∨ index = 5 ∨ index = 6 ∨
        index = 7 ∨ 8 ≤ index := by omega
  · subst h
    rfl
  · subst h
    exact print_value_str_buttonPart _ _ _ _ _
  · subst h
    exact print_value_str_buttonPart _ _ _ _ _
  · subst h
    exact print_value_str_buttonPart _ _ _ _ _
  · subst h
    exact print_value_str_buttonPart _ _ _ _ _
  · subst h
    cases channel_nr
    · exact print_value_str_buttonPart _ _ _ _ _
    · rfl
  · subst h
    cases channel_nr
    · exact print_value_str_buttonPart _ _ _ _ _
    · rfl
  · subst h
    cases channel_nr
    · exact print_value_str_buttonPart millis 7 eChannel_nr1 m.globals.g_cfg.chan1.option m
    · rfl
  · obtain ⟨k, rfl⟩ : ∃ k, index = k + 8 := ⟨index - 8, by omega⟩
    rfl

/-- The menu page leaves the button part of the encoder object alone. -/
theorem defaultMenu_buttonPart (millis : Nat) (m : CMenu) :
    buttonPart (_defaultMenu millis m).rotaryencoder = buttonPart m.rotaryencoder := by
  unfold _defaultMenu
  generalize List.range 8 = rows
  induction rows generalizing m with
  | nil => rfl
  | cons i rest ih =>
    simp only [List.foldl_cons]
    rw [ih]
    exact print_row_str_buttonPart _ _ _ _

/-- The draw pass leaves the encoder object alone. -/
theorem draw_channels_encoder (a b : Bool) (m : CMenu) :
    (_draw_channels a b m).rotaryencoder = m.rotaryencoder := by
  unfold _draw_channels
  split_ifs <;> rfl

/-- The row selection leaves the button part alone. -/
theorem settingsRow_buttonPart (h : HwSample) (m : CMenu) :
    buttonPart (settingsRow h m).rotaryencoder = buttonPart m.rotaryencoder := by
  unfold settingsRow
  cases hd : m.rotaryencoder._downstate <;> cases hu : m.rotaryencoder._upstate <;>
    simp [CRotaryEncoder.up, CRotaryEncoder.down, buttonPart, hd, hu]

/-- The body of `case SETTINGS` leaves the button part alone. -/
theorem settingsCase_buttonPart (h : HwSample) (m : CMenu) :
    buttonPart (settingsCase h m).rotaryencoder = buttonPart m.rotaryencoder := by
  unfold settingsCase
  dsimp only
  split_ifs
  · dsimp only
    rw [defaultMenu_buttonPart, settingsRow_buttonPart]
  · rw [defaultMenu_buttonPart, settingsRow_buttonPart]

/-- The body of `case MENU_DEFAULT` leaves the button part alone. -/
theorem menuDefaultCase_buttonPart (h : HwSample) (m : CMenu) :
    buttonPart (menuDefaultCase h m).rotaryencoder = buttonPart m.rotaryencoder := by
  unfold menuDefaultCase
  dsimp only
  rw [defaultMenu_buttonPart]

/-- The body of `case SAVE_SET` leaves the button part alone. -/
theorem saveSetCase_buttonPart (h : HwSample) (m : CMenu) :
    buttonPart (saveSetCase h m).rotaryencoder = buttonPart m.rotaryencoder := by
  unfold saveSetCase
  cases hd : m.rotaryencoder._downstate <;> cases hu : m.rotaryencoder._upstate <;>
    simp [CRotaryEncoder.up, CRotaryEncoder.down, buttonPart, hd, hu]

/-- The body of `case SAVE_DATA` leaves the encoder object alone. -/
theorem saveDataCase_encoder {σ : Type} (E : EEPROMClass σ) (st : σ) (m : CMenu) :
    (saveDataCase E st m).2.rotaryencoder = m.rotaryencoder := by
  unfold saveDataCase
  split_ifs <;> rfl

/-- The switch of `updateSelection` leaves the button part alone. -/
theorem selectionSwitch_buttonPart {σ : Type} (E : EEPROMClass σ) (h : HwSample) (st : σ)
    (m : CMenu) :
    buttonPart (selectionSwitch E h st m).2.rotaryencoder = buttonPart m.rotaryencoder := by
  unfold selectionSwitch
  split <;> try dsimp only
  · rw [menuDefaultCase_buttonPart]
  · rw [menuDefaultCase_buttonPart]
  · rw [menuDefaultCase_buttonPart]
  · rw [settingsCase_buttonPart]
  · rw [defaultMenu_buttonPart]
  · rw [draw_channels_encoder]
  · rw [saveSetCase_buttonPart]
  · rw [saveSetCase_buttonPart]
  · rw [saveDataCase_encoder]

/-- The switch of `updateMenu` leaves the button part alone. -/
theorem menuSwitch_buttonPart {σ : Type} (E : EEPROMClass σ) (st : σ) (millis : Nat)
    (m : CMenu) :
    buttonPart (menuSwitch E st millis m).rotaryencoder = buttonPart m.rotaryencoder := by
  unfold menuSwitch
  split <;> try dsimp only
  · split_ifs
    · rw [defaultMenu_buttonPart]
    · rfl

/-- The switch after an encoder turn leaves the encoder object alone. -/
theorem turnSwitch_encoder (millis : Nat) (m : CMenu) :
    (turnSwitch millis m).rotaryencoder = m.rotaryencoder := by
  unfold turnSwitch
  split <;> rfl

/-- With the switch read pushed, the push-switch handling keeps the button
state `HoldOn` and `_doubleClickTicks` at 0. -/
theorem updateButton_held (e : CRotaryEncoder) (h : buttonPart e = (Button_t.HoldOn, 0)) :
    buttonPart (updateButton true e) = (Button_t.HoldOn, 0) := by
  obtain ⟨t, o, n, bp, bpp, up, dn, kd, dct, b⟩ := e
  simp only [buttonPart, Prod.mk.injEq] at h
  obtain ⟨hb, hd⟩ := h
  subst hb hd
  cases bpp <;>
    by_cases hk : toInt16 (kd + 1) > ((ENC_HOLDTIME / ENC_DEBOUNCE_DELAY : Nat) : Int) <;>
    simp [updateButton, buttonPart, hk]

/-- The position handling of `update()` leaves the button part alone. -/
theorem updatePosition_buttonPart (millis : Nat) (position : Int) (e : CRotaryEncoder) :
    buttonPart (updatePosition millis position e).2 = buttonPart e := by
  unfold updatePosition
  dsimp only
  split_ifs <;> rfl

/-- With the switch read pushed, `update()` keeps the button state `HoldOn`
(and `_doubleClickTicks` at 0). -/
theorem update_held (millis : Nat) (position : Int) (e : CRotaryEncoder)
    (h : buttonPart e = (Button_t.HoldOn, 0)) :
    buttonPart (e.update millis position true).2 = (Button_t.HoldOn, 0) := by
  have hb := updateButton_held (updatePosition millis position e).2
    ((updatePosition_buttonPart millis position e).trans h)
  unfold CRotaryEncoder.update
  have hclick : ENCODER_CLICK ≠ 99 := by decide
  simp only [hclick, ne_eq, not_false_eq_true, if_true]
  split_ifs <;> first | exact hb | exact h

/-- While the switch reads pushed and the button state is `HoldOn`, no nesting
depth suffices for `updateSelection` to return. -/
theorem updateSelection_held {σ : Type} (E : EEPROMClass σ) (hw : Nat → HwSample)
    (hpush : ∀ k, (hw k).pushed = true) (fuel : Nat) :
    ∀ (k : Nat) (st : σ) (m : CMenu), buttonPart m.rotaryencoder = (Button_t.HoldOn, 0) →
      updateSelection E hw fuel k st m = none := by
  induction fuel with
  | zero =>
    intro k st m _
    rfl
  | succ fuel ih =>
    intro k st m hm
    have hsel := selectionSwitch_buttonPart E (hw k) st m
    rw [hm] at hsel
    unfold updateSelection
    dsimp only
    generalize selectionSwitch E (hw k) st m = r at hsel ⊢
    have hm2 : buttonPart
        (if r.2._menutimer.expired = true then
          ({ r.2 with _menu_state := eMenu_t.DRAW_SAMPLES } : CMenu)
        else r.2).rotaryencoder = (Button_t.HoldOn, 0) := by
      split_ifs
      · exact hsel
      · exact hsel
    generalize (if r.2._menutimer.expired = true then
          ({ r.2 with _menu_state := eMenu_t.DRAW_SAMPLES } : CMenu)
        else r.2) = m2 at hm2 ⊢
    rw [hpush k]
    have hu := update_held (hw k).millis (hw k).position m2.rotaryencoder hm2
    generalize m2.rotaryencoder.update (hw k).millis (hw k).position true = u at hu ⊢
    obtain ⟨u1, u2⟩ := u
    have hb1 : u2._button = Button_t.HoldOn := congrArg Prod.fst hu
    cases u1
    · simp only [Bool.false_eq_true, if_false, Option.some_bind, CRotaryEncoder.getButtonState,
        hb1, ne_eq, not_true_eq_false, if_true]
      apply ih
      rw [menuSwitch_buttonPart]
      exact hu
    · simp only [if_true]
      rw [ih _ _ _ (by rw [turnSwitch_encoder]; exact hu)]
      rfl

/-- Repeated `update()` over two runs of switch states in a row. -/
theorem updateEachPeriod_append (l1 l2 : List Bool) (e : CRotaryEncoder) :
    updateEachPeriod (l1 ++ l2) e = updateEachPeriod l2 (updateEachPeriod l1 e) := by
  induction l1 generalizing e with
  | nil => rfl
  | cons p rest ih => exact ih _

set_option maxRecDepth 100000 in
/-- The encoder object after the switch read pushed at 126 calls of `update()`. -/
theorem held_126 :
    updateEachPeriod (List.replicate 126 true) startEncoder =
      { startEncoder with _sampleTime := 630, _button_pushed := true,
                          _button_pushed_prev := true, _keyDownTicks := 125 } := by
  decide

set_option maxRecDepth 100000 in
/-- The button state `HoldOn` (with `_doubleClickTicks` at 0) is reached from
the fresh encoder object when the switch reads pushed at 252 calls of
`update()`, and not at 251. -/
theorem holdOn_reached :
    buttonPart (updateEachPeriod (List.replicate 252 true) startEncoder) =
      (Button_t.HoldOn, 0) ∧
    buttonPart (updateEachPeriod (List.replicate 251 true) startEncoder) =
      (Button_t.Open, 0) := by
  have h252 : List.replicate 252 true = List.replicate 126 true ++ List.replicate 126 true :=
    by decide
  have h251 : List.replicate 251 true = List.replicate 126 true ++ List.replicate 125 true :=
    by decide
  rw [h252, h251, updateEachPeriod_append, updateEachPeriod_append, held_126]
  decide

/-- Once the switch reads open, `updateSelection` from `holdOnMenu` returns:
the nesting depth 3 suffices (two calls of `update()` register the release),
the depth 2 does not; from the start menu with the switch open the depth 1
suffices. -/
theorem updateSelection_released :
    (updateSelection RamEEPROM openButton 3 0 erasedEEPROM holdOnMenu).isSome = true ∧
    (updateSelection RamEEPROM openButton 2 0 erasedEEPROM holdOnMenu).isSome = false ∧
    (updateSelection RamEEPROM openButton 1 0 erasedEEPROM startMenu).isSome = true := by
  decide

/-- C29 (evaluation of the code): for every storage, menu state and hardware
values with the push switch read pushed at every pass, if the button state is
`HoldOn` (with `_doubleClickTicks` at 0, as it is when `HoldOn` is reached),
then `updateSelection`, and likewise `SaveConfigdata`, does not return within
any nesting depth `fuel`: each nested call ends in `getButtonState() == HoldOn`
and calls `SaveConfigdata()` again. -/
theorem C29_nesting_unbounded_while_held {σ : Type} (E : EEPROMClass σ) (hw : Nat → HwSample)
    (fuel k : Nat) (st : σ) (m : CMenu)
    (hpush : ∀ i, (hw i).pushed = true)
    (hhold : m.rotaryencoder._button = Button_t.HoldOn)
    (hticks : m.rotaryencoder._doubleClickTicks = 0) :
    updateSelection E hw fuel k st m = none ∧ SaveConfigdata E hw fuel k st m = none := by
  have hm : buttonPart m.rotaryencoder = (Button_t.HoldOn, 0) := by
    simp only [buttonPart, hhold, hticks]
  refine ⟨updateSelection_held E hw hpush fuel k st m hm, ?_⟩
  unfold SaveConfigdata updateMenu
  apply updateSelection_held E hw hpush
  rw [menuSwitch_buttonPart]
  exact hm

/-- Witness for C29: `holdOnMenu` with the switch held, nesting depth 1000. -/
theorem C29_nesting_unbounded_while_held_witness :
    (∀ i, (heldButton i).pushed = true) ∧
    holdOnMenu.rotaryencoder._button = Button_t.HoldOn ∧
    holdOnMenu.rotaryencoder._doubleClickTicks = 0 ∧
    updateSelection RamEEPROM heldButton 1000 0 erasedEEPROM holdOnMenu = none ∧
    SaveConfigdata RamEEPROM heldButton 1000 0 erasedEEPROM holdOnMenu = none :=
  ⟨fun _ => rfl, rfl, rfl,
    C29_nesting_unbounded_while_held RamEEPROM heldButton 1000 0 erasedEEPROM holdOnMenu
      (fun _ => rfl) rfl rfl⟩

/-! ### Buffer fill -/

/-- With channel A armed and a positive countdown, a tick decrements the
countdown and leaves channel A's buffer and configuration alone. -/
theorem tick_countdown (adc1 adc2 : Nat) (s : State)
    (harm : s.g_cfg.chan1.sample_start = true) (hk : s._sample_counter1 > 0) :
    (ISR_TIMER2_COMPA adc1 adc2 s).channel1 = s.channel1 ∧
    (ISR_TIMER2_COMPA adc1 adc2 s)._sample_counter1 = s._sample_counter1 - 1 ∧
    (ISR_TIMER2_COMPA adc1 adc2 s).g_cfg.chan1 = s.g_cfg.chan1 := by
  obtain ⟨e1, e2, e3, -⟩ := chan2_part_frame adc2 (ISR_TIMER2_COMPA_chan1 adc1 s)
  unfold ISR_TIMER2_COMPA
  rw [e1, e2, e3]
  unfold ISR_TIMER2_COMPA_chan1
  simp only [harm, hk, if_true]
  simp

/-- With channel A armed and the countdown run out, a tick stores the sample
at the write index, advances the index modulo 128 and reseeds the countdown;
channel A stays armed unless the index wrapped in a triggered mode. -/
theorem tick_store (adc1 adc2 : Nat) (s : State)
    (harm : s.g_cfg.chan1.sample_start = true) (hk : s._sample_counter1 ≤ 0)
    (hi : s.channel1.index ≤ 127) :
    (ISR_TIMER2_COMPA adc1 adc2 s).channel1.data =
      s.channel1.data.set s.channel1.index (adcSample adc1) ∧
    (ISR_TIMER2_COMPA adc1 adc2 s).channel1.index = (s.channel1.index + 1) % 128 ∧
    (ISR_TIMER2_COMPA adc1 adc2 s)._sample_counter1 = counterValue s.g_cfg.chan1.time ∧
    (ISR_TIMER2_COMPA adc1 adc2 s).g_cfg.chan1.time = s.g_cfg.chan1.time ∧
    (ISR_TIMER2_COMPA adc1 adc2 s).g_cfg.chan1.trigger_mode = s.g_cfg.chan1.trigger_mode ∧
    ((s.channel1.index < 127 ∨ s.g_cfg.chan1.trigger_mode = SET_OFF) →
      (ISR_TIMER2_COMPA adc1 adc2 s).g_cfg.chan1.sample_start = true) := by
  obtain ⟨e1, e2, e3, -⟩ := chan2_part_frame adc2 (ISR_TIMER2_COMPA_chan1 adc1 s)
  unfold ISR_TIMER2_COMPA
  rw [e1, e2, e3]
  have hk2 : ¬ s._sample_counter1 > 0 := by omega
  have h256 : (s.channel1.index + 1) % 256 = s.channel1.index + 1 :=
    Nat.mod_eq_of_lt (by omega)
  unfold ISR_TIMER2_COMPA_chan1
  simp only [harm, hk2, if_true, if_false, h256, SAMPLE_DATA_SIZE]
  by_cases hw : s.channel1.index + 1 ≥ 128
  · have hidx : s.channel1.index = 127 := by omega
    by_cases hm : s.g_cfg.chan1.trigger_mode = SET_OFF
    · simp [hw, hm, hidx, harm]
    · simp [hw, hm, hidx]
  · have hlt : (s.channel1.index + 1) % 128 = s.channel1.index + 1 :=
      Nat.mod_eq_of_lt (by omega)
    simp [hw, hlt, harm]

/-- A countdown tick moves the fill phase from `r` to `r + 1`. -/
theorem fillPhase_countdown (adc1 adc2 : Nat) (s0 s : State) (N j r : Nat)
    (h : fillPhase s0 N j r s) (hr : r < N) (hj : j < 127) :
    fillPhase s0 N j (r + 1) (ISR_TIMER2_COMPA adc1 adc2 s) := by
  obtain ⟨hidx, hcnt, htime, hmode, hlen, harm⟩ := h
  obtain ⟨e1, e2, e3⟩ := tick_countdown adc1 adc2 s (harm (Or.inl hj)) (by omega)
  refine ⟨?_, ?_, ?_, ?_, ?_, ?_⟩
  · rw [e1]
    exact hidx
  · rw [e2, hcnt]
    push_cast
    ring
  · rw [e3]
    exact htime
  · rw [e3]
    exact hmode
  · rw [e1]
    exact hlen
  · intro _
    rw [e3]
    exact harm (Or.inl hj)

/-- The tick after the countdown has run out stores entry `j + 1` and starts
the next phase. -/
theorem fillPhase_store (adc1 adc2 : Nat) (s0 s : State) (N j : Nat)
    (h : fillPhase s0 N j N s) (hj : j < 127)
    (hN : counterValue s0.g_cfg.chan1.time = (N : Int)) :
    fillPhase s0 N (j + 1) 0 (ISR_TIMER2_COMPA adc1 adc2 s) := by
  obtain ⟨hidx, hcnt, htime, hmode, hlen, harm⟩ := h
  have hidx2 : s.channel1.index = j + 1 := by
    rw [hidx]
    exact Nat.mod_eq_of_lt (by omega)
  obtain ⟨e1, e2, e3, e4, e5, e6⟩ :=
    tick_store adc1 adc2 s (harm (Or.inl hj)) (by omega) (by omega)
  refine ⟨?_, ?_, ?_, ?_, ?_, ?_⟩
  · rw [e2, hidx2]
  · rw [e3, htime, hN]
    simp
  · rw [e4]
    exact htime
  · rw [e5]
    exact hmode
  · rw [e1, List.length_set]
    exact hlen
  · intro hc
    apply e6
    rcases hc with hc | hc
    · left
      omega
    · right
      rw [hmode]
      exact hc

/-- From a freshly armed channel A, `1 + j*(N+1) + r` ticks lead to phase
`(j, r)` of the fill. -/
theorem fill_phase (adc : Nat → Nat × Nat) (s : State) (N : Nat)
    (harm : s.g_cfg.chan1.sample_start = true) (hidx : s.channel1.index = 0)
    (hcnt : s._sample_counter1 = 0)
    (hN : counterValue s.g_cfg.chan1.time = (N : Int)) :
    ∀ j, j ≤ 127 → ∀ r, r ≤ N → (j = 127 → r = 0) →
      fillPhase s N j r (runTicks adc (1 + j * (N + 1) + r) s) := by
  intro j
  induction j with
  | zero =>
    intro _ r
    induction r with
    | zero =>
      intro _ _
      have e : 1 + 0 * (N + 1) + 0 = 0 + 1 := by omega
      rw [e]
      show fillPhase s N 0 0 (ISR_TIMER2_COMPA (adc 0).1 (adc 0).2 s)
      obtain ⟨e1, e2, e3, e4, e5, e6⟩ :=
        tick_store (adc 0).1 (adc 0).2 s harm (by omega) (by omega)
      refine ⟨?_, ?_, e4, e5, ?_, ?_⟩
      · rw [e2, hidx]
      · rw [e3, hN]
        simp
      · rw [e1, List.length_set]
      · intro _
        exact e6 (Or.inl (by omega))
    | succ r ih =>
      intro hr _
      have e : 1 + 0 * (N + 1) + (r + 1) = (1 + 0 * (N + 1) + r) + 1 := by omega
      rw [e]
      exact fillPhase_countdown _ _ s _ N 0 r (ih (by omega) (fun h => by omega)) (by omega)
        (by omega)
  | succ j ihj =>
    intro hj r
    induction r with
    | zero =>
      intro _ _
      have e : 1 + (j + 1) * (N + 1) + 0 = (1 + j * (N + 1) + N) + 1 := by ring
      rw [e]
      exact fillPhase_store _ _ s _ N j (ihj (by omega) N (le_refl N) (fun h => by omega))
        (by omega) hN
    | succ r ih =>
      intro hr h127
      have hj2 : j + 1 < 127 := by
        by_contra hc
        have := h127 (by omega)
        omega
      have e : 1 + (j + 1) * (N + 1) + (r + 1) = (1 + (j + 1) * (N + 1) + r) + 1 := by omega
      rw [e]
      exact fillPhase_countdown _ _ s _ N (j + 1) r (ih (by omega) (fun h => by omega))
        (by omega) hj2

/-- The fill of channel A's buffer for a reseed value `N`: entry `j` is stored
by tick `1 + j*(N+1)`, the write index is not 0 after 1 .. `127*(N+1)` ticks
and is 0 after `1 + 127*(N+1)` ticks; in mode Off channel A is then still armed
and, for `N = 0`, the next tick stores entry 0 again. -/
theorem fill_summary (adc : Nat → Nat × Nat) (s : State) (N : Nat)
    (harm : s.g_cfg.chan1.sample_start = true) (hidx : s.channel1.index = 0)
    (hcnt : s._sample_counter1 = 0)
    (hN : counterValue s.g_cfg.chan1.time = (N : Int))
    (hlen : s.channel1.data.length = 128) :
    (∀ j, j ≤ 127 →
      (runTicks adc (j * (N + 1)) s).channel1.index = j ∧
      (runTicks adc (1 + j * (N + 1)) s).channel1.data =
        (runTicks adc (j * (N + 1)) s).channel1.data.set j (adcSample (adc (j * (N + 1))).1) ∧
      (runTicks adc (1 + j * (N + 1)) s).channel1.data[j]? =
        some (adcSample (adc (j * (N + 1))).1)) ∧
    (∀ n, 1 ≤ n → n < 1 + 127 * (N + 1) → (runTicks adc n s).channel1.index ≠ 0) ∧
    (runTicks adc (1 + 127 * (N + 1)) s).channel1.index = 0 ∧
    (s.g_cfg.chan1.trigger_mode = SET_OFF →
      (runTicks adc (1 + 127 * (N + 1)) s).g_cfg.chan1.sample_start = true ∧
      (N = 0 →
        (runTicks adc (1 + 127 * (N + 1) + 1) s).channel1.data =
          (runTicks adc (1 + 127 * (N + 1)) s).channel1.data.set 0
            (adcSample (adc (1 + 127 * (N + 1))).1))) := by
  have hphase := fill_phase adc s N harm hidx hcnt hN
  have hbefore : ∀ j, j ≤ 127 →
      (runTicks adc (j * (N + 1)) s).channel1.index = j ∧
      (runTicks adc (j * (N + 1)) s)._sample_counter1 = 0 ∧
      (runTicks adc (j * (N + 1)) s).g_cfg.chan1.sample_start = true ∧
      (runTicks adc (j * (N + 1)) s).channel1.data.length = 128 := by
    intro j hj
    rcases Nat.eq_zero_or_pos j with h0 | hpos
    · subst h0
      rw [Nat.zero_mul]
      exact ⟨hidx, hcnt, harm, hlen⟩
    · obtain ⟨i, rfl⟩ : ∃ i, j = i + 1 := ⟨j - 1, by omega⟩
      have e : (i + 1) * (N + 1) = 1 + i * (N + 1) + N := by ring
      rw [e]
      obtain ⟨p1, p2, -, -, p5, p6⟩ := hphase i (by omega) N (le_refl N) (fun h => by omega)
      refine ⟨?_, ?_, p6 (Or.inl (by omega)), ?_⟩
      · rw [p1]
        exact Nat.mod_eq_of_lt (by omega)
      · rw [p2]
        omega
      · rw [p5]
        exact hlen
  have hlast : fillPhase s N 127 0 (runTicks adc (1 + 127 * (N + 1)) s) := by
    have h := hphase 127 (le_refl 127) 0 (Nat.zero_le N) (fun _ => rfl)
    rw [Nat.add_zero] at h
    exact h
  unfold fillPhase at hlast
  obtain ⟨l1, l2, -, -, -, l6⟩ := hlast
  have l1b : (runTicks adc (1 + 127 * (N + 1)) s).channel1.index = 0 := by
    rw [l1]
  refine ⟨?_, ?_, l1b, ?_⟩
  · intro j hj
    obtain ⟨b1, b2, b3, b4⟩ := hbefore j hj
    obtain ⟨t1, -⟩ := tick_store (adc (j * (N + 1))).1 (adc (j * (N + 1))).2
      (runTicks adc (j * (N + 1)) s) b3 (by omega) (by omega)
    rw [b1] at t1
    have e : 1 + j * (N + 1) = j * (N + 1) + 1 := by omega
    have hstep : (runTicks adc (j * (N + 1) + 1) s).channel1.data =
        (runTicks adc (j * (N + 1)) s).channel1.data.set j
          (adcSample (adc (j * (N + 1))).1) := t1
    rw [e]
    refine ⟨b1, hstep, ?_⟩
    rw [hstep]
    exact List.getElem?_set_self (by omega)
  · intro n h1 h2
    have hq : 0 < N + 1 := by omega
    have hdm := Nat.div_add_mod (n - 1) (N + 1)
    have hr := Nat.mod_lt (n - 1) hq
    have hjlt : (n - 1) / (N + 1) < 127 := (Nat.div_lt_iff_lt_mul hq).mpr (by omega)
    rw [Nat.mul_comm] at hdm
    generalize (n - 1) / (N + 1) = j at hdm hjlt
    generalize (n - 1) % (N + 1) = r at hdm hr
    have e : 1 + j * (N + 1) + r = n := by omega
    obtain ⟨p1, -⟩ := hphase j (by omega) r (by omega) (fun h => by omega)
    rw [e] at p1
    rw [p1, Nat.mod_eq_of_lt (by omega)]
    omega
  · intro hoff
    have l6b := l6 (Or.inr hoff)
    refine ⟨l6b, ?_⟩
    intro hN0
    generalize 1 + 127 * (N + 1) = K at l1b l2 l6b ⊢
    obtain ⟨t1, -⟩ := tick_store (adc K).1 (adc K).2 (runTicks adc K s) l6b (by omega)
      (by omega)
    rw [l1b] at t1
    exact t1

/-- C21: for every time base 1..11 with reseed value `N = _counter_values[time]`,
from a state with channel A armed, write index 0, countdown 0 and a buffer of
128 entries, under ticks only: for `j` = 0..127 the write index is `j` after
`j*(N+1)` ticks and tick `1 + j*(N+1)` stores its sample at `data[j]`; the write
index is not 0 after 1 .. `127*(N+1)` ticks and is 0 after `1 + 127*(N+1)`
ticks.  On the fastest time base (`time == 1`, `N = 0`) the index is back at 0
after exactly 128 ticks, and with `trigger_mode == Off` channel A is still
armed then and tick 129 stores its sample at entry 0 again. -/
theorem C21_buffer_fill_time (adc : Nat → Nat × Nat) (s : State)
    (ht1 : 1 ≤ s.g_cfg.chan1.time) (ht2 : s.g_cfg.chan1.time ≤ 11)
    (harm : s.g_cfg.chan1.sample_start = true) (hidx : s.channel1.index = 0)
    (hcnt : s._sample_counter1 = 0) (hlen : s.channel1.data.length = 128) :
    (∀ j, j ≤ 127 →
      (runTicks adc (j * ((counterValue s.g_cfg.chan1.time).toNat + 1)) s).channel1.index = j ∧
      (runTicks adc (1 + j * ((counterValue s.g_cfg.chan1.time).toNat + 1)) s).channel1.data =
        (runTicks adc (j * ((counterValue s.g_cfg.chan1.time).toNat + 1)) s).channel1.data.set j
          (adcSample (adc (j * ((counterValue s.g_cfg.chan1.time).toNat + 1))).1) ∧
      (runTicks adc (1 + j * ((counterValue s.g_cfg.chan1.time).toNat + 1)) s).channel1.data[j]? =
        some (adcSample (adc (j * ((counterValue s.g_cfg.chan1.time).toNat + 1))).1)) ∧
    (∀ n, 1 ≤ n → n < 1 + 127 * ((counterValue s.g_cfg.chan1.time).toNat + 1) →
      (runTicks adc n s).channel1.index ≠ 0) ∧
    (runTicks adc (1 + 127 * ((counterValue s.g_cfg.chan1.time).toNat + 1)) s).channel1.index
      = 0 ∧
    (s.g_cfg.chan1.time = 1 →
      (runTicks adc 128 s).channel1.index = 0 ∧
      (∀ n, 1 ≤ n → n < 128 → (runTicks adc n s).channel1.index ≠ 0) ∧
      (s.g_cfg.chan1.trigger_mode = SET_OFF →
        (runTicks adc 128 s).g_cfg.chan1.sample_start = true ∧
        (runTicks adc 129 s).channel1.data =
          (runTicks adc 128 s).channel1.data.set 0 (adcSample (adc 128).1))) := by
  have hnn : 0 ≤ counterValue s.g_cfg.chan1.time := by
    generalize s.g_cfg.chan1.time = t at ht1 ht2
    interval_cases t <;> decide
  have hN : counterValue s.g_cfg.chan1.time =
      (((counterValue s.g_cfg.chan1.time).toNat : Nat) : Int) :=
    (Int.toNat_of_nonneg hnn).symm
  obtain ⟨a1, a2, a3, -⟩ :=
    fill_summary adc s (counterValue s.g_cfg.chan1.time).toNat harm hidx hcnt hN hlen
  refine ⟨a1, a2, a3, ?_⟩
  intro hfast
  have hN0 : counterValue s.g_cfg.chan1.time = ((0 : Nat) : Int) := by
    rw [hfast]
    rfl
  obtain ⟨-, b2, b3, b4⟩ := fill_summary adc s 0 harm hidx hcnt hN0 hlen
  have e128 : 1 + 127 * (0 + 1) = 128 := rfl
  have e129 : 128 + 1 = 129 := rfl
  rw [e128] at b2 b3 b4
  refine ⟨b3, b2, ?_⟩
  intro hoff
  obtain ⟨c1, c2⟩ := b4 hoff
  have c3 := c2 rfl
  rw [e129] at c3
  exact ⟨c1, c3⟩

/-- Witness for C21: the free-running state on the fastest time base with
constant conversion results: the write index is back at 0 after 128 ticks,
channel A is still armed and tick 129 stores at entry 0. -/
theorem C21_buffer_fill_time_witness :
    (1 ≤ fastestFreeRunState.g_cfg.chan1.time ∧ fastestFreeRunState.g_cfg.chan1.time ≤ 11 ∧
      fastestFreeRunState.g_cfg.chan1.sample_start = true ∧
      fastestFreeRunState.channel1.index = 0 ∧ fastestFreeRunState._sample_counter1 = 0 ∧
      fastestFreeRunState.channel1.data.length = 128) ∧
    (runTicks constAdc 128 fastestFreeRunState).channel1.index = 0 ∧
    (runTicks constAdc 128 fastestFreeRunState).g_cfg.chan1.sample_start = true ∧
    (runTicks constAdc 129 fastestFreeRunState).channel1.data =
      (runTicks constAdc 128 fastestFreeRunState).channel1.data.set 0
        (adcSample (constAdc 128).1) :=
  ⟨⟨by decide, by decide, rfl, rfl, rfl, List.length_replicate 128 0⟩,
    ((C21_buffer_fill_time constAdc fastestFreeRunState (by decide) (by decide) rfl rfl rfl
      (List.length_replicate 128 0)).2.2.2 rfl).1,
    (((C21_buffer_fill_time constAdc fastestFreeRunState (by decide) (by decide) rfl rfl rfl
      (List.length_replicate 128 0)).2.2.2 rfl).2.2 rfl)⟩

/-! ### Deviation to pixel

The floating-point operations of `pixel_value` are followed with their rounding
errors: a conversion from an integer is exact, a division and a multiplication
have a relative error of at most `2^-24` each.  Where the exact quotient
`1200 * (f - n) / n` is not an integer it is at least `1/n` away from the next
integer, more than the error, and the integer part of the floating-point value
is that of the exact quotient; where it is an integer the code is evaluated. -/

end LesScope
